import Mathlib

/-!
Dedicated-server provisioning: validation chain, orchestration and status pollers

A shallow embedding of `selectel/ddaas/ddaas.go` (the client) and
`selectel/resource_selectel_dedicated_server.go` (the resource hooks).

Modelling conventions

* A Go `error` is its message (`err.Error()`), a `String`; `fmt.Errorf("...: %w", err)`
  is string concatenation.  A Go `(T, error)` result is `Except String T`.
* The remote API is a record of response oracles (`Ddaas.API`), one per client
  method that goes to the transport.  Every call is appended to a `Trace`.
  Catalog listings answer the same way during one hook invocation; reads of a
  single server are indexed by their ordinal number, so that a poller sees a
  scripted sequence of responses.
* Time is a logical clock in nanoseconds (`time.Duration`), relative to the start
  of a poller.  Go's `select` picks any of the ready cases; the choice is an
  explicit scheduler `pick : Nat → Nat`, so a statement for every `pick` covers
  every execution.  In `WaitForServerStatus` and `waitForServerDeleted` the timer
  and the ticker start at the same instant and a read takes no logical time;
  `WaitForServerStatusTimed` is the status poller on a clock that keeps the order
  of the statements: the timer is armed first, the ticker starts later, and every
  read takes time.
* Loops carry a fuel argument; `none` means the fuel ran out.
* The transport under the client methods (`makeRequest`, `handleStatusCode`) is
  embedded on its own over `Ddaas.Transport`, which holds the calls into `net/http`
  and `encoding/json` as parameters; a response oracle of `Ddaas.API` stands for
  such a request followed by the decoding of its body.
* `setQueryParams` takes `json.Unmarshal` and `url.QueryEscape` as parameters; a Go map
  is the list of its entries in the order of the `range`, so a statement for every
  order covers every execution.
-/

namespace GoStrings

/-- Go `strings.HasPrefix` on the characters of two strings. -/
def startsWith : List Char → List Char → Bool
  | _, [] => true
  | [], _ :: _ => false
  | c :: cs, p :: ps => c == p && startsWith cs ps

/-- Substring search on character lists. -/
def containsChars : List Char → List Char → Bool
  | [], sub => startsWith [] sub
  | c :: cs, sub => startsWith (c :: cs) sub || containsChars cs sub

/-- Go `strings.Contains(s, substr)`. -/
def Contains (s substr : String) : Bool :=
  containsChars s.data substr.data

/-- Go `unicode.ToLower` restricted to ASCII; the case tables for the other
code points are not part of the repository and are the parameter `table`. -/
def toLowerRune (table : Char → Char) (c : Char) : Char :=
  if c.val < 128 then
    (if 'A' ≤ c ∧ c ≤ 'Z' then Char.ofNat (c.toNat + 32) else c)
  else table c

/-- Go `strings.ToLower`. -/
def ToLower (table : Char → Char) (s : String) : String :=
  String.mk (s.data.map (toLowerRune table))

end GoStrings

namespace Ddaas

/-- Go `type Status string`. -/
abbrev Status := String

def StatusActive : Status := "ACTIVE"
def StatusBuilding : Status := "BUILDING"
def StatusRebooting : Status := "REBOOTING"
def StatusReinstall : Status := "REINSTALL"
def StatusDeleted : Status := "DELETED"
def StatusError : Status := "ERROR"
def StatusMaintenance : Status := "MAINTENANCE"

structure Location where
  UUID : String
  Name : String
  LocationID : Int
  Description : String
  Enable : Bool
  deriving DecidableEq, Repr, Inhabited

structure Configuration where
  UUID : String
  Name : String
  TariffLine : String
  Model : String
  CPU : String
  RAM : String
  Storage : String
  LocationUUID : String
  deriving DecidableEq, Repr, Inhabited

structure Tariff where
  UUID : String
  Name : String
  Period : String
  Price : String
  Currency : String
  ConfigurationUUID : String
  deriving DecidableEq, Repr, Inhabited

structure OSImage where
  UUID : String
  Name : String
  Family : String
  Version : String
  Architecture : String
  Parameters : List (String × String)
  deriving DecidableEq, Repr, Inhabited

structure Network where
  UUID : String
  Name : String
  Typ : String
  LocationUUID : String
  VLAN : Int
  deriving DecidableEq, Repr, Inhabited

structure IPAddress where
  Typ : String
  IP : String
  Netmask : String
  Gateway : String
  deriving DecidableEq, Repr, Inhabited

/-- Go `map[string]interface{}` whose values are strings, as a key/value list. -/
abbrev Bag := List (String × String)

/-- Go map assignment `m[k] = v`. -/
def Bag.set (m : Bag) (k v : String) : Bag :=
  (k, v) :: m.filter (fun kv => kv.1 != k)

/-- Go map lookup followed by the `.(string)` assertion. -/
def Bag.get (m : Bag) (k : String) : Option String :=
  m.lookup k

structure DedicatedServer where
  UUID : String
  Name : String
  Status : Status
  ProjectID : String
  LocationUUID : String
  ServiceUUID : String
  ConfigurationUUID : String
  TariffUUID : String
  OSImageUUID : String
  IPAddresses : List IPAddress
  CreatedAt : String
  UpdatedAt : String
  OsParams : Bag
  deriving DecidableEq, Repr, Inhabited

structure DedicatedServerCreateOpts where
  ProjectID : String
  LocationUUID : String
  ConfigurationUUID : String
  TariffUUID : String
  OSImageUUID : String
  Name : String
  PublicNetworkUUID : String
  PrivateNetworkUUID : String
  OsParams : Bag
  deriving DecidableEq, Repr, Inhabited

structure DedicatedServerUpdateOpts where
  OSImageUUID : String
  OsParams : Bag
  deriving DecidableEq, Repr, Inhabited

structure DedicatedServerQueryParams where
  UUID : String := ""
  ProjectID : String := ""
  Name : String := ""
  Status : Status := ""
  deriving DecidableEq, Repr, Inhabited

/-- One request sent to the remote API by a client method. -/
inductive Call where
  | listServers (params : DedicatedServerQueryParams)
  | getServer (serverUUID : String)
  | createServer (opts : DedicatedServerCreateOpts)
  | updateServer (serverUUID : String) (opts : DedicatedServerUpdateOpts)
  | deleteServer (serverUUID : String)
  | listLocations
  | listConfigurations (locationUUID : String)
  | listTariffs (configUUID : String)
  | listOSImages (locationUUID serviceUUID : String)
  | listNetworks (locationUUID : String)
  deriving DecidableEq, Repr

/-- The requests issued so far, oldest first. -/
abbrev Trace := List Call

/-- Whether a request goes to the create endpoint (`POST /servers/v2/resource`). -/
def Call.isCreate : Call → Bool
  | .createServer _ => true
  | _ => false

/-- Whether a request reads a single server (`GET /servers/v2/resource/{id}`). -/
def Call.isRead : Call → Bool
  | .getServer _ => true
  | _ => false

/-- Whether a request changes the remote state (POST, PATCH or DELETE). -/
def Call.isMutating : Call → Bool
  | .createServer _ => true
  | .updateServer _ _ => true
  | .deleteServer _ => true
  | _ => false

/-- The remote API behind a client: what each transport-level method answers.
`server k uuid` is the answer to the read number `k` (from 0) of one hook run. -/
structure API where
  servers : DedicatedServerQueryParams → Except String (List DedicatedServer)
  server : Nat → String → Except String DedicatedServer
  create : DedicatedServerCreateOpts → Except String DedicatedServer
  update : String → DedicatedServerUpdateOpts → Except String DedicatedServer
  delete : String → Except String Unit
  locations : Except String (List Location)
  configurations : String → Except String (List Configuration)
  tariffs : String → Except String (List Tariff)
  osImages : String → String → Except String (List OSImage)
  networks : String → Except String (List Network)

def API.DedicatedServers (api : API) (params : DedicatedServerQueryParams) (tr : Trace) :
    Except String (List DedicatedServer) × Trace :=
  (api.servers params, tr ++ [Call.listServers params])

def API.CreateDedicatedServer (api : API) (opts : DedicatedServerCreateOpts) (tr : Trace) :
    Except String DedicatedServer × Trace :=
  (api.create opts, tr ++ [Call.createServer opts])

def API.UpdateDedicatedServer (api : API) (serverUUID : String)
    (opts : DedicatedServerUpdateOpts) (tr : Trace) : Except String DedicatedServer × Trace :=
  (api.update serverUUID opts, tr ++ [Call.updateServer serverUUID opts])

def API.DeleteDedicatedServer (api : API) (serverUUID : String) (tr : Trace) :
    Except String Unit × Trace :=
  (api.delete serverUUID, tr ++ [Call.deleteServer serverUUID])

def API.Locations (api : API) (tr : Trace) : Except String (List Location) × Trace :=
  (api.locations, tr ++ [Call.listLocations])

def API.Location (api : API) (locationUUID : String) (tr : Trace) :
    Except String Location × Trace :=
  match api.Locations tr with
  | (.error err, tr) => (.error err, tr)
  | (.ok locations, tr) =>
    match locations.find? (fun location => location.UUID == locationUUID) with
    | some location => (.ok location, tr)
    | none => (.error ("location with UUID " ++ locationUUID ++ " not found"), tr)

def API.Configurations (api : API) (locationUUID : String) (tr : Trace) :
    Except String (List Configuration) × Trace :=
  (api.configurations locationUUID, tr ++ [Call.listConfigurations locationUUID])

def API.Configuration (api : API) (configUUID : String) (tr : Trace) :
    Except String Configuration × Trace :=
  match api.Configurations "" tr with
  | (.error err, tr) => (.error err, tr)
  | (.ok configurations, tr) =>
    match configurations.find? (fun config => config.UUID == configUUID) with
    | some config => (.ok config, tr)
    | none => (.error ("configuration with UUID " ++ configUUID ++ " not found"), tr)

def API.Tariffs (api : API) (configUUID : String) (tr : Trace) :
    Except String (List Tariff) × Trace :=
  (api.tariffs configUUID, tr ++ [Call.listTariffs configUUID])

def API.Tariff (api : API) (tariffUUID : String) (tr : Trace) :
    Except String Tariff × Trace :=
  match api.Tariffs "" tr with
  | (.error err, tr) => (.error err, tr)
  | (.ok tariffs, tr) =>
    match tariffs.find? (fun tariff => tariff.UUID == tariffUUID) with
    | some tariff => (.ok tariff, tr)
    | none => (.error ("tariff with UUID " ++ tariffUUID ++ " not found"), tr)

def API.OSImages (api : API) (locationUUID serviceUUID : String) (tr : Trace) :
    Except String (List OSImage) × Trace :=
  (api.osImages locationUUID serviceUUID, tr ++ [Call.listOSImages locationUUID serviceUUID])

/-- The Go method returns `(&OSImage{}, err)` on failure; callers in the resource only
test `err`, then `image != nil`, so the pointer is kept: `some` also on failure. -/
def API.OSImage (api : API) (osImageUUID locationUUID serviceUUID : String) (tr : Trace) :
    (Option OSImage × Option String) × Trace :=
  match api.OSImages locationUUID serviceUUID tr with
  | (.error err, tr) => ((some default, some err), tr)
  | (.ok images, tr) =>
    match images.find? (fun image => image.UUID == osImageUUID) with
    | some image => ((some image, none), tr)
    | none => ((some default, some ("OS image with UUID " ++ osImageUUID ++ " not found")), tr)

def API.Networks (api : API) (locationUUID : String) (tr : Trace) :
    Except String (List Network) × Trace :=
  (api.networks locationUUID, tr ++ [Call.listNetworks locationUUID])

def API.Network (api : API) (networkUUID : String) (tr : Trace) :
    Except String Network × Trace :=
  match api.Networks "" tr with
  | (.error err, tr) => (.error err, tr)
  | (.ok networks, tr) =>
    match networks.find? (fun network => network.UUID == networkUUID) with
    | some network => (.ok network, tr)
    | none => (.error ("network with UUID " ++ networkUUID ++ " not found"), tr)

end Ddaas

namespace GoTime

/-- Go `time.Second`, in nanoseconds. -/
def Second : Int := 1000000000

/-- Go `context.Context` as seen by a poller: the instant at which `ctx.Done()` is
closed (`none`: never), on the poller's clock, and the text of `ctx.Err()`. -/
structure Context where
  doneAt : Option Int
  err : String

/-- Whether `ctx.Done()` is closed at the instant `now`. -/
def Context.isDone (ctx : Context) (now : Int) : Bool :=
  match ctx.doneAt with
  | some t => decide (t ≤ now)
  | none => false

/-- The three channels the pollers select on. -/
inductive SelectCase where
  | ctxDone
  | timerC
  | tickerC
  deriving DecidableEq, Repr

/-- The cases of the `select` that can proceed at `now`: the context is done, the
one-shot timer armed for `timeout` has fired, a tick due at `nextTick` is buffered. -/
def readyCases (ctx : Context) (timeout nextTick now : Int) : List SelectCase :=
  (if ctx.isDone now then [SelectCase.ctxDone] else []) ++
  (if timeout ≤ now then [SelectCase.timerC] else []) ++
  (if nextTick ≤ now then [SelectCase.tickerC] else [])

/-- The instant at which a `select` entered at `now` stops blocking: `now` itself
when a case is ready, else the earliest of the pending events. -/
def wakeTime (ctx : Context) (timeout nextTick now : Int) : Int :=
  let first := min timeout nextTick
  max now (match ctx.doneAt with
    | some t => min first t
    | none => first)

/-- Go `select` over `ctx.Done()`, `timer.C` and `ticker.C`: block until a case is
ready, then take one of the ready cases, the one the scheduler's number designates. -/
def goSelect (choice : Nat) (ctx : Context) (timeout nextTick now : Int) : SelectCase × Int :=
  let t := wakeTime ctx timeout nextTick now
  let ready := readyCases ctx timeout nextTick t
  (ready.getD (choice % ready.length) SelectCase.timerC, t)

/-- Go `time.Ticker` as its receiver sees it: once the tick due at `due` has been
received at the instant `received`, not before `due`, the next tick the channel can hold
is due at the first later multiple of the period that lies after `received`.  The ticks
due in between found the one slot of the channel taken and were dropped. -/
def tickAfter (period due received : Int) : Int :=
  due + period * (1 + (received - due) / period)

end GoTime

namespace Ddaas

open GoTime

/-- The ticker period of both pollers, `10 * time.Second`. -/
def pollInterval : Int := 10 * Second

/-- The loop of `WaitForServerStatus`.  `read k` is the answer of the read number `k`
of this poller; `reads` counts the reads done, which is also the number of the
current `select`; the result carries the number of reads performed. -/
def waitForServerStatusLoop (read : Nat → Except String DedicatedServer) (ctx : Context)
    (pick : Nat → Nat) (serverUUID : String) (targetStatus : Status) (timeout : Int) :
    Nat → Nat → Int → Int → Option (Except String Unit × Nat)
  | 0, _, _, _ => none
  | fuel + 1, reads, now, nextTick =>
    match goSelect (pick reads) ctx timeout nextTick now with
    | (SelectCase.ctxDone, _) => some (.error ctx.err, reads)
    | (SelectCase.timerC, _) =>
      some (.error ("timeout waiting for server " ++ serverUUID ++ " to reach status "
        ++ targetStatus), reads)
    | (SelectCase.tickerC, now) =>
      match read reads with
      | .error err => some (.error ("error checking server status: " ++ err), reads + 1)
      | .ok server =>
        if server.Status = targetStatus then some (.ok (), reads + 1)
        else if server.Status = StatusError then
          some (.error ("server " ++ serverUUID ++ " entered error state"), reads + 1)
        else
          waitForServerStatusLoop read ctx pick serverUUID targetStatus timeout
            fuel (reads + 1) now (nextTick + pollInterval)

/-- Go `(*API).WaitForServerStatus`: the timer is armed for `timeout`, the first tick
is due one period after the start. -/
def WaitForServerStatus (fuel : Nat) (read : Nat → Except String DedicatedServer)
    (ctx : Context) (pick : Nat → Nat) (serverUUID : String) (targetStatus : Status)
    (timeout : Int) : Option (Except String Unit × Nat) :=
  waitForServerStatusLoop read ctx pick serverUUID targetStatus timeout fuel 0 0 pollInterval

/-- The loop of `WaitForServerStatus` on a clock on which the work of the goroutine takes
time: `readTime k` is the time from the receipt of the tick number `k` to the next
`select`, that is the duration of the read number `k` and of the tests on its answer.
`read k` is what the call number `k` of `api.DedicatedServer(ctx, serverUUID)` returned. -/
def waitForServerStatusTimedLoop (read : Nat → Except String DedicatedServer)
    (readTime : Nat → Int) (ctx : Context) (pick : Nat → Nat) (serverUUID : String)
    (targetStatus : Status) (timeout : Int) :
    Nat → Nat → Int → Int → Option (Except String Unit × Nat)
  | 0, _, _, _ => none
  | fuel + 1, reads, now, nextTick =>
    match goSelect (pick reads) ctx timeout nextTick now with
    | (SelectCase.ctxDone, _) => some (.error ctx.err, reads)
    | (SelectCase.timerC, _) =>
      some (.error ("timeout waiting for server " ++ serverUUID ++ " to reach status "
        ++ targetStatus), reads)
    | (SelectCase.tickerC, received) =>
      match read reads with
      | .error err => some (.error ("error checking server status: " ++ err), reads + 1)
      | .ok server =>
        if server.Status = targetStatus then some (.ok (), reads + 1)
        else if server.Status = StatusError then
          some (.error ("server " ++ serverUUID ++ " entered error state"), reads + 1)
        else
          waitForServerStatusTimedLoop read readTime ctx pick serverUUID targetStatus timeout
            fuel (reads + 1) (received + readTime reads)
            (tickAfter pollInterval nextTick received)

/-- Go `(*API).WaitForServerStatus` with the order of its statements on the clock: the
instant 0 is the one at which `time.NewTimer(timeout)` runs, so that the timer fires at
`timeout`; `time.NewTicker` runs at `tickerStart`, so that the first tick is due one
period later; the loop reaches its first `select` at `entry`. -/
def WaitForServerStatusTimed (fuel : Nat) (read : Nat → Except String DedicatedServer)
    (readTime : Nat → Int) (tickerStart entry : Int) (ctx : Context) (pick : Nat → Nat)
    (serverUUID : String) (targetStatus : Status) (timeout : Int) :
    Option (Except String Unit × Nat) :=
  waitForServerStatusTimedLoop read readTime ctx pick serverUUID targetStatus timeout
    fuel 0 entry (tickerStart + pollInterval)

end Ddaas

namespace Selectel

open Ddaas GoTime

/-- Go `diag.Diagnostics` as produced here: `nil`, or `diag.FromErr(err)`. -/
abbrev Diagnostics := Option String

/-- The project-scoped client of the surrounding provider, which is not part of these
sources: what `validateRegion` and `Catalog.GetEndpoint` answer for a region, the
endpoint standing for the remote API reachable there. -/
structure SelvpcClient where
  validateRegion : String → Except String Unit
  GetEndpoint : String → Except String API

/-- The provider configuration `meta.(*Config)`. -/
structure Config where
  ProjectID : String
  GetSelVPCClientWithProjectScope : String → Except String SelvpcClient

/-- Go `*schema.ResourceData` for the dedicated-server resource: the id, the configured
attributes, the computed attributes, `HasChange("os_image_uuid")` and the timeouts. -/
structure ResourceData where
  id : String
  project_id : String
  region : String
  location_uuid : String
  configuration_uuid : String
  tariff_uuid : String
  os_image_uuid : String
  name : String
  public_network_uuid : String
  private_network_uuid : String
  os_params : List Bag
  os_image_uuid_changed : Bool
  uuid : String
  status : String
  service_uuid : String
  created_at : String
  updated_at : String
  ip_addresses : List IPAddress
  timeoutCreate : Int
  timeoutUpdate : Int
  timeoutDelete : Int

/-- What a hook run takes from its surroundings: the caller's context, the choices of
the `select` statements, `time.Now().Unix()` and the Unicode lower-case table. -/
structure Env where
  ctx : Context
  pick : Nat → Nat
  nowUnix : Int
  lowerTable : Char → Char

/-- Go `(*API).DedicatedServer` as called from a hook: the read's ordinal number is
the number of reads already in the trace. -/
def readServer (client : API) (serverUUID : String) (tr : Trace) :
    Except String DedicatedServer × Trace :=
  (client.server (tr.countP Call.isRead) serverUUID, tr ++ [Call.getServer serverUUID])

def getDedicatedServerClient (d : ResourceData) (config : Config) : Except String API :=
  match config.GetSelVPCClientWithProjectScope d.project_id with
  | .error err => .error ("can't get project-scope selvpc client for ddaas: " ++ err)
  | .ok selvpcClient =>
    match selvpcClient.validateRegion d.region with
    | .error err => .error ("can't validate region: " ++ err)
    | .ok _ =>
      match selvpcClient.GetEndpoint d.region with
      | .error err => .error ("can't get endpoint to init ddaas client: " ++ err)
      | .ok client => .ok client

def validateProjectAccess (client : API) (projectID : String) (tr : Trace) :
    Except String Unit × Trace :=
  match client.DedicatedServers { ProjectID := projectID } tr with
  | (.error err, tr) => (.error ("access denied to project " ++ projectID ++ ": " ++ err), tr)
  | (.ok _, tr) => (.ok (), tr)

def validateLocation (client : API) (locationUUID : String) (tr : Trace) :
    Except String Unit × Trace :=
  match client.Location locationUUID tr with
  | (.error err, tr) =>
    (.error ("location " ++ locationUUID ++ " not found or unavailable: " ++ err), tr)
  | (.ok _, tr) => (.ok (), tr)

def validateConfigurationInLocation (client : API) (configUUID locationUUID : String)
    (tr : Trace) : Except String Unit × Trace :=
  match client.Configurations locationUUID tr with
  | (.error err, tr) =>
    (.error ("unable to get configurations for location " ++ locationUUID ++ ": " ++ err), tr)
  | (.ok configurations, tr) =>
    if configurations.any (fun config => config.UUID == configUUID) then (.ok (), tr)
    else (.error ("configuration " ++ configUUID ++ " not available in location "
      ++ locationUUID), tr)

def validateTariffForConfiguration (client : API) (tariffUUID configUUID : String)
    (tr : Trace) : Except String Unit × Trace :=
  match client.Tariffs configUUID tr with
  | (.error err, tr) =>
    (.error ("unable to get tariffs for configuration " ++ configUUID ++ ": " ++ err), tr)
  | (.ok tariffs, tr) =>
    if tariffs.any (fun tariff => tariff.UUID == tariffUUID) then (.ok (), tr)
    else (.error ("tariff " ++ tariffUUID ++ " not available for configuration "
      ++ configUUID), tr)

def validateOSImageForConfiguration (client : API)
    (osImageUUID locationUUID configUUID : String) (tr : Trace) :
    Except String Unit × Trace :=
  match client.OSImages locationUUID configUUID tr with
  | (.error err, tr) =>
    (.error ("unable to get OS images for location " ++ locationUUID ++ " and configuration "
      ++ configUUID ++ ": " ++ err), tr)
  | (.ok images, tr) =>
    if images.any (fun image => image.UUID == osImageUUID) then (.ok (), tr)
    else (.error ("OS image " ++ osImageUUID ++ " not available for configuration "
      ++ configUUID ++ " in location " ++ locationUUID), tr)

def validateServerNameUniqueness (client : API) (projectID name : String) (tr : Trace) :
    Except String Unit × Trace :=
  match client.DedicatedServers { ProjectID := projectID, Name := name } tr with
  | (.error err, tr) => (.error ("unable to check server name uniqueness: " ++ err), tr)
  | (.ok servers, tr) =>
    if servers.length > 0 then
      (.error ("server with name '" ++ name ++ "' already exists in project " ++ projectID), tr)
    else (.ok (), tr)

def validatePrivateNetworkForConfiguration (env : Env) (client : API)
    (networkUUID configUUID locationUUID : String) (tr : Trace) :
    Except String Unit × Trace :=
  match client.Network networkUUID tr with
  | (.error err, tr) => (.error ("private network " ++ networkUUID ++ " not found: " ++ err), tr)
  | (.ok network, tr) =>
    if network.Typ ≠ "private" then
      (.error ("network " ++ networkUUID ++ " is not a private network"), tr)
    else if network.LocationUUID ≠ locationUUID then
      (.error ("private network " ++ networkUUID ++ " is not available in location "
        ++ locationUUID), tr)
    else
      match client.Configuration configUUID tr with
      | (.error err, tr) =>
        (.error ("unable to get configuration " ++ configUUID ++ ": " ++ err), tr)
      | (.ok config, tr) =>
        if GoStrings.Contains (GoStrings.ToLower env.lowerTable config.TariffLine) "chipcore" then
          (.error ("configuration " ++ configUUID ++ " (" ++ config.Name
            ++ ") does not support private networks"), tr)
        else (.ok (), tr)

def validatePublicNetworkForLocation (client : API) (networkUUID locationUUID : String)
    (tr : Trace) : Except String Unit × Trace :=
  match client.Network networkUUID tr with
  | (.error err, tr) => (.error ("public network " ++ networkUUID ++ " not found: " ++ err), tr)
  | (.ok network, tr) =>
    if network.Typ ≠ "public" then
      (.error ("network " ++ networkUUID ++ " is not a public network"), tr)
    else if network.LocationUUID ≠ locationUUID then
      (.error ("public network " ++ networkUUID ++ " is not available in location "
        ++ locationUUID), tr)
    else (.ok (), tr)

def generateServerName (env : Env) : String :=
  "terraform-server-" ++ toString env.nowUnix

def validateSoftRaidForConfiguration (env : Env) (client : API) (softRaid configUUID : String)
    (tr : Trace) : Except String Unit × Trace :=
  match client.Configuration configUUID tr with
  | (.error err, tr) =>
    (.error ("unable to get configuration " ++ configUUID ++ ": " ++ err), tr)
  | (.ok config, tr) =>
    if GoStrings.Contains (GoStrings.ToLower env.lowerTable config.TariffLine) "entry"
        ∧ softRaid ≠ "no_raid" then
      (.error ("configuration " ++ configUUID ++ " (" ++ config.Name
        ++ ") supports only no_raid"), tr)
    else (.ok (), tr)

def validatePartitionsWithRaid (partitions raid : String) : Except String Unit :=
  if raid = "raid0" ∧ GoStrings.Contains partitions "swap" then
    .error "swap partition is not recommended with RAID0"
  else .ok ()

def getDefaultPartitionsForConfiguration (env : Env) (client : API) (configUUID : String)
    (tr : Trace) : Except String String × Trace :=
  match client.Configuration configUUID tr with
  | (.error err, tr) => (.error err, tr)
  | (.ok config, tr) =>
    if GoStrings.Contains (GoStrings.ToLower env.lowerTable config.TariffLine) "entry" then
      (.ok "/=100%", tr)
    else (.ok "/=50%,/var=25%,/home=25%", tr)

/-- Go `val, ok := osParams[key].(string); ok && val != ""`: the value when it holds. -/
def nonEmptyParam (osParams : Bag) (key : String) : Option String :=
  match osParams.get key with
  | some val => if val ≠ "" then some val else none
  | none => none

/-- The pass-through part of `processOSParams`: the loop over `login`, `password`,
`user_data`, then `ssh_key`. -/
def passThroughParams (osParams : Bag) : Bag :=
  let processedParams : Bag :=
    ["login", "password", "user_data"].foldl
      (fun acc key =>
        match nonEmptyParam osParams key with
        | some val => acc.set key val
        | none => acc) []
  match nonEmptyParam osParams "ssh_key" with
  | some sshKey => processedParams.set "ssh_key" sshKey
  | none => processedParams

def processOSParams (env : Env) (client : API) (d : ResourceData)
    (osImageUUID configUUID : String) (tr : Trace) : Except String Bag × Trace :=
  match d.os_params with
  | [] => (.ok [], tr)
  | osParams :: _ =>
    match client.OSImage osImageUUID "" "" tr with
    | ((image, _), tr) =>
      let processedParams := passThroughParams osParams
      match image with
      | none => (.ok processedParams, tr)
      | some image =>
        if GoStrings.ToLower env.lowerTable image.Family = "linux" then
          match nonEmptyParam osParams "soft_raid" with
          | some softRaid =>
            match validateSoftRaidForConfiguration env client softRaid configUUID tr with
            | (.error err, tr) => (.error ("soft RAID validation failed: " ++ err), tr)
            | (.ok _, tr) =>
              let processedParams := processedParams.set "soft_raid" softRaid
              match nonEmptyParam osParams "partitions" with
              | some partitions =>
                match validatePartitionsWithRaid partitions softRaid with
                | .error err => (.error ("partitions validation failed: " ++ err), tr)
                | .ok _ => (.ok (processedParams.set "partitions" partitions), tr)
              | none => (.ok processedParams, tr)
          | none =>
            match getDefaultPartitionsForConfiguration env client configUUID tr with
            | (.error _, tr) => (.ok processedParams, tr)
            | (.ok defaultPartitions, tr) =>
              (.ok (processedParams.set "partitions" defaultPartitions), tr)
        else (.ok processedParams, tr)

/-- The outcome of a hook: the diagnostics, the resource record and the trace. -/
abbrev HookResult := Diagnostics × ResourceData × Trace

def resourceDedicatedServerV1Read (config : Config) (d : ResourceData) (tr : Trace) :
    HookResult :=
  match getDedicatedServerClient d config with
  | .error diagErr => (some diagErr, d, tr)
  | .ok client =>
    let serverUUID := d.id
    match readServer client serverUUID tr with
    | (.error err, tr) =>
      if GoStrings.Contains err "not found" then (none, { d with id := "" }, tr)
      else (some ("error reading dedicated server " ++ serverUUID ++ ": " ++ err), d, tr)
    | (.ok server, tr) =>
      let d := { d with
        uuid := server.UUID, name := server.Name, status := server.Status,
        project_id := server.ProjectID, location_uuid := server.LocationUUID,
        service_uuid := server.ServiceUUID, configuration_uuid := server.ConfigurationUUID,
        tariff_uuid := server.TariffUUID, os_image_uuid := server.OSImageUUID,
        created_at := server.CreatedAt, updated_at := server.UpdatedAt }
      let d := if server.IPAddresses.length > 0 then
        { d with ip_addresses := server.IPAddresses } else d
      (none, d, tr)

/-- The loop of `waitForServerDeleted`; same conventions as `waitForServerStatusLoop`. -/
def waitForServerDeletedLoop (read : Nat → Except String DedicatedServer) (ctx : Context)
    (pick : Nat → Nat) (serverUUID : String) (timeout : Int) :
    Nat → Nat → Int → Int → Option (Except String Unit × Nat)
  | 0, _, _, _ => none
  | fuel + 1, reads, now, nextTick =>
    match goSelect (pick reads) ctx timeout nextTick now with
    | (SelectCase.ctxDone, _) => some (.error ctx.err, reads)
    | (SelectCase.timerC, _) =>
      some (.error ("timeout waiting for server " ++ serverUUID ++ " to be deleted"), reads)
    | (SelectCase.tickerC, now) =>
      match read reads with
      | .error err =>
        if GoStrings.Contains err "not found" then some (.ok (), reads + 1)
        else some (.error ("error checking server status: " ++ err), reads + 1)
      | .ok _ =>
        waitForServerDeletedLoop read ctx pick serverUUID timeout
          fuel (reads + 1) now (nextTick + pollInterval)

def waitForServerDeleted (fuel : Nat) (read : Nat → Except String DedicatedServer)
    (ctx : Context) (pick : Nat → Nat) (serverUUID : String) (timeout : Int) :
    Option (Except String Unit × Nat) :=
  waitForServerDeletedLoop read ctx pick serverUUID timeout fuel 0 0 pollInterval

/-- What `WaitForServerStatus` does with the answer of one read: `some r` ends the poll
with `r`, `none` goes back to the `select`. -/
def statusVerdict (serverUUID : String) (targetStatus : Status) :
    Except String DedicatedServer → Option (Except String Unit)
  | .error err => some (.error ("error checking server status: " ++ err))
  | .ok server =>
    if server.Status = targetStatus then some (.ok ())
    else if server.Status = StatusError then
      some (.error ("server " ++ serverUUID ++ " entered error state"))
    else none

/-- What `waitForServerDeleted` does with the answer of one read. -/
def deletedVerdict : Except String DedicatedServer → Option (Except String Unit)
  | .error err =>
    if GoStrings.Contains err "not found" then some (.ok ())
    else some (.error ("error checking server status: " ++ err))
  | .ok _ => none

/-- The common shape of the two pollers: `verdict k` is what the poller does with the
answer of the read number `k`, `timeoutErr` the error of the timer case. -/
def pollLoop (verdict : Nat → Option (Except String Unit)) (ctx : Context)
    (pick : Nat → Nat) (timeoutErr : String) (timeout : Int) :
    Nat → Nat → Int → Int → Option (Except String Unit × Nat)
  | 0, _, _, _ => none
  | fuel + 1, reads, now, nextTick =>
    match goSelect (pick reads) ctx timeout nextTick now with
    | (SelectCase.ctxDone, _) => some (.error ctx.err, reads)
    | (SelectCase.timerC, _) => some (.error timeoutErr, reads)
    | (SelectCase.tickerC, now) =>
      match verdict reads with
      | some r => some (r, reads + 1)
      | none => pollLoop verdict ctx pick timeoutErr timeout fuel (reads + 1) now
          (nextTick + pollInterval)

/-- The error of the timer case of `WaitForServerStatus`. -/
def statusTimeoutErr (serverUUID : String) (targetStatus : Status) : String :=
  "timeout waiting for server " ++ serverUUID ++ " to reach status " ++ targetStatus

/-- The error of the timer case of `waitForServerDeleted`. -/
def deletedTimeoutErr (serverUUID : String) : String :=
  "timeout waiting for server " ++ serverUUID ++ " to be deleted"

/-- The reads a poller started after the trace `tr` sees, and the trace once it has
performed `n` of them. -/
def pollReads (client : API) (serverUUID : String) (tr : Trace) :
    Nat → Except String DedicatedServer :=
  fun k => client.server (tr.countP Call.isRead + k) serverUUID

def afterReads (serverUUID : String) (n : Nat) (tr : Trace) : Trace :=
  tr ++ List.replicate n (Call.getServer serverUUID)

def resourceDedicatedServerV1Create (fuel : Nat) (env : Env) (config : Config)
    (d : ResourceData) (tr : Trace) : Option HookResult :=
  match getDedicatedServerClient d config with
  | .error diagErr => some (some diagErr, d, tr)
  | .ok client =>
    let projectID := d.project_id
    match validateProjectAccess client projectID tr with
    | (.error err, tr) => some (some ("project validation failed: " ++ err), d, tr)
    | (.ok _, tr) =>
    let locationUUID := d.location_uuid
    let configurationUUID := d.configuration_uuid
    let tariffUUID := d.tariff_uuid
    let osImageUUID := d.os_image_uuid
    match validateLocation client locationUUID tr with
    | (.error err, tr) => some (some ("location validation failed: " ++ err), d, tr)
    | (.ok _, tr) =>
    match validateConfigurationInLocation client configurationUUID locationUUID tr with
    | (.error err, tr) => some (some ("configuration validation failed: " ++ err), d, tr)
    | (.ok _, tr) =>
    match validateTariffForConfiguration client tariffUUID configurationUUID tr with
    | (.error err, tr) => some (some ("tariff validation failed: " ++ err), d, tr)
    | (.ok _, tr) =>
    match validateOSImageForConfiguration client osImageUUID locationUUID configurationUUID tr with
    | (.error err, tr) => some (some ("OS image validation failed: " ++ err), d, tr)
    | (.ok _, tr) =>
    match (if d.name = "" then ((.ok (generateServerName env) : Except String String), tr)
      else
        match validateServerNameUniqueness client projectID d.name tr with
        | (.error err, tr) => (.error ("server name validation failed: " ++ err), tr)
        | (.ok _, tr) => (.ok d.name, tr)) with
    | (.error err, tr) => some (some err, d, tr)
    | (.ok serverName, tr) =>
    match (if d.private_network_uuid ≠ "" then
        validatePrivateNetworkForConfiguration env client d.private_network_uuid
          configurationUUID locationUUID tr
      else (.ok (), tr)) with
    | (.error err, tr) => some (some ("private network validation failed: " ++ err), d, tr)
    | (.ok _, tr) =>
    match (if d.public_network_uuid ≠ "" then
        validatePublicNetworkForLocation client d.public_network_uuid locationUUID tr
      else (.ok (), tr)) with
    | (.error err, tr) => some (some ("public network validation failed: " ++ err), d, tr)
    | (.ok _, tr) =>
    match processOSParams env client d osImageUUID configurationUUID tr with
    | (.error diagErr, tr) => some (some diagErr, d, tr)
    | (.ok osParams, tr) =>
    let dedicatedServerCreateOpts : DedicatedServerCreateOpts := {
      ProjectID := projectID
      LocationUUID := locationUUID
      ConfigurationUUID := configurationUUID
      TariffUUID := tariffUUID
      OSImageUUID := osImageUUID
      Name := serverName
      PublicNetworkUUID := d.public_network_uuid
      PrivateNetworkUUID := d.private_network_uuid
      OsParams := osParams }
    match client.CreateDedicatedServer dedicatedServerCreateOpts tr with
    | (.error err, tr) => some (some ("error creating dedicated server: " ++ err), d, tr)
    | (.ok server, tr) =>
    let d := { d with id := server.UUID, name := serverName }
    match WaitForServerStatus fuel (pollReads client server.UUID tr) env.ctx env.pick
        server.UUID StatusActive d.timeoutCreate with
    | none => none
    | some (.error err, n) =>
      some (some ("server creation timeout: " ++ err), d, afterReads server.UUID n tr)
    | some (.ok _, n) =>
      some (resourceDedicatedServerV1Read config d (afterReads server.UUID n tr))

def reinstallServerOS (fuel : Nat) (env : Env) (config : Config) (d : ResourceData)
    (client : API) (serverUUID : String) (tr : Trace) : Option HookResult :=
  let newOSImageUUID := d.os_image_uuid
  let configUUID := d.configuration_uuid
  let locationUUID := d.location_uuid
  match validateOSImageForConfiguration client newOSImageUUID locationUUID configUUID tr with
  | (.error err, tr) => some (some ("new OS image validation failed: " ++ err), d, tr)
  | (.ok _, tr) =>
  match processOSParams env client d newOSImageUUID configUUID tr with
  | (.error diagErr, tr) => some (some diagErr, d, tr)
  | (.ok osParams, tr) =>
  let updateOpts : DedicatedServerUpdateOpts := {
    OSImageUUID := newOSImageUUID
    OsParams := osParams }
  match client.UpdateDedicatedServer serverUUID updateOpts tr with
  | (.error err, tr) => some (some ("OS reinstall failed: " ++ err), d, tr)
  | (.ok _, tr) =>
  match WaitForServerStatus fuel (pollReads client serverUUID tr) env.ctx env.pick
      serverUUID StatusActive d.timeoutUpdate with
  | none => none
  | some (.error err, n) =>
    some (some ("OS reinstall timeout: " ++ err), d, afterReads serverUUID n tr)
  | some (.ok _, n) =>
    some (resourceDedicatedServerV1Read config d (afterReads serverUUID n tr))

def resourceDedicatedServerV1Update (fuel : Nat) (env : Env) (config : Config)
    (d : ResourceData) (tr : Trace) : Option HookResult :=
  match getDedicatedServerClient d config with
  | .error diagErr => some (some diagErr, d, tr)
  | .ok client =>
    let serverUUID := d.id
    if d.os_image_uuid_changed then reinstallServerOS fuel env config d client serverUUID tr
    else some (resourceDedicatedServerV1Read config d tr)

def resourceDedicatedServerV1Delete (fuel : Nat) (env : Env) (config : Config)
    (d : ResourceData) (tr : Trace) : Option HookResult :=
  match getDedicatedServerClient d config with
  | .error diagErr => some (some diagErr, d, tr)
  | .ok client =>
    let serverUUID := d.id
    match client.DeleteDedicatedServer serverUUID tr with
    | (.error err, tr) =>
      if GoStrings.Contains err "not found" then some (none, d, tr)
      else some (some ("error deleting dedicated server " ++ serverUUID ++ ": " ++ err), d, tr)
    | (.ok _, tr) =>
      match waitForServerDeleted fuel (pollReads client serverUUID tr) env.ctx env.pick
          serverUUID d.timeoutDelete with
      | none => none
      | some (.error err, n) =>
        some (some ("server deletion timeout: " ++ err), d, afterReads serverUUID n tr)
      | some (.ok _, n) => some (none, d, afterReads serverUUID n tr)

end Selectel

/-! ## The validation chain as the specification words it -/

namespace Selectel

open Ddaas GoTime

/-- One check of the validation chain: it may read from the catalog, which extends the
trace, and it passes or fails with an error. -/
abbrev Check := Trace → Except String Unit × Trace

/-- Run the checks in the order of the list, short-circuiting on the first failure: the
checks after a failing one are not entered. -/
def runChecks : List Check → Check
  | [], tr => (.ok (), tr)
  | c :: cs, tr =>
    match c tr with
    | (.error err, tr) => (.error err, tr)
    | (.ok _, tr) => runChecks cs tr

/-- A check whose error is wrapped with the name of the failed check. -/
def labelled (label : String) (c : Check) : Check := fun tr =>
  match c tr with
  | (.error err, tr) => (.error (label ++ err), tr)
  | (.ok _, tr) => (.ok (), tr)

/-- A check that is skipped. -/
def skipped : Check := fun tr => (.ok (), tr)

/-- A check that never calls the create endpoint. -/
def NoCreate (c : Check) : Prop :=
  ∀ t, (c t).2.countP Call.isCreate = t.countP Call.isCreate

/-- The validation chain in the order of the specification: 1 project access,
2 location, 3 configuration, 4 tariff, 5 OS image, 6 name (when one is supplied),
7 private network (when supplied), 8 public network (when supplied), 9 OS-parameter
normalisation. -/
def specValidationChain (env : Env) (client : API) (d : ResourceData) : List Check :=
  [ labelled "project validation failed: " (validateProjectAccess client d.project_id),
    labelled "location validation failed: " (validateLocation client d.location_uuid),
    labelled "configuration validation failed: "
      (validateConfigurationInLocation client d.configuration_uuid d.location_uuid),
    labelled "tariff validation failed: "
      (validateTariffForConfiguration client d.tariff_uuid d.configuration_uuid),
    labelled "OS image validation failed: "
      (validateOSImageForConfiguration client d.os_image_uuid d.location_uuid
        d.configuration_uuid),
    (if d.name = "" then skipped
      else labelled "server name validation failed: "
        (validateServerNameUniqueness client d.project_id d.name)),
    (if d.private_network_uuid ≠ "" then
      labelled "private network validation failed: "
        (validatePrivateNetworkForConfiguration env client d.private_network_uuid
          d.configuration_uuid d.location_uuid)
      else skipped),
    (if d.public_network_uuid ≠ "" then
      labelled "public network validation failed: "
        (validatePublicNetworkForLocation client d.public_network_uuid d.location_uuid)
      else skipped),
    (fun tr =>
      match processOSParams env client d d.os_image_uuid d.configuration_uuid tr with
      | (.error diagErr, tr) => (.error diagErr, tr)
      | (.ok _, tr) => (.ok (), tr)) ]

end Selectel

/-! ## Scripted scenarios -/

namespace Selectel

open Ddaas GoTime

/-- A scripted sequence of read answers: those of `script` in order, then `rest` for
every later read. -/
def scriptedReads (script : List (Except String DedicatedServer))
    (rest : Except String DedicatedServer) (k : Nat) : Except String DedicatedServer :=
  script.getD k rest

/-- A server record with the given status. -/
def serverWithStatus (status : Status) : DedicatedServer :=
  { (default : DedicatedServer) with UUID := "srv-1", Status := status }

/-- A context that is never cancelled. -/
def neverCancelled : Context := { doneAt := none, err := "context canceled" }

/-- A context cancelled at the instant `t` of the poller's clock. -/
def cancelledAt (t : Int) : Context := { doneAt := some t, err := "context canceled" }

/-- The scheduler that takes the first ready case in source order. -/
def pickFirst : Nat → Nat := fun _ => 0

/-- The scheduler that takes the second ready case in source order when there are two. -/
def pickSecond : Nat → Nat := fun _ => 1

end Selectel

/-! ## A sample remote and sample requests -/

namespace Selectel

open Ddaas GoTime

/-- A remote with one location, two configurations of which only `cfg-1` is offered in
`loc-1`, one tariff and one Linux image; the only server it knows, `srv-1`, answers
BUILDING to the first read and ACTIVE afterwards, and any other server is not found. -/
def sampleRemote : API where
  servers := fun _ => .ok []
  server := fun k serverUUID =>
    if serverUUID = "srv-1" then
      scriptedReads [.ok (serverWithStatus StatusBuilding)] (.ok (serverWithStatus StatusActive)) k
    else .error "API error 404: server not found"
  create := fun _ => .ok (serverWithStatus StatusBuilding)
  update := fun _ _ => .ok (serverWithStatus StatusReinstall)
  delete := fun serverUUID =>
    if serverUUID = "srv-1" then .ok () else .error "API error 404: server not found"
  locations := .ok [{ UUID := "loc-1", Name := "SPB-1", LocationID := 1, Description := "",
                      Enable := true }]
  configurations := fun locationUUID =>
    let cfg1 : Configuration := { (default : Configuration) with
      UUID := "cfg-1", Name := "EL10", TariffLine := "Entry Line" }
    let cfg2 : Configuration := { (default : Configuration) with
      UUID := "cfg-2", Name := "BL20", TariffLine := "Business Line" }
    if locationUUID = "" then .ok [cfg1, cfg2]
    else if locationUUID = "loc-1" then .ok [cfg1]
    else .ok []
  tariffs := fun configUUID =>
    if configUUID = "cfg-1" then
      .ok [{ (default : Tariff) with UUID := "tariff-1", Name := "monthly" }]
    else .ok []
  osImages := fun _ _ =>
    .ok [{ (default : OSImage) with UUID := "img-1", Name := "Ubuntu", Family := "linux" }]
  networks := fun _ => .ok []

/-- A provider configuration whose project-scoped client reaches `sampleRemote`. -/
def sampleConfig : Config where
  ProjectID := "project-1"
  GetSelVPCClientWithProjectScope := fun _ =>
    .ok { validateRegion := fun _ => .ok (), GetEndpoint := fun _ => .ok sampleRemote }

/-- Surroundings without cancellation; the Unicode table is the identity. -/
def sampleEnv : Env where
  ctx := neverCancelled
  pick := pickFirst
  nowUnix := 1700000000
  lowerTable := id

/-- A create request with every referenced object in the catalog of `sampleRemote`, and
no name, network or OS parameter. -/
def sampleRequest : ResourceData where
  id := ""
  project_id := "project-1"
  region := "ru-2"
  location_uuid := "loc-1"
  configuration_uuid := "cfg-1"
  tariff_uuid := "tariff-1"
  os_image_uuid := "img-1"
  name := ""
  public_network_uuid := ""
  private_network_uuid := ""
  os_params := []
  os_image_uuid_changed := false
  uuid := ""
  status := ""
  service_uuid := ""
  created_at := ""
  updated_at := ""
  ip_addresses := []
  timeoutCreate := 3600 * Second
  timeoutUpdate := 3600 * Second
  timeoutDelete := 1800 * Second

end Selectel

/-! ## The transport under the client methods -/

namespace Ddaas

/-- Go `http.StatusBadRequest`. -/
def StatusBadRequest : Int := 400

/-- Go `http.StatusInternalServerError`. -/
def StatusInternalServerError : Int := 500

/-- Go `DedicatedServerAPIError`, the decoded body of a rejected request. -/
structure DedicatedServerAPIError where
  Code : Int
  Message : String
  Detail : String
  deriving DecidableEq, Repr, Inhabited

/-- Go `(*DedicatedServerAPIError).Error`. -/
def DedicatedServerAPIError.Error (e : DedicatedServerAPIError) : String :=
  if e.Detail ≠ "" then
    "API error " ++ toString e.Code ++ ": " ++ e.Message ++ " (" ++ e.Detail ++ ")"
  else "API error " ++ toString e.Code ++ ": " ++ e.Message

/-- A Go `error` as `makeRequest` returns it: an error made of a message (`fmt.Errorf`,
or the error of the HTTP client), or a `*DedicatedServerAPIError`; the pointer is `none`
when it is nil. -/
inductive RequestError where
  | message (msg : String)
  | apiError (e : Option DedicatedServerAPIError)
  deriving DecidableEq, Repr

/-- The request handed to `HTTPClient.Do`. -/
structure HTTPRequest where
  Method : String
  URL : String
  Header : List (String × String)
  Body : Option String
  deriving DecidableEq, Repr

/-- The response of `HTTPClient.Do`: the status code and what `io.ReadAll(resp.Body)`
gives, the body text or a read error. -/
structure HTTPResponse where
  StatusCode : Int
  Body : Except String String

/-- The `params interface{}` argument of `makeRequest`: `nil`, a `[]byte`, or any other
value, given by what `json.Marshal` makes of it. -/
inductive Params where
  | none
  | bytes (b : String)
  | value (marshalled : Except String String)

/-- The fields of the Go `API` struct together with the library calls `makeRequest`
relies on, which are not part of these sources: the error of
`http.NewRequestWithContext` for a method and URL, `HTTPClient.Do`, and
`json.Unmarshal(body, &errBody)` for `errBody` a `*DedicatedServerAPIError`, which
fails, fills the struct, or, for the JSON literal `null`, sets the pointer to nil
without an error. -/
structure Transport where
  Token : String
  Endpoint : String
  UserAgent : String
  newRequestErr : String → String → Option String
  Do : HTTPRequest → Except String HTTPResponse
  unmarshalAPIError : String → Except String (Option DedicatedServerAPIError)

def handleParams : Params → Except String (Option String)
  | .none => .ok none
  | .bytes paramBytes => .ok (some paramBytes)
  | .value (.ok jsonBody) => .ok (some jsonBody)
  | .value (.error err) => .error ("error marshalling params to JSON: " ++ err)

def Transport.request (api : Transport) (method uri : String) (body : Option String) :
    Except String HTTPResponse :=
  match api.newRequestErr method (api.Endpoint ++ uri) with
  | some err => .error ("HTTP request creation failed: " ++ err)
  | none =>
    let header := [("User-Agent", api.UserAgent), ("X-Token", api.Token)] ++
      (if body.isSome then [("Content-Type", "application/json")] else [])
    match api.Do { Method := method, URL := api.Endpoint ++ uri, Header := header,
                   Body := body } with
    | .error err => .error ("HTTP request failed: " ++ err)
    | .ok resp => .ok resp

def handleStatusCode (api : Transport) (statusCode : Int) (body uri : String) : RequestError :=
  if statusCode ≥ StatusInternalServerError then
    .message ("http status " ++ toString statusCode ++ ": service failed. URI: " ++ uri
      ++ " Body: " ++ body)
  else
    match api.unmarshalAPIError body with
    | .error err =>
      .message ("can't unmarshal response (status " ++ toString statusCode ++ "): " ++ body
        ++ ", " ++ err)
    | .ok errBody => .apiError errBody

def Transport.makeRequest (api : Transport) (method uri : String) (params : Params) :
    Except RequestError String :=
  match handleParams params with
  | .error err => .error (.message err)
  | .ok jsonBody =>
    match api.request method uri jsonBody with
    | .error respErr => .error (.message respErr)
    | .ok resp =>
      if resp.StatusCode ≥ StatusInternalServerError then
        match resp.Body with
        | .error err => .error (.message ("could not read response body: " ++ err))
        | .ok respBody =>
          .error (.message ("request failed with status " ++ toString resp.StatusCode ++ ": "
            ++ respBody))
      else
        match resp.Body with
        | .error err => .error (.message ("could not read response body: " ++ err))
        | .ok respBody =>
          if resp.StatusCode ≥ StatusBadRequest then
            .error (handleStatusCode api resp.StatusCode respBody uri)
          else .ok respBody

/-- A listing filter as a remote that honours it exactly applies it: every non-empty
field of the query equals the field of the server. -/
def DedicatedServerQueryParams.selects (q : DedicatedServerQueryParams)
    (s : DedicatedServer) : Bool :=
  (q.UUID == "" || s.UUID == q.UUID) && (q.ProjectID == "" || s.ProjectID == q.ProjectID) &&
  (q.Name == "" || s.Name == q.Name) && (q.Status == "" || s.Status == q.Status)

end Ddaas

/-! ## Query parameters of a listing -/

namespace Ddaas

/-- A value that `json.Unmarshal` stores in a `map[string]interface{}`: `nil` for the
JSON `null`, a Go string, or a value of another kind (number, boolean, array, object),
given by what `fmt.Sprintf("%v", value)` prints for it. -/
inductive JSONValue where
  | null
  | str (s : String)
  | other (printed : String)
  deriving DecidableEq, Repr

/-- Go `fmt.Sprintf("%v", value)`. -/
def JSONValue.sprint : JSONValue → String
  | .null => "<nil>"
  | .str s => s
  | .other printed => printed

/-- The JSON object of a `DedicatedServerQueryParams`, by its struct tags: the keys
`uuid`, `project_id`, `name` and `status`, each tagged `omitempty`, so that a field is
present when it is not the empty string. -/
def DedicatedServerQueryParams.jsonFields (q : DedicatedServerQueryParams) :
    List (String × JSONValue) :=
  (if q.UUID ≠ "" then [("uuid", JSONValue.str q.UUID)] else []) ++
  (if q.ProjectID ≠ "" then [("project_id", JSONValue.str q.ProjectID)] else []) ++
  (if q.Name ≠ "" then [("name", JSONValue.str q.Name)] else []) ++
  (if q.Status ≠ "" then [("status", JSONValue.str q.Status)] else [])

/-- Go `url.Values.Encode` on values that were all stored with `Set`, one value per key,
held as a `Bag`: the pairs `key=value`, both escaped, in the order of the keys (Go
compares strings byte by byte, which on well-formed UTF-8 is the order of the code
points), joined by `&`. -/
def Encode (QueryEscape : String → String) (v : Bag) : String :=
  "&".intercalate
    (((v.map Prod.fst).insertionSort (fun a b => a.data ≤ b.data)).map
      (fun key => QueryEscape key ++ "=" ++ QueryEscape ((v.get key).getD "")))

/-- The loop of `setQueryParams` over the decoded map, whose entries come in the order
of the `range`: `v.Set(key, fmt.Sprintf("%v", value))` for the values that are neither
`nil` nor the empty string. -/
def queryValues (queryParams : List (String × JSONValue)) : Bag :=
  queryParams.foldl
    (fun v kv =>
      if kv.2 ≠ JSONValue.null ∧ kv.2 ≠ JSONValue.str "" then v.set kv.1 kv.2.sprint else v)
    []

/-- Go `setQueryParams`.  The argument `params` is given by what `json.Marshal` makes of
it; `unmarshal` is `json.Unmarshal` into a `map[string]interface{}`, which lists the
entries of the map in the order in which the `range` will visit them, and `QueryEscape`
is `url.QueryEscape`: the two library calls are parameters. -/
def setQueryParams (unmarshal : String → Except String (List (String × JSONValue)))
    (QueryEscape : String → String) (uri : String) (params : Except String String) :
    Except String String :=
  match params with
  | .error err => .error ("error marshalling params to JSON: " ++ err)
  | .ok jsonParams =>
    match unmarshal jsonParams with
    | .error err => .error ("error during Unmarshal: " ++ err)
    | .ok queryParams =>
      let v := queryValues queryParams
      if v.length > 0 then .ok (uri ++ "?" ++ Encode QueryEscape v) else .ok uri

end Ddaas

/-! ## More sample data -/

namespace Selectel

open Ddaas GoTime

/-- The sample remote holding the servers of `inventory`, with a listing that applies
the filter of the query exactly. -/
def inventoryRemote (inventory : List DedicatedServer) : API :=
  { sampleRemote with servers := fun q => .ok (inventory.filter q.selects) }

/-- The sample remote with a listing that answers every query with `listing`, whatever
the filter. -/
def fixedListingRemote (listing : List DedicatedServer) : API :=
  { sampleRemote with servers := fun _ => .ok listing }

/-- A provider configuration whose project-scoped client reaches `remote`. -/
def configFor (remote : API) : Config where
  ProjectID := "project-1"
  GetSelVPCClientWithProjectScope := fun _ =>
    .ok { validateRegion := fun _ => .ok (), GetEndpoint := fun _ => .ok remote }

/-- The server `web-01` of project `project-1`. -/
def web01 : DedicatedServer :=
  { (default : DedicatedServer) with UUID := "srv-7", Name := "web-01",
                                     ProjectID := "project-1", Status := StatusActive }

/-- A Windows image. -/
def windowsImage : OSImage :=
  { (default : OSImage) with UUID := "img-2", Name := "Windows Server", Family := "Windows" }

/-- The sample remote with an image listing that holds the Windows image only. -/
def windowsRemote : API :=
  { sampleRemote with osImages := fun _ _ => Except.ok [windowsImage] }

/-- A transport whose remote answers every request with the given status and body; the
decoder knows the body of a not-found rejection and the literal `null`. -/
def cannedTransport (status : Int) (body : String) : Transport where
  Token := "token"
  Endpoint := "https://api.example"
  UserAgent := "ddaas-go/0.1.0"
  newRequestErr := fun _ _ => none
  Do := fun _ => .ok { StatusCode := status, Body := .ok body }
  unmarshalAPIError := fun b =>
    if b = "null" then .ok none
    else if b = "\x7b\"code\":404,\"message\":\"server not found\"\x7d" then
      .ok (some { Code := 404, Message := "server not found", Detail := "" })
    else .error "invalid character"

/-- The sample remote with its location switched off: `loc-1` is listed with the
enabled flag false. -/
def disabledLocationRemote : API :=
  { sampleRemote with
    locations := Except.ok [{ UUID := "loc-1", Name := "SPB-1", LocationID := 1,
                              Description := "", Enable := false }] }

/-- The sample remote behind a gateway that answers every read of a server with the
status 503 and a body saying that the upstream was not found: the error of the read is
the one `makeRequest` builds for a status of 500 or more. -/
def gatewayFaultRemote : API :=
  { sampleRemote with
    server := fun _ _ => Except.error "request failed with status 503: upstream not found" }

/-- The sample remote behind a gateway that answers every read of a server with the
status 503 and the body "bad gateway". -/
def badGatewayRemote : API :=
  { sampleRemote with
    server := fun _ _ => Except.error "request failed with status 503: bad gateway" }

/-- The sample remote with an image listing that needs its scope: the Linux image is
listed for the location `loc-1` and the configuration `cfg-1`, and the listing asked with
an empty location and an empty service is empty. -/
def scopedImagesRemote : API :=
  { sampleRemote with
    osImages := fun locationUUID serviceUUID =>
      if locationUUID = "loc-1" ∧ serviceUUID = "cfg-1" then
        Except.ok [{ (default : OSImage) with UUID := "img-1", Name := "Ubuntu",
                                              Family := "linux" }]
      else Except.ok [] }

/-- A remote that accepts a create call and then reports the server in the ERROR
status at every read. -/
def errorStatusRemote : API :=
  { sampleRemote with server := fun _ _ => Except.ok (serverWithStatus StatusError) }

/-- A decoder that knows the JSON text of the filter for the project `project-1` and the
name `web-01`, and lists the name first. -/
def sampleUnmarshal (jsonParams : String) : Except String (List (String × JSONValue)) :=
  if jsonParams = "\x7b\"project_id\":\"project-1\",\"name\":\"web-01\"\x7d" then
    .ok [("name", JSONValue.str "web-01"), ("project_id", JSONValue.str "project-1")]
  else if jsonParams = "\x7b\x7d" then .ok []
  else .error "invalid character"

end Selectel

/-! ## The `select` statement -/

namespace GoTime

theorem mem_of_getD_ne {α : Type} (l : List α) (i : Nat) (d x : α)
    (h : l.getD i d = x) (hx : x ≠ d) : x ∈ l := by
  induction l generalizing i with
  | nil =>
    simp at h
    exact absurd h.symm hx
  | cons a l ih =>
    cases i with
    | zero =>
      simp at h
      simp [h]
    | succ i =>
      rw [List.getD_cons_succ] at h
      exact List.mem_cons_of_mem _ (ih i h)

theorem goSelect_time (c : Nat) (ctx : Context) (timeout nextTick now : Int) :
    (goSelect c ctx timeout nextTick now).2 = wakeTime ctx timeout nextTick now := rfl

/-- The ticker case is taken only at the instant of the tick, which is then neither
after the timeout nor after the cancellation. -/
theorem goSelect_ticker {c : Nat} {ctx : Context} {timeout nextTick now t : Int}
    (h : goSelect c ctx timeout nextTick now = (SelectCase.tickerC, t)) (hnow : now < nextTick) :
    t = nextTick ∧ nextTick ≤ timeout ∧ ∀ d, ctx.doneAt = some d → nextTick ≤ d := by
  have ht : t = wakeTime ctx timeout nextTick now := by
    rw [← goSelect_time c, h]
  have hmem : SelectCase.tickerC ∈ readyCases ctx timeout nextTick t := by
    rw [ht]
    apply mem_of_getD_ne _ (c % (readyCases ctx timeout nextTick
      (wakeTime ctx timeout nextTick now)).length) SelectCase.timerC
    · exact congrArg Prod.fst h
    · decide
  have hle : nextTick ≤ t := by
    simp only [readyCases, List.mem_append] at hmem
    rcases hmem with (hm | hm) | hm
    · split at hm <;> simp at hm
    · split at hm <;> simp at hm
    · split at hm
      · assumption
      · simp at hm
  cases hd : ctx.doneAt with
  | none =>
    simp only [wakeTime, hd] at ht
    refine ⟨by omega, by omega, ?_⟩
    intro d hd'
    cases hd'
  | some d0 =>
    simp only [wakeTime, hd] at ht
    refine ⟨by omega, by omega, ?_⟩
    intro d hd'
    cases hd'
    omega

/-- The context case is taken only when the context is done. -/
theorem goSelect_ctxDone {c : Nat} {ctx : Context} {timeout nextTick now t : Int}
    (h : goSelect c ctx timeout nextTick now = (SelectCase.ctxDone, t)) :
    ∃ d, ctx.doneAt = some d ∧ d ≤ t := by
  have ht : t = wakeTime ctx timeout nextTick now := by
    rw [← goSelect_time c, h]
  have hmem : SelectCase.ctxDone ∈ readyCases ctx timeout nextTick t := by
    rw [ht]
    apply mem_of_getD_ne _ (c % (readyCases ctx timeout nextTick
      (wakeTime ctx timeout nextTick now)).length) SelectCase.timerC
    · exact congrArg Prod.fst h
    · decide
  simp only [readyCases, List.mem_append] at hmem
  rcases hmem with (hm | hm) | hm
  · split at hm
    · rename_i hdone
      unfold Context.isDone at hdone
      cases hd : ctx.doneAt with
      | none => simp [hd] at hdone
      | some d =>
        simp [hd] at hdone
        exact ⟨d, rfl, hdone⟩
    · simp at hm
  · split at hm <;> simp at hm
  · split at hm <;> simp at hm

/-- Before the timeout and before any cancellation, a due tick is the only ready case. -/
theorem goSelect_tick_only (c : Nat) (ctx : Context) (timeout nextTick now : Int)
    (hnow : now ≤ nextTick) (htimeout : nextTick < timeout)
    (hctx : ∀ d, ctx.doneAt = some d → nextTick < d) :
    goSelect c ctx timeout nextTick now = (SelectCase.tickerC, nextTick) := by
  have hw : wakeTime ctx timeout nextTick now = nextTick := by
    cases hd : ctx.doneAt with
    | none =>
      simp only [wakeTime, hd]
      omega
    | some d =>
      have := hctx d hd
      simp only [wakeTime, hd]
      omega
  have hdone : ctx.isDone nextTick = false := by
    unfold Context.isDone
    cases hd : ctx.doneAt with
    | none => rfl
    | some d =>
      have := hctx d hd
      simp
      omega
  have hr : readyCases ctx timeout nextTick nextTick = [SelectCase.tickerC] := by
    simp [readyCases, hdone]
    omega
  simp [goSelect, hw, hr, Nat.mod_one]

/-- With the context done and neither the timer fired nor a tick due, the context case
is the only ready one. -/
theorem goSelect_ctx_only (c : Nat) (ctx : Context) (timeout nextTick now d : Int)
    (hd : ctx.doneAt = some d) (htimeout : max now d < timeout) (htick : max now d < nextTick) :
    goSelect c ctx timeout nextTick now = (SelectCase.ctxDone, max now d) := by
  have hw : wakeTime ctx timeout nextTick now = max now d := by
    simp only [wakeTime, hd]
    omega
  have hdone : ctx.isDone (max now d) = true := by
    simp [Context.isDone, hd]
  have hr : readyCases ctx timeout nextTick (max now d) = [SelectCase.ctxDone] := by
    simp only [readyCases, hdone]
    have h1 : ¬ timeout ≤ max now d := by omega
    have h2 : ¬ nextTick ≤ max now d := by omega
    simp [h1, h2]
  simp [goSelect, hw, hr, Nat.mod_one]

/-- The tick that follows a receipt lies after the receipt, at most one period after it,
a whole number of periods after the tick received. -/
theorem tickAfter_spec (period due received : Int) (hperiod : 0 < period)
    (hdue : due ≤ received) :
    received < tickAfter period due received ∧
    tickAfter period due received ≤ received + period ∧
    ∃ k : Int, 0 < k ∧ tickAfter period due received = due + k * period := by
  have h1 := Int.emod_add_ediv (received - due) period
  have h2 := Int.emod_nonneg (received - due) (ne_of_gt hperiod)
  have h3 := Int.emod_lt_of_pos (received - due) hperiod
  have h4 : 0 ≤ (received - due) / period := Int.ediv_nonneg (by omega) (le_of_lt hperiod)
  refine ⟨?_, ?_, 1 + (received - due) / period, by omega, ?_⟩
  · simp only [tickAfter]
    linarith
  · simp only [tickAfter]
    linarith
  · simp only [tickAfter]
    ring

end GoTime

/-! ## The polling loops -/

namespace Selectel

open Ddaas GoTime

theorem pollInterval_pos : 0 < pollInterval := by
  norm_num [pollInterval, Second]

theorem waitForServerStatusLoop_eq_pollLoop (read : Nat → Except String DedicatedServer)
    (ctx : Context) (pick : Nat → Nat) (serverUUID : String) (targetStatus : Status)
    (timeout : Int) (fuel reads : Nat) (now nextTick : Int) :
    waitForServerStatusLoop read ctx pick serverUUID targetStatus timeout fuel reads now nextTick
      = pollLoop (fun k => statusVerdict serverUUID targetStatus (read k)) ctx pick
          (statusTimeoutErr serverUUID targetStatus) timeout fuel reads now nextTick := by
  induction fuel generalizing reads now nextTick with
  | zero => rfl
  | succ f ih =>
    simp only [waitForServerStatusLoop, pollLoop]
    rcases hsel : goSelect (pick reads) ctx timeout nextTick now with ⟨c, t⟩
    cases c
    · rfl
    · rfl
    · simp only []
      cases hr : read reads with
      | error err => simp [statusVerdict]
      | ok server =>
        by_cases h1 : server.Status = targetStatus
        · simp [statusVerdict, h1]
        · by_cases h2 : server.Status = StatusError
          · have h1' : ¬ StatusError = targetStatus := fun h => h1 (h2.trans h)
            simp [statusVerdict, h2, h1']
          · simp [statusVerdict, h1, h2, ih]

theorem waitForServerDeletedLoop_eq_pollLoop (read : Nat → Except String DedicatedServer)
    (ctx : Context) (pick : Nat → Nat) (serverUUID : String)
    (timeout : Int) (fuel reads : Nat) (now nextTick : Int) :
    waitForServerDeletedLoop read ctx pick serverUUID timeout fuel reads now nextTick
      = pollLoop (fun k => deletedVerdict (read k)) ctx pick
          (deletedTimeoutErr serverUUID) timeout fuel reads now nextTick := by
  induction fuel generalizing reads now nextTick with
  | zero => rfl
  | succ f ih =>
    simp only [waitForServerDeletedLoop, pollLoop]
    rcases hsel : goSelect (pick reads) ctx timeout nextTick now with ⟨c, t⟩
    cases c
    · rfl
    · rfl
    · simp only []
      cases hr : read reads with
      | error err =>
        by_cases h1 : GoStrings.Contains err "not found" = true
        · simp [deletedVerdict, h1]
        · simp [deletedVerdict, h1]
      | ok server => simp [deletedVerdict, ih]

theorem pollLoop_succ (verdict : Nat → Option (Except String Unit)) (ctx : Context)
    (pick : Nat → Nat) (timeoutErr : String) (timeout : Int)
    (fuel reads : Nat) (now nextTick : Int) :
    pollLoop verdict ctx pick timeoutErr timeout (fuel + 1) reads now nextTick =
      match goSelect (pick reads) ctx timeout nextTick now with
      | (SelectCase.ctxDone, _) => some (.error ctx.err, reads)
      | (SelectCase.timerC, _) => some (.error timeoutErr, reads)
      | (SelectCase.tickerC, now) =>
        match verdict reads with
        | some r => some (r, reads + 1)
        | none => pollLoop verdict ctx pick timeoutErr timeout fuel (reads + 1) now
            (nextTick + pollInterval) := rfl

/-- A run of `m` reads that do not end the poll, followed by a read that ends it with
`v`, all ticks falling before the timeout and before any cancellation: the poll ends
with `v` at that read, whatever the scheduler. -/
theorem pollLoop_ends_at (verdict : Nat → Option (Except String Unit)) (ctx : Context)
    (pick : Nat → Nat) (timeoutErr : String) (timeout : Int) (v : Except String Unit)
    (m fuel reads : Nat) (now nextTick : Int)
    (hnow : now ≤ nextTick)
    (hskip : ∀ j, j < m → verdict (reads + j) = none)
    (hend : verdict (reads + m) = some v)
    (htimeout : nextTick + m * pollInterval < timeout)
    (hctx : ∀ d, ctx.doneAt = some d → nextTick + m * pollInterval < d) :
    pollLoop verdict ctx pick timeoutErr timeout (fuel + m + 1) reads now nextTick
      = some (v, reads + m + 1) := by
  have hpos := pollInterval_pos
  induction m generalizing reads now nextTick with
  | zero =>
    have hsel := goSelect_tick_only (pick reads) ctx timeout nextTick now hnow
      (by simpa using htimeout) (by simpa using hctx)
    rw [pollLoop_succ, hsel]
    simp only [Nat.add_zero] at hend
    simp [hend]
  | succ m ih =>
    have hsel := goSelect_tick_only (pick reads) ctx timeout nextTick now hnow
      (by push_cast at htimeout; nlinarith)
      (by
        intro d hd
        have := hctx d hd
        push_cast at this
        nlinarith)
    have h0 : verdict reads = none := by simpa using hskip 0 (Nat.succ_pos m)
    have hfuel : fuel + (m + 1) + 1 = (fuel + m + 1) + 1 := by omega
    rw [hfuel, pollLoop_succ, hsel]
    simp only [h0]
    have := ih (reads + 1) nextTick (nextTick + pollInterval) (by omega)
      (by
        intro j hj
        have := hskip (j + 1) (by omega)
        rwa [show reads + 1 + j = reads + (j + 1) by omega])
      (by rwa [show reads + 1 + m = reads + (m + 1) by omega])
      (by push_cast at htimeout; linarith)
      (by
        intro d hd
        have := hctx d hd
        push_cast at this
        linarith)
    rw [this]
    congr 2
    omega

/-- With enough fuel for the ticks that fit before the timeout, the poll returns. -/
theorem pollLoop_returns (verdict : Nat → Option (Except String Unit)) (ctx : Context)
    (pick : Nat → Nat) (timeoutErr : String) (timeout : Int)
    (fuel reads : Nat) (now nextTick : Int)
    (hnow : now < nextTick) (hfuel : timeout < nextTick + fuel * pollInterval) :
    ∃ v n, reads ≤ n ∧
      pollLoop verdict ctx pick timeoutErr timeout (fuel + 1) reads now nextTick = some (v, n) := by
  have hpos := pollInterval_pos
  induction fuel generalizing reads now nextTick with
  | zero =>
    simp only [pollLoop]
    rcases hsel : goSelect (pick reads) ctx timeout nextTick now with ⟨c, t⟩
    cases c
    · exact ⟨_, _, le_refl _, rfl⟩
    · exact ⟨_, _, le_refl _, rfl⟩
    · have := (goSelect_ticker hsel hnow).2.1
      simp at hfuel
      omega
  | succ f ih =>
    rw [pollLoop_succ]
    rcases hsel : goSelect (pick reads) ctx timeout nextTick now with ⟨c, t⟩
    cases c
    · exact ⟨_, _, le_refl _, rfl⟩
    · exact ⟨_, _, le_refl _, rfl⟩
    · have ht := (goSelect_ticker hsel hnow).1
      simp only []
      cases hv : verdict reads with
      | some r => exact ⟨_, _, Nat.le_succ _, rfl⟩
      | none =>
        obtain ⟨v, n, hn, h⟩ := ih (reads + 1) t (nextTick + pollInterval) (by omega)
          (by push_cast at hfuel; linarith)
        exact ⟨v, n, by omega, h⟩

/-- A poll ends in success only at a read whose verdict is success. -/
theorem pollLoop_ok (verdict : Nat → Option (Except String Unit)) (ctx : Context)
    (pick : Nat → Nat) (timeoutErr : String) (timeout : Int)
    (fuel reads : Nat) (now nextTick : Int) (n : Nat)
    (h : pollLoop verdict ctx pick timeoutErr timeout fuel reads now nextTick = some (.ok (), n)) :
    reads < n ∧ verdict (n - 1) = some (.ok ()) := by
  induction fuel generalizing reads now nextTick with
  | zero => simp [pollLoop] at h
  | succ f ih =>
    rw [pollLoop_succ] at h
    rcases hsel : goSelect (pick reads) ctx timeout nextTick now with ⟨c, t⟩
    rw [hsel] at h
    cases c
    · simp at h
    · simp at h
    · simp only [] at h
      cases hv : verdict reads with
      | some r =>
        rw [hv] at h
        simp only [Option.some.injEq, Prod.mk.injEq] at h
        obtain ⟨h1, h2⟩ := h
        subst h1 h2
        exact ⟨Nat.lt_succ_self _, by simpa using hv⟩
      | none =>
        rw [hv] at h
        obtain ⟨h1, h2⟩ := ih _ _ _ h
        exact ⟨by omega, h2⟩

/-- When no read that fits before or at the timeout ends the poll and the context is
never cancelled, the poll ends with the timer's error. -/
theorem pollLoop_times_out (verdict : Nat → Option (Except String Unit)) (ctx : Context)
    (pick : Nat → Nat) (timeoutErr : String) (timeout : Int)
    (fuel reads : Nat) (now nextTick : Int)
    (hnow : now < nextTick) (hfuel : timeout < nextTick + fuel * pollInterval)
    (hctx : ctx.doneAt = none)
    (hskip : ∀ j : Nat, nextTick + j * pollInterval ≤ timeout → verdict (reads + j) = none) :
    ∃ n, reads ≤ n ∧
      pollLoop verdict ctx pick timeoutErr timeout (fuel + 1) reads now nextTick
        = some (.error timeoutErr, n) := by
  have hpos := pollInterval_pos
  induction fuel generalizing reads now nextTick with
  | zero =>
    simp only [pollLoop]
    rcases hsel : goSelect (pick reads) ctx timeout nextTick now with ⟨c, t⟩
    cases c
    · obtain ⟨d, hd, _⟩ := goSelect_ctxDone hsel
      rw [hctx] at hd
      cases hd
    · exact ⟨_, le_refl _, rfl⟩
    · have := (goSelect_ticker hsel hnow).2.1
      simp at hfuel
      omega
  | succ f ih =>
    rw [pollLoop_succ]
    rcases hsel : goSelect (pick reads) ctx timeout nextTick now with ⟨c, t⟩
    cases c
    · obtain ⟨d, hd, _⟩ := goSelect_ctxDone hsel
      rw [hctx] at hd
      cases hd
    · exact ⟨_, le_refl _, rfl⟩
    · obtain ⟨ht, hle, _⟩ := goSelect_ticker hsel hnow
      have h0 : verdict reads = none := by simpa using hskip 0 (by simpa using hle)
      simp only [h0]
      obtain ⟨n, hn, h⟩ := ih (reads + 1) t (nextTick + pollInterval) (by omega)
        (by push_cast at hfuel; linarith)
        (by
          intro j hj
          have := hskip (j + 1) (by push_cast; linarith)
          rwa [show reads + 1 + j = reads + (j + 1) by omega])
      exact ⟨n, by omega, h⟩

end Selectel

/-! ## The status poller -/

namespace Selectel

open Ddaas GoTime

/-- `WaitForServerStatus` in terms of the common loop. -/
theorem WaitForServerStatus_eq_pollLoop (fuel : Nat) (read : Nat → Except String DedicatedServer)
    (ctx : Context) (pick : Nat → Nat) (serverUUID : String) (targetStatus : Status)
    (timeout : Int) :
    WaitForServerStatus fuel read ctx pick serverUUID targetStatus timeout
      = pollLoop (fun k => statusVerdict serverUUID targetStatus (read k)) ctx pick
          (statusTimeoutErr serverUUID targetStatus) timeout fuel 0 0 pollInterval :=
  waitForServerStatusLoop_eq_pollLoop read ctx pick serverUUID targetStatus timeout fuel 0 0 _

/-- `waitForServerDeleted` in terms of the common loop. -/
theorem waitForServerDeleted_eq_pollLoop (fuel : Nat) (read : Nat → Except String DedicatedServer)
    (ctx : Context) (pick : Nat → Nat) (serverUUID : String) (timeout : Int) :
    waitForServerDeleted fuel read ctx pick serverUUID timeout
      = pollLoop (fun k => deletedVerdict (read k)) ctx pick
          (deletedTimeoutErr serverUUID) timeout fuel 0 0 pollInterval :=
  waitForServerDeletedLoop_eq_pollLoop read ctx pick serverUUID timeout fuel 0 0 _

/-- From the start of a poller: `n - 1` reads that do not end the poll, then a read that
ends it with `v`, the `n`-th tick falling before the timeout and any cancellation. -/
theorem pollLoop_script (verdict : Nat → Option (Except String Unit)) (ctx : Context)
    (pick : Nat → Nat) (timeoutErr : String) (timeout : Int) (v : Except String Unit)
    (n fuel : Nat) (hn : 0 < n)
    (hskip : ∀ k, k + 1 < n → verdict k = none)
    (hend : verdict (n - 1) = some v)
    (htimeout : n * pollInterval < timeout)
    (hctx : ∀ d, ctx.doneAt = some d → n * pollInterval < d)
    (hfuel : n ≤ fuel) :
    pollLoop verdict ctx pick timeoutErr timeout fuel 0 0 pollInterval = some (v, n) := by
  have hpos := pollInterval_pos
  obtain ⟨m, rfl⟩ : ∃ m, n = m + 1 := ⟨n - 1, by omega⟩
  obtain ⟨f, rfl⟩ : ∃ f, fuel = f + m + 1 := ⟨fuel - (m + 1), by omega⟩
  have h := pollLoop_ends_at verdict ctx pick timeoutErr timeout v m f 0 0 pollInterval
    (le_of_lt hpos)
    (by
      intro j hj
      simpa using hskip j (by omega))
    (by simpa using hend)
    (by push_cast at htimeout; linarith)
    (by
      intro d hd
      have := hctx d hd
      push_cast at this
      linarith)
  simpa using h

/-- A tick received at the instant it is due is followed by the tick one period later. -/
theorem tickAfter_on_time (due : Int) : tickAfter pollInterval due due = due + pollInterval := by
  simp [tickAfter]

/-- One step of the timed loop. -/
theorem waitForServerStatusTimedLoop_succ (read : Nat → Except String DedicatedServer)
    (readTime : Nat → Int) (ctx : Context) (pick : Nat → Nat) (serverUUID : String)
    (targetStatus : Status) (timeout : Int) (fuel reads : Nat) (now nextTick : Int) :
    waitForServerStatusTimedLoop read readTime ctx pick serverUUID targetStatus timeout
        (fuel + 1) reads now nextTick =
      match goSelect (pick reads) ctx timeout nextTick now with
      | (SelectCase.ctxDone, _) => some (.error ctx.err, reads)
      | (SelectCase.timerC, _) =>
        some (.error ("timeout waiting for server " ++ serverUUID ++ " to reach status "
          ++ targetStatus), reads)
      | (SelectCase.tickerC, received) =>
        match read reads with
        | .error err => some (.error ("error checking server status: " ++ err), reads + 1)
        | .ok server =>
          if server.Status = targetStatus then some (.ok (), reads + 1)
          else if server.Status = StatusError then
            some (.error ("server " ++ serverUUID ++ " entered error state"), reads + 1)
          else
            waitForServerStatusTimedLoop read readTime ctx pick serverUUID targetStatus
              timeout fuel (reads + 1) (received + readTime reads)
              (tickAfter pollInterval nextTick received) := rfl

/-- With reads that take no time, the timed loop entered before the next tick is the loop
of `WaitForServerStatus`. -/
theorem waitForServerStatusTimedLoop_zero (read : Nat → Except String DedicatedServer)
    (ctx : Context) (pick : Nat → Nat) (serverUUID : String) (targetStatus : Status)
    (timeout : Int) (fuel reads : Nat) (now nextTick : Int) (hnow : now < nextTick) :
    waitForServerStatusTimedLoop read (fun _ => 0) ctx pick serverUUID targetStatus timeout
        fuel reads now nextTick
      = waitForServerStatusLoop read ctx pick serverUUID targetStatus timeout
          fuel reads now nextTick := by
  have hpos := pollInterval_pos
  induction fuel generalizing reads now nextTick with
  | zero => rfl
  | succ f ih =>
    rw [waitForServerStatusTimedLoop_succ]
    simp only [waitForServerStatusLoop]
    rcases hsel : goSelect (pick reads) ctx timeout nextTick now with ⟨c, t⟩
    cases c
    · rfl
    · rfl
    · obtain ⟨ht, -, -⟩ := goSelect_ticker hsel hnow
      subst ht
      simp only [add_zero, tickAfter_on_time]
      cases read reads with
      | error err => rfl
      | ok server =>
        simp only []
        rw [ih (reads + 1) t (t + pollInterval) (by omega)]

/-- With the ticker started together with the timer, the loop entered at once and reads
that take no time, the timed poller is `WaitForServerStatus`. -/
theorem WaitForServerStatusTimed_zero (fuel : Nat) (read : Nat → Except String DedicatedServer)
    (ctx : Context) (pick : Nat → Nat) (serverUUID : String) (targetStatus : Status)
    (timeout : Int) :
    WaitForServerStatusTimed fuel read (fun _ => 0) 0 0 ctx pick serverUUID targetStatus timeout
      = WaitForServerStatus fuel read ctx pick serverUUID targetStatus timeout := by
  simp only [WaitForServerStatusTimed, WaitForServerStatus, zero_add]
  exact waitForServerStatusTimedLoop_zero read ctx pick serverUUID targetStatus timeout fuel 0 0 _
    pollInterval_pos

/-- A run of `m` reads with a status that is neither the target nor ERROR, each over by
the time the next tick is due, then a read with the target status, all ticks falling
before the timeout and before any cancellation: the timed loop ends in success at that
read, whatever the scheduler. -/
theorem waitForServerStatusTimedLoop_reaches_target
    (read : Nat → Except String DedicatedServer) (readTime : Nat → Int) (ctx : Context)
    (pick : Nat → Nat) (serverUUID : String) (targetStatus : Status) (timeout : Int)
    (m fuel reads : Nat) (now nextTick : Int)
    (hnow : now ≤ nextTick)
    (hpending : ∀ j, j < m →
      ∃ s, read (reads + j) = .ok s ∧ s.Status ≠ targetStatus ∧ s.Status ≠ StatusError)
    (htarget : ∃ s, read (reads + m) = .ok s ∧ s.Status = targetStatus)
    (hread : ∀ j, j < m → readTime (reads + j) ≤ pollInterval)
    (htimeout : nextTick + m * pollInterval < timeout)
    (hctx : ∀ d, ctx.doneAt = some d → nextTick + m * pollInterval < d) :
    waitForServerStatusTimedLoop read readTime ctx pick serverUUID targetStatus timeout
        (fuel + m + 1) reads now nextTick
      = some (.ok (), reads + m + 1) := by
  have hpos := pollInterval_pos
  induction m generalizing reads now nextTick with
  | zero =>
    have hsel := goSelect_tick_only (pick reads) ctx timeout nextTick now hnow
      (by simpa using htimeout) (by simpa using hctx)
    obtain ⟨s, hs, h1⟩ := htarget
    simp only [Nat.add_zero] at hs
    rw [waitForServerStatusTimedLoop_succ, hsel]
    simp [hs, h1]
  | succ m ih =>
    have hsel := goSelect_tick_only (pick reads) ctx timeout nextTick now hnow
      (by push_cast at htimeout; nlinarith)
      (by
        intro d hd
        have := hctx d hd
        push_cast at this
        nlinarith)
    obtain ⟨s, hs, h1, h2⟩ := hpending 0 (Nat.succ_pos m)
    simp only [Nat.add_zero] at hs
    have hr := hread 0 (Nat.succ_pos m)
    simp only [Nat.add_zero] at hr
    have hfuel : fuel + (m + 1) + 1 = (fuel + m + 1) + 1 := by omega
    rw [hfuel, waitForServerStatusTimedLoop_succ, hsel]
    simp only [hs, h1, h2, if_false, tickAfter_on_time]
    have := ih (reads + 1) (nextTick + readTime reads) (nextTick + pollInterval) (by omega)
      (by
        intro j hj
        have := hpending (j + 1) (by omega)
        rwa [show reads + 1 + j = reads + (j + 1) by omega])
      (by rwa [show reads + 1 + m = reads + (m + 1) by omega])
      (by
        intro j hj
        have := hread (j + 1) (by omega)
        rwa [show reads + 1 + j = reads + (j + 1) by omega])
      (by push_cast at htimeout; linarith)
      (by
        intro d hd
        have := hctx d hd
        push_cast at this
        linarith)
    rw [this]
    congr 2
    omega

/-- C4 (as stated): on the script [BUILDING, BUILDING, ACTIVE] with target ACTIVE and no
cancellation, a timeout of 3 poll intervals does not give success after 3 reads.  With the
timer and the ticker started at the same instant and reads that take no time, the timer
and the third tick are due together and the poll returns the timeout error after 2 reads
when the `select` takes the timer.  With the ticker started 2 ns after the timer, as the
order of the statements has it, the timer fires before the third tick is due, and the
poll returns the timeout error after 2 reads whatever the `select` takes; so it does with
a timeout of 3 poll intervals and 1 ns. -/
theorem waitForServerStatus_times_out_at_n_intervals :
    WaitForServerStatus 4
        (scriptedReads [.ok (serverWithStatus StatusBuilding),
          .ok (serverWithStatus StatusBuilding), .ok (serverWithStatus StatusActive)]
          (.ok (serverWithStatus StatusActive)))
        neverCancelled pickFirst "srv-1" StatusActive (3 * pollInterval)
      = some (.error "timeout waiting for server srv-1 to reach status ACTIVE", 2) ∧
    WaitForServerStatusTimed 4
        (scriptedReads [.ok (serverWithStatus StatusBuilding),
          .ok (serverWithStatus StatusBuilding), .ok (serverWithStatus StatusActive)]
          (.ok (serverWithStatus StatusActive)))
        (fun _ => 0) 2 2 neverCancelled pickFirst "srv-1" StatusActive (3 * pollInterval)
      = some (.error "timeout waiting for server srv-1 to reach status ACTIVE", 2) ∧
    WaitForServerStatusTimed 4
        (scriptedReads [.ok (serverWithStatus StatusBuilding),
          .ok (serverWithStatus StatusBuilding), .ok (serverWithStatus StatusActive)]
          (.ok (serverWithStatus StatusActive)))
        (fun _ => 0) 2 2 neverCancelled pickSecond "srv-1" StatusActive (3 * pollInterval)
      = some (.error "timeout waiting for server srv-1 to reach status ACTIVE", 2) ∧
    WaitForServerStatusTimed 4
        (scriptedReads [.ok (serverWithStatus StatusBuilding),
          .ok (serverWithStatus StatusBuilding), .ok (serverWithStatus StatusActive)]
          (.ok (serverWithStatus StatusActive)))
        (fun _ => 0) 2 2 neverCancelled pickFirst "srv-1" StatusActive (3 * pollInterval + 1)
      = some (.error "timeout waiting for server srv-1 to reach status ACTIVE", 2) ∧
    WaitForServerStatusTimed 4
        (scriptedReads [.ok (serverWithStatus StatusBuilding),
          .ok (serverWithStatus StatusBuilding), .ok (serverWithStatus StatusActive)]
          (.ok (serverWithStatus StatusActive)))
        (fun _ => 0) 2 2 neverCancelled pickSecond "srv-1" StatusActive (3 * pollInterval + 1)
      = some (.error "timeout waiting for server srv-1 to reach status ACTIVE", 2) :=
  ⟨rfl, rfl, rfl, rfl, rfl⟩

/-- C4 (amended): after `n - 1` reads whose status is neither the target nor ERROR and an
`n`-th read with the target status, `WaitForServerStatus` returns success after exactly
`n` reads, for every choice of the `select`, when the `n`-th tick is due before the timer
fires and before the context is done.  On the clock that starts when the timer is armed,
with the ticker started at `tickerStart`, the first `select` reached by the time the
first tick is due and each of the first `n - 1` reads over by the time the next tick is
due, the `n`-th tick is due at `tickerStart` plus `n` poll intervals. -/
theorem waitForServerStatusTimed_reaches_target (read : Nat → Except String DedicatedServer)
    (readTime : Nat → Int) (tickerStart entry : Int) (ctx : Context) (pick : Nat → Nat)
    (serverUUID : String) (targetStatus : Status) (timeout : Int) (n fuel : Nat) (hn : 0 < n)
    (hpending : ∀ k, k + 1 < n →
      ∃ s, read k = .ok s ∧ s.Status ≠ targetStatus ∧ s.Status ≠ StatusError)
    (htarget : ∃ s, read (n - 1) = .ok s ∧ s.Status = targetStatus)
    (hentry : entry ≤ tickerStart + pollInterval)
    (hread : ∀ k, k + 1 < n → readTime k ≤ pollInterval)
    (htimeout : tickerStart + n * pollInterval < timeout)
    (hctx : ∀ d, ctx.doneAt = some d → tickerStart + n * pollInterval < d)
    (hfuel : n ≤ fuel) :
    WaitForServerStatusTimed fuel read readTime tickerStart entry ctx pick serverUUID
        targetStatus timeout
      = some (.ok (), n) := by
  obtain ⟨m, rfl⟩ : ∃ m, n = m + 1 := ⟨n - 1, by omega⟩
  obtain ⟨f, rfl⟩ : ∃ f, fuel = f + m + 1 := ⟨fuel - (m + 1), by omega⟩
  have h := waitForServerStatusTimedLoop_reaches_target read readTime ctx pick serverUUID
    targetStatus timeout m f 0 entry (tickerStart + pollInterval) hentry
    (by
      intro j hj
      simpa using hpending j (by omega))
    (by simpa using htarget)
    (by
      intro j hj
      simpa using hread j (by omega))
    (by push_cast at htimeout; linarith)
    (by
      intro d hd
      have := hctx d hd
      push_cast at this
      linarith)
  simpa [WaitForServerStatusTimed] using h

/-- C4 (amended), on the script [BUILDING, BUILDING, ACTIVE] with the ticker started 2 ns
after the timer, the first `select` reached 1 ns later, reads of one second and a
timeout of 3 poll intervals and 3 ns, for the scheduler that takes the timer when it
can. -/
theorem waitForServerStatusTimed_reaches_target_witness :
    WaitForServerStatusTimed 4
      (scriptedReads [.ok (serverWithStatus StatusBuilding),
        .ok (serverWithStatus StatusBuilding), .ok (serverWithStatus StatusActive)]
        (.ok (serverWithStatus StatusActive)))
      (fun _ => Second) 2 3 neverCancelled pickFirst "srv-1" StatusActive
      (3 * pollInterval + 3)
      = some (.ok (), 3) :=
  waitForServerStatusTimed_reaches_target _ (fun _ => Second) 2 3 neverCancelled pickFirst
    "srv-1" StatusActive (3 * pollInterval + 3) 3 4 (by decide)
    (by
      intro k hk
      have hk2 : k < 2 := by omega
      interval_cases k
      · exact ⟨_, rfl, by decide, by decide⟩
      · exact ⟨_, rfl, by decide, by decide⟩)
    ⟨_, rfl, rfl⟩
    (by decide)
    (by
      intro k _
      show Second ≤ pollInterval
      decide)
    (by decide)
    (by
      intro d hd
      cases hd)
    (by decide)

/-- C5: after `n - 1` reads whose status is neither ACTIVE nor ERROR and an `n`-th read
with status ERROR, the timeout not having elapsed at the `n`-th tick (and the context not
cancelled by then), `WaitForServerStatus` with target ACTIVE returns the error-state
failure; the poll has then performed exactly `n` reads. -/
theorem waitForServerStatus_error_state (read : Nat → Except String DedicatedServer)
    (ctx : Context) (pick : Nat → Nat) (serverUUID : String)
    (timeout : Int) (n fuel : Nat) (hn : 0 < n)
    (hpending : ∀ k, k + 1 < n →
      ∃ s, read k = .ok s ∧ s.Status ≠ StatusActive ∧ s.Status ≠ StatusError)
    (herror : ∃ s, read (n - 1) = .ok s ∧ s.Status = StatusError)
    (htimeout : n * pollInterval < timeout)
    (hctx : ∀ d, ctx.doneAt = some d → n * pollInterval < d)
    (hfuel : n ≤ fuel) :
    WaitForServerStatus fuel read ctx pick serverUUID StatusActive timeout
      = some (.error ("server " ++ serverUUID ++ " entered error state"), n) := by
  rw [WaitForServerStatus_eq_pollLoop]
  apply pollLoop_script _ _ _ _ _ _ n fuel hn _ _ htimeout hctx hfuel
  · intro k hk
    obtain ⟨s, hs, h1, h2⟩ := hpending k hk
    simp [statusVerdict, hs, h1, h2]
  · obtain ⟨s, hs, h1⟩ := herror
    have h2 : ¬ StatusError = StatusActive := by decide
    simp [statusVerdict, hs, h1, h2]

/-- C5 on the script [BUILDING, ERROR] with the create timeout of 60 minutes. -/
theorem waitForServerStatus_error_state_witness :
    WaitForServerStatus 2
      (scriptedReads [.ok (serverWithStatus StatusBuilding), .ok (serverWithStatus StatusError)]
        (.ok (serverWithStatus StatusActive)))
      neverCancelled pickSecond "srv-1" StatusActive (3600 * Second)
      = some (.error "server srv-1 entered error state", 2) :=
  waitForServerStatus_error_state _ neverCancelled pickSecond "srv-1" (3600 * Second) 2 2
    (by decide)
    (by
      intro k hk
      have hk2 : k < 1 := by omega
      interval_cases k
      exact ⟨_, rfl, by decide, by decide⟩)
    ⟨_, rfl, rfl⟩
    (by decide)
    (by
      intro d hd
      cases hd)
    (by decide)

/-- C6: when no read reports the target status, `WaitForServerStatus` never returns
success; when moreover every read whose tick is not after the timeout answers with a
status other than ERROR and the context is never cancelled, it returns the timeout error
(given fuel for the ticks that fit in the timeout), for every choice of the select. -/
theorem waitForServerStatus_without_target (read : Nat → Except String DedicatedServer)
    (ctx : Context) (pick : Nat → Nat) (serverUUID : String) (targetStatus : Status)
    (timeout : Int) (fuel : Nat)
    (hnever : ∀ k s, read k = .ok s → s.Status ≠ targetStatus) :
    (∀ n, WaitForServerStatus fuel read ctx pick serverUUID targetStatus timeout
        ≠ some (.ok (), n)) ∧
    ((∀ k : Nat, (k + 1) * pollInterval ≤ timeout →
        ∃ s, read k = .ok s ∧ s.Status ≠ StatusError) →
      ctx.doneAt = none → 0 < fuel → timeout < fuel * pollInterval →
      ∃ n, WaitForServerStatus fuel read ctx pick serverUUID targetStatus timeout
        = some (.error ("timeout waiting for server " ++ serverUUID ++ " to reach status "
            ++ targetStatus), n)) := by
  constructor
  · intro n h
    rw [WaitForServerStatus_eq_pollLoop] at h
    obtain ⟨_, hv⟩ := pollLoop_ok _ _ _ _ _ _ _ _ _ _ h
    simp only [statusVerdict] at hv
    split at hv
    · simp at hv
    · rename_i server hs
      have := hnever _ _ hs
      simp [this] at hv
  · intro hopen hctx hfuel htimeout
    rw [WaitForServerStatus_eq_pollLoop]
    obtain ⟨f, rfl⟩ : ∃ f, fuel = f + 1 := ⟨fuel - 1, by omega⟩
    have hpos := pollInterval_pos
    obtain ⟨n, _, h⟩ := pollLoop_times_out
      (fun k => statusVerdict serverUUID targetStatus (read k)) ctx pick
      (statusTimeoutErr serverUUID targetStatus) timeout f 0 0 pollInterval hpos
      (by push_cast at htimeout; linarith) hctx
      (by
        intro j hj
        obtain ⟨s, hs, h2⟩ := hopen j (by linarith)
        have h1 := hnever _ _ hs
        simp [statusVerdict, hs, h1, h2])
    exact ⟨n, h⟩

/-- C6 on the scenario of the spec: every read answers BUILDING, the timeout is 2 poll
intervals, the target is ACTIVE; the select takes the tick when it is due together
with the timer, so that 2 reads are made before the timeout error. -/
theorem waitForServerStatus_without_target_witness :
    (∀ n, WaitForServerStatus 3 (scriptedReads [] (.ok (serverWithStatus StatusBuilding)))
        neverCancelled pickSecond "srv-1" StatusActive (2 * pollInterval) ≠ some (.ok (), n)) ∧
    ∃ n, WaitForServerStatus 3 (scriptedReads [] (.ok (serverWithStatus StatusBuilding)))
        neverCancelled pickSecond "srv-1" StatusActive (2 * pollInterval)
      = some (.error "timeout waiting for server srv-1 to reach status ACTIVE", n) :=
  have hread : ∀ k, scriptedReads [] (.ok (serverWithStatus StatusBuilding)) k
      = .ok (serverWithStatus StatusBuilding) := fun k => by simp [scriptedReads]
  have h := waitForServerStatus_without_target
    (scriptedReads [] (.ok (serverWithStatus StatusBuilding)))
    neverCancelled pickSecond "srv-1" StatusActive (2 * pollInterval) 3
    (by
      intro k s hs
      rw [hread k] at hs
      cases hs
      decide)
  ⟨h.1, h.2 (fun k _ => ⟨_, hread k, by decide⟩) rfl (by decide)
    (by decide)⟩

/-- C10: in `WaitForServerStatus` a read that fails, in particular one that reports the
server as not found, ends the poll with the failure that wraps the read error, exactly
at that read; and a poll that returns success does so at a read that succeeded and
reported the target status, so absence is never a success. -/
theorem waitForServerStatus_failed_read_ends_poll (read : Nat → Except String DedicatedServer)
    (ctx : Context) (pick : Nat → Nat) (serverUUID : String) (targetStatus : Status)
    (timeout : Int) (fuel : Nat) :
    (∀ (n : Nat) (err : String), 0 < n →
      (∀ k, k + 1 < n →
        ∃ s, read k = .ok s ∧ s.Status ≠ targetStatus ∧ s.Status ≠ StatusError) →
      read (n - 1) = .error err →
      n * pollInterval < timeout →
      (∀ d, ctx.doneAt = some d → n * pollInterval < d) →
      n ≤ fuel →
      WaitForServerStatus fuel read ctx pick serverUUID targetStatus timeout
        = some (.error ("error checking server status: " ++ err), n)) ∧
    (∀ n, WaitForServerStatus fuel read ctx pick serverUUID targetStatus timeout
        = some (.ok (), n) →
      0 < n ∧ ∃ s, read (n - 1) = .ok s ∧ s.Status = targetStatus) := by
  constructor
  · intro n err hn hpending herr htimeout hctx hfuel
    rw [WaitForServerStatus_eq_pollLoop]
    apply pollLoop_script _ _ _ _ _ _ n fuel hn _ _ htimeout hctx hfuel
    · intro k hk
      obtain ⟨s, hs, h1, h2⟩ := hpending k hk
      simp [statusVerdict, hs, h1, h2]
    · simp [statusVerdict, herr]
  · intro n h
    rw [WaitForServerStatus_eq_pollLoop] at h
    obtain ⟨hlt, hv⟩ := pollLoop_ok _ _ _ _ _ _ _ _ _ _ h
    refine ⟨by omega, ?_⟩
    simp only [statusVerdict] at hv
    split at hv
    · simp at hv
    · rename_i server hs
      refine ⟨server, hs, ?_⟩
      by_contra hne
      simp [hne] at hv

/-- C10 on the script [BUILDING, not-found] with target ACTIVE: the poll fails at the
second read. -/
theorem waitForServerStatus_failed_read_ends_poll_witness :
    WaitForServerStatus 2
      (scriptedReads [.ok (serverWithStatus StatusBuilding),
        .error "API error 404: server not found"] (.ok (serverWithStatus StatusActive)))
      neverCancelled pickFirst "srv-1" StatusActive (3600 * Second)
      = some (.error "error checking server status: API error 404: server not found", 2) :=
  (waitForServerStatus_failed_read_ends_poll _ neverCancelled pickFirst "srv-1" StatusActive
    (3600 * Second) 2).1 2 "API error 404: server not found" (by decide)
    (by
      intro k hk
      have hk2 : k < 1 := by omega
      interval_cases k
      exact ⟨_, rfl, by decide, by decide⟩)
    rfl
    (by decide)
    (by
      intro d hd
      cases hd)
    (by decide)

/-! ## Cancellation -/

/-- C7 (as stated, with another case due at the same moment): in both pollers, when the
context is cancelled at the instant of the first tick and the select takes the tick, a
read is still performed before the cancellation error is returned; when it is cancelled
at the instant of the timeout and the select takes the timer, the timeout error is
returned instead of the cancellation error. -/
theorem pollers_cancel_with_other_case_due :
    WaitForServerStatus 3 (scriptedReads [] (.ok (serverWithStatus StatusBuilding)))
        (cancelledAt pollInterval) pickSecond "srv-1" StatusActive (3600 * Second)
      = some (.error "context canceled", 1) ∧
    WaitForServerStatus 3 (scriptedReads [] (.ok (serverWithStatus StatusBuilding)))
        (cancelledAt (5 * Second)) pickSecond "srv-1" StatusActive (5 * Second)
      = some (.error "timeout waiting for server srv-1 to reach status ACTIVE", 0) ∧
    waitForServerDeleted 3 (scriptedReads [] (.ok (serverWithStatus StatusActive)))
        (cancelledAt pollInterval) pickSecond "srv-1" (1800 * Second)
      = some (.error "context canceled", 1) ∧
    waitForServerDeleted 3 (scriptedReads [] (.ok (serverWithStatus StatusActive)))
        (cancelledAt (5 * Second)) pickSecond "srv-1" (5 * Second)
      = some (.error "timeout waiting for server srv-1 to be deleted", 0) :=
  ⟨rfl, rfl, rfl, rfl⟩

/-- C7 (amended): in both pollers, a select entered at `now` with the context cancelled
at `d`, when at the later of the two instants neither the timeout has elapsed nor a tick
is due, returns the cancellation error and performs no further read. -/
theorem pollers_return_cancellation_when_nothing_else_due
    (read : Nat → Except String DedicatedServer) (ctx : Context) (pick : Nat → Nat)
    (serverUUID : String) (targetStatus : Status) (timeout : Int)
    (fuel reads : Nat) (now nextTick d : Int)
    (hd : ctx.doneAt = some d) (htimeout : max now d < timeout) (htick : max now d < nextTick) :
    waitForServerStatusLoop read ctx pick serverUUID targetStatus timeout
        (fuel + 1) reads now nextTick = some (.error ctx.err, reads) ∧
    waitForServerDeletedLoop read ctx pick serverUUID timeout
        (fuel + 1) reads now nextTick = some (.error ctx.err, reads) := by
  have hsel := goSelect_ctx_only (pick reads) ctx timeout nextTick now d hd htimeout htick
  constructor
  · simp only [waitForServerStatusLoop, hsel]
  · simp only [waitForServerDeletedLoop, hsel]

/-- C7 (amended) on a context cancelled 5 seconds after the start of the poll, before
the first tick, with the default timeouts. -/
theorem pollers_return_cancellation_when_nothing_else_due_witness :
    waitForServerStatusLoop (scriptedReads [] (.ok (serverWithStatus StatusBuilding)))
        (cancelledAt (5 * Second)) pickSecond "srv-1" StatusActive (3600 * Second)
        1 0 0 pollInterval = some (.error "context canceled", 0) ∧
    waitForServerDeletedLoop (scriptedReads [] (.ok (serverWithStatus StatusBuilding)))
        (cancelledAt (5 * Second)) pickSecond "srv-1" (3600 * Second)
        1 0 0 pollInterval = some (.error "context canceled", 0) :=
  pollers_return_cancellation_when_nothing_else_due
    (scriptedReads [] (.ok (serverWithStatus StatusBuilding)))
    (cancelledAt (5 * Second)) pickSecond "srv-1" StatusActive (3600 * Second)
    0 0 0 pollInterval (5 * Second) rfl
    (by decide)
    (by decide)

/-! ## The deletion poller -/

/-- C9: `waitForServerDeleted`, after `n - 1` reads that still find the server, the
`n`-th tick falling before the timeout and any cancellation: returns success at the
`n`-th read when that read fails with a not-found error, and fails at that read with
the wrapped error when it fails otherwise; and when every read whose tick is not after
the timeout finds the server and the context is never cancelled, it returns the timeout
error. -/
theorem waitForServerDeleted_outcomes (read : Nat → Except String DedicatedServer)
    (ctx : Context) (pick : Nat → Nat) (serverUUID : String) (timeout : Int) (fuel : Nat) :
    (∀ (n : Nat) (err : String), 0 < n →
      (∀ k, k + 1 < n → ∃ s, read k = .ok s) →
      read (n - 1) = .error err →
      n * pollInterval < timeout →
      (∀ d, ctx.doneAt = some d → n * pollInterval < d) →
      n ≤ fuel →
      (GoStrings.Contains err "not found" = true →
        waitForServerDeleted fuel read ctx pick serverUUID timeout = some (.ok (), n)) ∧
      (GoStrings.Contains err "not found" = false →
        waitForServerDeleted fuel read ctx pick serverUUID timeout
          = some (.error ("error checking server status: " ++ err), n))) ∧
    ((∀ k : Nat, (k + 1) * pollInterval ≤ timeout → ∃ s, read k = .ok s) →
      ctx.doneAt = none → 0 < fuel → timeout < fuel * pollInterval →
      ∃ n, waitForServerDeleted fuel read ctx pick serverUUID timeout
        = some (.error ("timeout waiting for server " ++ serverUUID ++ " to be deleted"), n)) := by
  constructor
  · intro n err hn hfound herr htimeout hctx hfuel
    have hskip : ∀ k, k + 1 < n → (fun k => deletedVerdict (read k)) k = none := by
      intro k hk
      obtain ⟨s, hs⟩ := hfound k hk
      simp [deletedVerdict, hs]
    constructor
    · intro hnf
      rw [waitForServerDeleted_eq_pollLoop]
      apply pollLoop_script _ _ _ _ _ _ n fuel hn hskip _ htimeout hctx hfuel
      simp [deletedVerdict, herr, hnf]
    · intro hnf
      rw [waitForServerDeleted_eq_pollLoop]
      apply pollLoop_script _ _ _ _ _ _ n fuel hn hskip _ htimeout hctx hfuel
      simp [deletedVerdict, herr, hnf]
  · intro hfound hctx hfuel htimeout
    rw [waitForServerDeleted_eq_pollLoop]
    obtain ⟨f, rfl⟩ : ∃ f, fuel = f + 1 := ⟨fuel - 1, by omega⟩
    have hpos := pollInterval_pos
    obtain ⟨n, _, h⟩ := pollLoop_times_out
      (fun k => deletedVerdict (read k)) ctx pick
      (deletedTimeoutErr serverUUID) timeout f 0 0 pollInterval hpos
      (by push_cast at htimeout; linarith) hctx
      (by
        intro j hj
        obtain ⟨s, hs⟩ := hfound j (by linarith)
        simp [deletedVerdict, hs])
    exact ⟨n, h⟩

/-- C9 on the script [found, found, not-found] with the delete timeout of 30 minutes:
success at the third read. -/
theorem waitForServerDeleted_outcomes_witness :
    waitForServerDeleted 3
      (scriptedReads [.ok (serverWithStatus StatusActive), .ok (serverWithStatus StatusActive),
        .error "API error 404: server not found"] (.error "API error 404: server not found"))
      neverCancelled pickFirst "srv-1" (1800 * Second) = some (.ok (), 3) :=
  ((waitForServerDeleted_outcomes _ neverCancelled pickFirst "srv-1" (1800 * Second) 3).1
    3 "API error 404: server not found" (by decide)
    (by
      intro k hk
      have hk2 : k < 2 := by omega
      interval_cases k
      · exact ⟨_, rfl⟩
      · exact ⟨_, rfl⟩)
    rfl
    (by decide)
    (by
      intro d hd
      cases hd)
    (by decide)).1 (by decide)

/-! ## Deletion -/

/-- C8: when the delete call fails with a not-found error (its text contains
"not found"), `resourceDedicatedServerV1Delete` returns no diagnostics, leaves the record
as it is and issues nothing but the delete call, no read; run again on the outcome it
succeeds again in the same way. -/
theorem delete_not_found_is_success (fuel : Nat) (env : Env) (config : Config)
    (d : ResourceData) (tr : Trace) (client : API) (err : String)
    (hclient : getDedicatedServerClient d config = .ok client)
    (hdelete : client.delete d.id = .error err)
    (hnotfound : GoStrings.Contains err "not found" = true) :
    ∃ d1 tr1,
      resourceDedicatedServerV1Delete fuel env config d tr = some (none, d1, tr1) ∧
      tr1 = tr ++ [Call.deleteServer d.id] ∧
      resourceDedicatedServerV1Delete fuel env config d1 tr1
        = some (none, d1, tr1 ++ [Call.deleteServer d.id]) := by
  have h : ∀ t, resourceDedicatedServerV1Delete fuel env config d t
      = some (none, d, t ++ [Call.deleteServer d.id]) := by
    intro t
    simp [resourceDedicatedServerV1Delete, hclient, API.DeleteDedicatedServer, hdelete, hnotfound]
  exact ⟨d, tr ++ [Call.deleteServer d.id], h tr, rfl, h _⟩

/-- C8 on a server the sample remote does not know: two deletes in a row, both
successful, two delete calls and no read. -/
theorem delete_not_found_is_success_witness :
    ∃ d1 tr1,
      resourceDedicatedServerV1Delete 0 sampleEnv sampleConfig
        { sampleRequest with id := "srv-gone" } [] = some (none, d1, tr1) ∧
      tr1 = [] ++ [Call.deleteServer "srv-gone"] ∧
      resourceDedicatedServerV1Delete 0 sampleEnv sampleConfig d1 tr1
        = some (none, d1, tr1 ++ [Call.deleteServer "srv-gone"]) :=
  delete_not_found_is_success 0 sampleEnv sampleConfig { sampleRequest with id := "srv-gone" }
    [] sampleRemote "API error 404: server not found" rfl rfl (by decide)

/-! ## The validation chain of create -/

/-- C1: when the client is obtained, the project listing succeeds, the location is in
the location listing and the configuration listing scoped to the location returns
without the requested configuration id, `resourceDedicatedServerV1Create` fails with the
configuration-validation error, having issued the three listings and nothing else: the
create endpoint is not called. -/
theorem create_rejects_configuration_outside_location (fuel : Nat) (env : Env)
    (config : Config) (d : ResourceData) (tr : Trace) (client : API)
    (servers : List DedicatedServer) (locations : List Location)
    (configurations : List Configuration)
    (hclient : getDedicatedServerClient d config = .ok client)
    (hproject : client.servers { ProjectID := d.project_id } = .ok servers)
    (hlocations : client.locations = .ok locations)
    (hlocation : ∃ l ∈ locations, l.UUID = d.location_uuid)
    (hconfigurations : client.configurations d.location_uuid = .ok configurations)
    (hconfiguration : ∀ c ∈ configurations, c.UUID ≠ d.configuration_uuid) :
    ∃ tr1,
      resourceDedicatedServerV1Create fuel env config d tr
        = some (some ("configuration validation failed: " ++ ("configuration "
            ++ d.configuration_uuid ++ " not available in location " ++ d.location_uuid)),
            d, tr1) ∧
      tr1 = tr ++ [Call.listServers { ProjectID := d.project_id }, Call.listLocations,
        Call.listConfigurations d.location_uuid] ∧
      tr1.countP Call.isCreate = tr.countP Call.isCreate := by
  have hfind : ∃ l, locations.find? (fun location => location.UUID == d.location_uuid) = some l := by
    cases hf : locations.find? (fun location => location.UUID == d.location_uuid) with
    | some l => exact ⟨l, rfl⟩
    | none =>
      obtain ⟨l, hl, hu⟩ := hlocation
      have := List.find?_eq_none.mp hf l hl
      simp [hu] at this
  obtain ⟨l, hl⟩ := hfind
  have hany : configurations.any (fun config => config.UUID == d.configuration_uuid) = false := by
    rw [List.any_eq_false]
    intro c hc
    simpa using hconfiguration c hc
  refine ⟨_, ?_, rfl, ?_⟩
  · simp [resourceDedicatedServerV1Create, hclient, validateProjectAccess, API.DedicatedServers,
      hproject, validateLocation, API.Location, API.Locations, hlocations, hl,
      validateConfigurationInLocation, API.Configurations, hconfigurations, hany]
  · simp [List.countP_append, List.countP_cons, Call.isCreate]

/-- C1 on the sample remote: `cfg-2` exists but is not offered in `loc-1`. -/
theorem create_rejects_configuration_outside_location_witness :
    ∃ tr1,
      resourceDedicatedServerV1Create 0 sampleEnv sampleConfig
          { sampleRequest with configuration_uuid := "cfg-2" } []
        = some (some ("configuration validation failed: " ++ ("configuration "
            ++ "cfg-2" ++ " not available in location " ++ "loc-1")),
            { sampleRequest with configuration_uuid := "cfg-2" }, tr1) ∧
      tr1 = [] ++ [Call.listServers { ProjectID := "project-1" }, Call.listLocations,
        Call.listConfigurations "loc-1"] ∧
      tr1.countP Call.isCreate = ([] : Trace).countP Call.isCreate :=
  create_rejects_configuration_outside_location 0 sampleEnv sampleConfig
    { sampleRequest with configuration_uuid := "cfg-2" } [] sampleRemote []
    [{ UUID := "loc-1", Name := "SPB-1", LocationID := 1, Description := "", Enable := true }]
    [{ (default : Configuration) with UUID := "cfg-1", Name := "EL10", TariffLine := "Entry Line" }]
    rfl rfl rfl ⟨_, List.mem_singleton.mpr rfl, rfl⟩ rfl (by decide)

/-- With fuel for the ticks that fit in the timeout, `WaitForServerStatus` returns. -/
theorem WaitForServerStatus_returns (fuel : Nat) (read : Nat → Except String DedicatedServer)
    (ctx : Context) (pick : Nat → Nat) (serverUUID : String) (targetStatus : Status)
    (timeout : Int) (hfuel : 0 < fuel) (htimeout : timeout < fuel * pollInterval) :
    ∃ v n, WaitForServerStatus fuel read ctx pick serverUUID targetStatus timeout
      = some (v, n) := by
  rw [WaitForServerStatus_eq_pollLoop]
  obtain ⟨f, rfl⟩ : ∃ f, fuel = f + 1 := ⟨fuel - 1, by omega⟩
  obtain ⟨v, n, _, h⟩ := pollLoop_returns
    (fun k => statusVerdict serverUUID targetStatus (read k)) ctx pick
    (statusTimeoutErr serverUUID targetStatus) timeout f 0 0 pollInterval pollInterval_pos
    (by push_cast at htimeout; linarith)
  exact ⟨v, n, h⟩

/-- The read hook, once the client is obtained, issues exactly one read of the server. -/
theorem resourceDedicatedServerV1Read_trace (config : Config) (d : ResourceData) (tr : Trace)
    (client : API) (hclient : getDedicatedServerClient d config = .ok client) :
    (resourceDedicatedServerV1Read config d tr).2.2 = tr ++ [Call.getServer d.id] := by
  simp only [resourceDedicatedServerV1Read, hclient, readServer]
  cases client.server (List.countP Call.isRead tr) d.id with
  | error err =>
    simp only []
    split <;> rfl
  | ok server => rfl

/-- C2: when the client is obtained, the project listing succeeds, the location, the
configuration, the tariff and the OS image are in their scoped listings, and neither a
name nor a network nor OS parameters are supplied, `resourceDedicatedServerV1Create`
(given fuel for the poll) returns after the five listings of the validation chain,
one create call carrying the request with a generated name and an empty parameter bag,
and reads of the server only: exactly one create call. -/
theorem create_valid_request_issues_one_create (fuel : Nat) (env : Env)
    (config : Config) (d : ResourceData) (tr : Trace) (client : API)
    (servers : List DedicatedServer) (locations : List Location)
    (configurations : List Configuration) (tariffs : List Tariff) (images : List OSImage)
    (hclient : getDedicatedServerClient d config = .ok client)
    (hproject : client.servers { ProjectID := d.project_id } = .ok servers)
    (hlocations : client.locations = .ok locations)
    (hlocation : ∃ l ∈ locations, l.UUID = d.location_uuid)
    (hconfigurations : client.configurations d.location_uuid = .ok configurations)
    (hconfiguration : ∃ c ∈ configurations, c.UUID = d.configuration_uuid)
    (htariffs : client.tariffs d.configuration_uuid = .ok tariffs)
    (htariff : ∃ t ∈ tariffs, t.UUID = d.tariff_uuid)
    (himages : client.osImages d.location_uuid d.configuration_uuid = .ok images)
    (himage : ∃ i ∈ images, i.UUID = d.os_image_uuid)
    (hname : d.name = "") (hprivate : d.private_network_uuid = "")
    (hpublic : d.public_network_uuid = "") (hparams : d.os_params = [])
    (hfuel : 0 < fuel) (htimeout : d.timeoutCreate < fuel * pollInterval) :
    ∃ diags d1 tr1 reads,
      resourceDedicatedServerV1Create fuel env config d tr = some (diags, d1, tr1) ∧
      tr1 = tr ++ [Call.listServers { ProjectID := d.project_id }, Call.listLocations,
          Call.listConfigurations d.location_uuid, Call.listTariffs d.configuration_uuid,
          Call.listOSImages d.location_uuid d.configuration_uuid,
          Call.createServer {
            ProjectID := d.project_id
            LocationUUID := d.location_uuid
            ConfigurationUUID := d.configuration_uuid
            TariffUUID := d.tariff_uuid
            OSImageUUID := d.os_image_uuid
            Name := generateServerName env
            PublicNetworkUUID := ""
            PrivateNetworkUUID := ""
            OsParams := [] }] ++ reads ∧
      (∀ c ∈ reads, c.isRead = true) ∧
      tr1.countP Call.isCreate = tr.countP Call.isCreate + 1 := by
  have hfind : ∃ l, locations.find? (fun location => location.UUID == d.location_uuid) = some l := by
    cases hf : locations.find? (fun location => location.UUID == d.location_uuid) with
    | some l => exact ⟨l, rfl⟩
    | none =>
      obtain ⟨l, hl, hu⟩ := hlocation
      have := List.find?_eq_none.mp hf l hl
      simp [hu] at this
  obtain ⟨l, hl⟩ := hfind
  have hany1 : configurations.any (fun config => config.UUID == d.configuration_uuid) = true := by
    obtain ⟨c, hc, hu⟩ := hconfiguration
    exact List.any_eq_true.mpr ⟨c, hc, by simp [hu]⟩
  have hany2 : tariffs.any (fun tariff => tariff.UUID == d.tariff_uuid) = true := by
    obtain ⟨c, hc, hu⟩ := htariff
    exact List.any_eq_true.mpr ⟨c, hc, by simp [hu]⟩
  have hany3 : images.any (fun image => image.UUID == d.os_image_uuid) = true := by
    obtain ⟨c, hc, hu⟩ := himage
    exact List.any_eq_true.mpr ⟨c, hc, by simp [hu]⟩
  have hcount : ∀ (opts : DedicatedServerCreateOpts) (reads : Trace),
      (∀ c ∈ reads, c.isRead = true) →
      (tr ++ [Call.listServers { ProjectID := d.project_id }, Call.listLocations,
          Call.listConfigurations d.location_uuid, Call.listTariffs d.configuration_uuid,
          Call.listOSImages d.location_uuid d.configuration_uuid,
          Call.createServer opts] ++ reads).countP Call.isCreate
        = tr.countP Call.isCreate + 1 := by
    intro opts reads hreads
    have h0 : reads.countP Call.isCreate = 0 := by
      rw [List.countP_eq_zero]
      intro c hc
      have := hreads c hc
      cases c <;> simp_all [Call.isRead, Call.isCreate]
    simp [List.countP_append, List.countP_cons, Call.isCreate, h0]
  have hstart : resourceDedicatedServerV1Create fuel env config d tr =
      (match client.CreateDedicatedServer {
            ProjectID := d.project_id
            LocationUUID := d.location_uuid
            ConfigurationUUID := d.configuration_uuid
            TariffUUID := d.tariff_uuid
            OSImageUUID := d.os_image_uuid
            Name := generateServerName env
            PublicNetworkUUID := ""
            PrivateNetworkUUID := ""
            OsParams := [] }
          (tr ++ [Call.listServers { ProjectID := d.project_id }, Call.listLocations,
            Call.listConfigurations d.location_uuid, Call.listTariffs d.configuration_uuid,
            Call.listOSImages d.location_uuid d.configuration_uuid]) with
      | (.error err, tr) => some (some ("error creating dedicated server: " ++ err), d, tr)
      | (.ok server, tr) =>
        match WaitForServerStatus fuel (pollReads client server.UUID tr) env.ctx env.pick
            server.UUID StatusActive d.timeoutCreate with
        | none => none
        | some (.error err, n) =>
          some (some ("server creation timeout: " ++ err),
            { d with id := server.UUID, name := generateServerName env },
            afterReads server.UUID n tr)
        | some (.ok _, n) =>
          some (resourceDedicatedServerV1Read config
            { d with id := server.UUID, name := generateServerName env }
            (afterReads server.UUID n tr))) := by
    simp [resourceDedicatedServerV1Create, hclient, validateProjectAccess, API.DedicatedServers,
      hproject, validateLocation, API.Location, API.Locations, hlocations, hl,
      validateConfigurationInLocation, API.Configurations, hconfigurations, hany1,
      validateTariffForConfiguration, API.Tariffs, htariffs, hany2,
      validateOSImageForConfiguration, API.OSImages, himages, hany3, hname, hprivate, hpublic,
      processOSParams, hparams]
  rw [hstart]
  obtain ⟨opts, hopts⟩ : ∃ opts : DedicatedServerCreateOpts, opts = {
      ProjectID := d.project_id
      LocationUUID := d.location_uuid
      ConfigurationUUID := d.configuration_uuid
      TariffUUID := d.tariff_uuid
      OSImageUUID := d.os_image_uuid
      Name := generateServerName env
      PublicNetworkUUID := ""
      PrivateNetworkUUID := ""
      OsParams := [] } := ⟨_, rfl⟩
  rw [← hopts]
  simp only [API.CreateDedicatedServer]
  cases client.create opts with
  | error err =>
    refine ⟨_, _, _, [], rfl, by simp, by simp, ?_⟩
    simpa using hcount opts [] (by simp)
  | ok server =>
    simp only []
    obtain ⟨v, n, hw⟩ := WaitForServerStatus_returns fuel
      (pollReads client server.UUID
        (tr ++ [Call.listServers { ProjectID := d.project_id }, Call.listLocations,
            Call.listConfigurations d.location_uuid, Call.listTariffs d.configuration_uuid,
            Call.listOSImages d.location_uuid d.configuration_uuid] ++
          [Call.createServer opts]))
      env.ctx env.pick server.UUID StatusActive d.timeoutCreate hfuel htimeout
    rw [hw]
    cases v with
    | error err =>
      have hreads : ∀ c ∈ List.replicate n (Call.getServer server.UUID), c.isRead = true := by
        intro c hc
        rw [List.eq_of_mem_replicate hc]
        rfl
      refine ⟨_, _, _, List.replicate n (Call.getServer server.UUID), rfl, ?_, hreads, ?_⟩
      · simp [afterReads]
      · have := hcount opts _ hreads
        simpa [afterReads] using this
    | ok u =>
      simp only []
      have hreads : ∀ c ∈ List.replicate n (Call.getServer server.UUID)
          ++ [Call.getServer server.UUID], c.isRead = true := by
        intro c hc
        rcases List.mem_append.mp hc with h | h
        · rw [List.eq_of_mem_replicate h]
          rfl
        · rw [List.mem_singleton.mp h]
          rfl
      have htrace := resourceDedicatedServerV1Read_trace config
        { d with id := server.UUID, name := generateServerName env }
        (afterReads server.UUID n
          (tr ++ [Call.listServers { ProjectID := d.project_id }, Call.listLocations,
            Call.listConfigurations d.location_uuid, Call.listTariffs d.configuration_uuid,
            Call.listOSImages d.location_uuid d.configuration_uuid] ++
          [Call.createServer opts])) client hclient
      rcases hR : resourceDedicatedServerV1Read config
        { d with id := server.UUID, name := generateServerName env }
        (afterReads server.UUID n
          (tr ++ [Call.listServers { ProjectID := d.project_id }, Call.listLocations,
            Call.listConfigurations d.location_uuid, Call.listTariffs d.configuration_uuid,
            Call.listOSImages d.location_uuid d.configuration_uuid] ++
          [Call.createServer opts])) with ⟨dg, d2, t2⟩
      rw [hR] at htrace
      simp only [] at htrace
      refine ⟨dg, d2, t2, List.replicate n (Call.getServer server.UUID)
        ++ [Call.getServer server.UUID], rfl, ?_, hreads, ?_⟩
      · rw [htrace]
        simp [afterReads]
      · rw [htrace]
        have := hcount opts _ hreads
        simpa [afterReads] using this

/-- C2 on the sample request against the sample remote, with fuel for the 360 ticks
of the 60-minute create timeout. -/
theorem create_valid_request_issues_one_create_witness :
    ∃ diags d1 tr1 reads,
      resourceDedicatedServerV1Create 361 sampleEnv sampleConfig sampleRequest []
        = some (diags, d1, tr1) ∧
      tr1 = [] ++ [Call.listServers { ProjectID := "project-1" }, Call.listLocations,
          Call.listConfigurations "loc-1", Call.listTariffs "cfg-1",
          Call.listOSImages "loc-1" "cfg-1",
          Call.createServer {
            ProjectID := "project-1"
            LocationUUID := "loc-1"
            ConfigurationUUID := "cfg-1"
            TariffUUID := "tariff-1"
            OSImageUUID := "img-1"
            Name := generateServerName sampleEnv
            PublicNetworkUUID := ""
            PrivateNetworkUUID := ""
            OsParams := [] }] ++ reads ∧
      (∀ c ∈ reads, c.isRead = true) ∧
      tr1.countP Call.isCreate = ([] : Trace).countP Call.isCreate + 1 :=
  create_valid_request_issues_one_create 361 sampleEnv sampleConfig sampleRequest []
    sampleRemote []
    [{ UUID := "loc-1", Name := "SPB-1", LocationID := 1, Description := "", Enable := true }]
    [{ (default : Configuration) with UUID := "cfg-1", Name := "EL10", TariffLine := "Entry Line" }]
    [{ (default : Tariff) with UUID := "tariff-1", Name := "monthly" }]
    [{ (default : OSImage) with UUID := "img-1", Name := "Ubuntu", Family := "linux" }]
    rfl rfl rfl ⟨_, List.mem_singleton.mpr rfl, rfl⟩
    rfl ⟨_, List.mem_singleton.mpr rfl, rfl⟩
    rfl ⟨_, List.mem_singleton.mpr rfl, rfl⟩
    rfl ⟨_, List.mem_singleton.mpr rfl, rfl⟩
    rfl rfl rfl rfl (by decide) (by decide)

/-! ## Order and short-circuit of the chain -/

/-- When the checks before position `k` pass and the check at position `k` fails, the
run of the whole list ends there, with that error and that trace. -/
theorem runChecks_fails_at (chain : List Check) (k : Nat) (c : Check) (tr tr1 tr2 : Trace)
    (err : String) (hk : chain[k]? = some c)
    (hpre : runChecks (chain.take k) tr = (.ok (), tr1))
    (hfail : c tr1 = (.error err, tr2)) :
    runChecks chain tr = (.error err, tr2) := by
  induction chain generalizing k tr with
  | nil => simp at hk
  | cons c0 cs ih =>
    cases k with
    | zero =>
      simp only [List.getElem?_cons_zero, Option.some.injEq] at hk
      subst hk
      simp only [List.take_zero, runChecks, Prod.mk.injEq, true_and] at hpre
      subst hpre
      simp [runChecks, hfail]
    | succ k =>
      simp only [List.getElem?_cons_succ] at hk
      simp only [List.take_succ_cons, runChecks] at hpre
      simp only [runChecks]
      rcases h0 : c0 tr with ⟨r0, t0⟩
      rw [h0] at hpre
      cases r0 with
      | error e => simp at hpre
      | ok u => exact ih k t0 hk hpre

/-- An optional labelled check, applied to a trace. -/
theorem ite_labelled (p : Prop) [Decidable p] (label : String) (f : Check) (t : Trace) :
    (if p then labelled label f else skipped) t =
      match (if p then f t else (.ok (), t)) with
      | (.error err, tr) => (.error (label ++ err), tr)
      | (.ok _, tr) => (.ok (), tr) := by
  by_cases hp : p
  · simp only [hp, if_true, labelled]
  · simp only [hp, if_false, skipped]

/-- A failure of the specification's chain is the outcome of the create hook: same
error, same trace, the record untouched. -/
theorem create_of_chain_failure (fuel : Nat) (env : Env) (config : Config)
    (d : ResourceData) (tr tr2 : Trace) (client : API) (err : String)
    (hclient : getDedicatedServerClient d config = .ok client)
    (h : runChecks (specValidationChain env client d) tr = (.error err, tr2)) :
    resourceDedicatedServerV1Create fuel env config d tr = some (some err, d, tr2) := by
  simp only [specValidationChain, runChecks, labelled] at h
  simp only [resourceDedicatedServerV1Create, hclient]
  rcases h1 : validateProjectAccess client d.project_id tr with ⟨r1, t1⟩
  rw [h1] at h
  cases r1 with
  | error e => simp_all
  | ok u1 =>
  simp only [] at h ⊢
  rcases h2 : validateLocation client d.location_uuid t1 with ⟨r2, t2⟩
  rw [h2] at h
  cases r2 with
  | error e => simp_all
  | ok u2 =>
  simp only [] at h ⊢
  rcases h3 : validateConfigurationInLocation client d.configuration_uuid d.location_uuid t2
    with ⟨r3, t3⟩
  rw [h3] at h
  cases r3 with
  | error e => simp_all
  | ok u3 =>
  simp only [] at h ⊢
  rcases h4 : validateTariffForConfiguration client d.tariff_uuid d.configuration_uuid t3
    with ⟨r4, t4⟩
  rw [h4] at h
  cases r4 with
  | error e => simp_all
  | ok u4 =>
  simp only [] at h ⊢
  rcases h5 : validateOSImageForConfiguration client d.os_image_uuid d.location_uuid
    d.configuration_uuid t4 with ⟨r5, t5⟩
  rw [h5] at h
  cases r5 with
  | error e => simp_all
  | ok u5 =>
  simp only [] at h ⊢
  by_cases hname : d.name = ""
  · simp only [hname, if_true, skipped] at h ⊢
    rw [ite_labelled] at h
    rcases h7 : (if d.private_network_uuid ≠ "" then
        validatePrivateNetworkForConfiguration env client d.private_network_uuid
          d.configuration_uuid d.location_uuid t5
      else (.ok (), t5)) with ⟨r7, t7⟩
    rw [h7] at h
    cases r7 with
    | error e => simp_all
    | ok u7 =>
    simp only [] at h ⊢
    rw [ite_labelled] at h
    rcases h8 : (if d.public_network_uuid ≠ "" then
        validatePublicNetworkForLocation client d.public_network_uuid d.location_uuid t7
      else (.ok (), t7)) with ⟨r8, t8⟩
    rw [h8] at h
    cases r8 with
    | error e => simp_all
    | ok u8 =>
    simp only [] at h ⊢
    rcases h9 : processOSParams env client d d.os_image_uuid d.configuration_uuid t8
      with ⟨r9, t9⟩
    rw [h9] at h
    cases r9 with
    | error e => simp_all
    | ok osParams => simp at h
  · simp only [hname, if_false, labelled] at h ⊢
    rcases h6 : validateServerNameUniqueness client d.project_id d.name t5 with ⟨r6, t6⟩
    rw [h6] at h
    cases r6 with
    | error e => simp_all
    | ok u6 =>
    simp only [] at h ⊢
    rw [ite_labelled] at h
    rcases h7 : (if d.private_network_uuid ≠ "" then
        validatePrivateNetworkForConfiguration env client d.private_network_uuid
          d.configuration_uuid d.location_uuid t6
      else (.ok (), t6)) with ⟨r7, t7⟩
    rw [h7] at h
    cases r7 with
    | error e => simp_all
    | ok u7 =>
    simp only [] at h ⊢
    rw [ite_labelled] at h
    rcases h8 : (if d.public_network_uuid ≠ "" then
        validatePublicNetworkForLocation client d.public_network_uuid d.location_uuid t7
      else (.ok (), t7)) with ⟨r8, t8⟩
    rw [h8] at h
    cases r8 with
    | error e => simp_all
    | ok u8 =>
    simp only [] at h ⊢
    rcases h9 : processOSParams env client d d.os_image_uuid d.configuration_uuid t8
      with ⟨r9, t9⟩
    rw [h9] at h
    cases r9 with
    | error e => simp_all
    | ok osParams => simp at h

theorem labelled_noCreate (label : String) (c : Check) (hc : NoCreate c) :
    NoCreate (labelled label c) := by
  intro t
  have := hc t
  simp only [labelled]
  rcases h : c t with ⟨r, t1⟩
  rw [h] at this
  cases r <;> simpa using this

theorem skipped_noCreate : NoCreate skipped := fun _ => rfl

theorem runChecks_noCreate (chain : List Check) (h : ∀ c ∈ chain, NoCreate c) :
    NoCreate (runChecks chain) := by
  induction chain with
  | nil => exact fun _ => rfl
  | cons c cs ih =>
    intro t
    have hc := h c (List.mem_cons_self _ _) t
    simp only [runChecks]
    rcases hct : c t with ⟨r, t1⟩
    rw [hct] at hc
    cases r with
    | error e => simpa using hc
    | ok u =>
      have := ih (fun c' hc' => h c' (List.mem_cons_of_mem _ hc')) t1
      simp only [] at this hc ⊢
      omega

theorem configuration_noCreate (client : API) (configUUID : String) (t : Trace) :
    (client.Configuration configUUID t).2.countP Call.isCreate = t.countP Call.isCreate := by
  simp only [API.Configuration, API.Configurations]
  cases client.configurations "" with
  | error e => simp [List.countP_append, Call.isCreate]
  | ok l =>
    simp only []
    cases List.find? (fun config => config.UUID == configUUID) l <;>
      simp [List.countP_append, Call.isCreate]

theorem network_noCreate (client : API) (networkUUID : String) (t : Trace) :
    (client.Network networkUUID t).2.countP Call.isCreate = t.countP Call.isCreate := by
  simp only [API.Network, API.Networks]
  cases client.networks "" with
  | error e => simp [List.countP_append, Call.isCreate]
  | ok l =>
    simp only []
    cases List.find? (fun network => network.UUID == networkUUID) l <;>
      simp [List.countP_append, Call.isCreate]

theorem validateProjectAccess_noCreate (client : API) (projectID : String) :
    NoCreate (validateProjectAccess client projectID) := by
  intro t
  simp only [validateProjectAccess, API.DedicatedServers]
  cases client.servers { ProjectID := projectID } <;>
    simp [List.countP_append, Call.isCreate]

theorem validateLocation_noCreate (client : API) (locationUUID : String) :
    NoCreate (validateLocation client locationUUID) := by
  intro t
  simp only [validateLocation, API.Location, API.Locations]
  cases client.locations with
  | error e => simp [List.countP_append, Call.isCreate]
  | ok l =>
    simp only []
    cases List.find? (fun location => location.UUID == locationUUID) l <;>
      simp [List.countP_append, Call.isCreate]

theorem validateConfigurationInLocation_noCreate (client : API)
    (configUUID locationUUID : String) :
    NoCreate (validateConfigurationInLocation client configUUID locationUUID) := by
  intro t
  simp only [validateConfigurationInLocation, API.Configurations]
  cases client.configurations locationUUID with
  | error e => simp [List.countP_append, Call.isCreate]
  | ok l =>
    simp only []
    split <;> simp [List.countP_append, Call.isCreate]

theorem validateTariffForConfiguration_noCreate (client : API)
    (tariffUUID configUUID : String) :
    NoCreate (validateTariffForConfiguration client tariffUUID configUUID) := by
  intro t
  simp only [validateTariffForConfiguration, API.Tariffs]
  cases client.tariffs configUUID with
  | error e => simp [List.countP_append, Call.isCreate]
  | ok l =>
    simp only []
    split <;> simp [List.countP_append, Call.isCreate]

theorem validateOSImageForConfiguration_noCreate (client : API)
    (osImageUUID locationUUID configUUID : String) :
    NoCreate (validateOSImageForConfiguration client osImageUUID locationUUID configUUID) := by
  intro t
  simp only [validateOSImageForConfiguration, API.OSImages]
  cases client.osImages locationUUID configUUID with
  | error e => simp [List.countP_append, Call.isCreate]
  | ok l =>
    simp only []
    split <;> simp [List.countP_append, Call.isCreate]

theorem validateServerNameUniqueness_noCreate (client : API) (projectID name : String) :
    NoCreate (validateServerNameUniqueness client projectID name) := by
  intro t
  simp only [validateServerNameUniqueness, API.DedicatedServers]
  cases client.servers { ProjectID := projectID, Name := name } with
  | error e => simp [List.countP_append, Call.isCreate]
  | ok l =>
    simp only []
    split <;> simp [List.countP_append, Call.isCreate]

theorem validatePublicNetworkForLocation_noCreate (client : API)
    (networkUUID locationUUID : String) :
    NoCreate (validatePublicNetworkForLocation client networkUUID locationUUID) := by
  intro t
  have hn := network_noCreate client networkUUID t
  simp only [validatePublicNetworkForLocation]
  rcases h : client.Network networkUUID t with ⟨r, t1⟩
  rw [h] at hn
  cases r with
  | error e => simpa using hn
  | ok network =>
    simp only []
    repeat' split
    all_goals simpa using hn

theorem validatePrivateNetworkForConfiguration_noCreate (env : Env) (client : API)
    (networkUUID configUUID locationUUID : String) :
    NoCreate (validatePrivateNetworkForConfiguration env client networkUUID configUUID
      locationUUID) := by
  intro t
  have hn := network_noCreate client networkUUID t
  simp only [validatePrivateNetworkForConfiguration]
  rcases h : client.Network networkUUID t with ⟨r, t1⟩
  rw [h] at hn
  cases r with
  | error e => simpa using hn
  | ok network =>
    simp only [] at hn ⊢
    have hc := configuration_noCreate client configUUID t1
    rcases h2 : client.Configuration configUUID t1 with ⟨r2, t2⟩
    rw [h2] at hc
    simp only [] at hc
    split
    · simpa using hn
    · split
      · simpa using hn
      · cases r2 with
        | error e =>
          simp only []
          omega
        | ok config =>
          simp only []
          split <;> (simp only []; omega)

theorem validateSoftRaidForConfiguration_noCreate (env : Env) (client : API)
    (softRaid configUUID : String) :
    NoCreate (validateSoftRaidForConfiguration env client softRaid configUUID) := by
  intro t
  have hc := configuration_noCreate client configUUID t
  simp only [validateSoftRaidForConfiguration]
  rcases h2 : client.Configuration configUUID t with ⟨r2, t2⟩
  rw [h2] at hc
  cases r2 with
  | error e => simpa using hc
  | ok config =>
    simp only [] at hc ⊢
    split <;> simpa using hc

theorem getDefaultPartitionsForConfiguration_noCreate (env : Env) (client : API)
    (configUUID : String) (t : Trace) :
    (getDefaultPartitionsForConfiguration env client configUUID t).2.countP Call.isCreate
      = t.countP Call.isCreate := by
  have hc := configuration_noCreate client configUUID t
  simp only [getDefaultPartitionsForConfiguration]
  rcases h2 : client.Configuration configUUID t with ⟨r2, t2⟩
  rw [h2] at hc
  cases r2 with
  | error e => simpa using hc
  | ok config =>
    simp only [] at hc ⊢
    split <;> simpa using hc

theorem osImage_noCreate (client : API) (osImageUUID locationUUID serviceUUID : String)
    (t : Trace) :
    (client.OSImage osImageUUID locationUUID serviceUUID t).2.countP Call.isCreate
      = t.countP Call.isCreate := by
  simp only [API.OSImage, API.OSImages]
  cases client.osImages locationUUID serviceUUID with
  | error e => simp [List.countP_append, Call.isCreate]
  | ok l =>
    simp only []
    cases List.find? (fun image => image.UUID == osImageUUID) l <;>
      simp [List.countP_append, Call.isCreate]

theorem processOSParams_noCreate (env : Env) (client : API) (d : ResourceData)
    (osImageUUID configUUID : String) (t : Trace) :
    (processOSParams env client d osImageUUID configUUID t).2.countP Call.isCreate
      = t.countP Call.isCreate := by
  simp only [processOSParams]
  cases d.os_params with
  | nil => rfl
  | cons osParams rest =>
    simp only []
    have h1 := osImage_noCreate client osImageUUID "" "" t
    rcases h : client.OSImage osImageUUID "" "" t with ⟨⟨image, e⟩, t1⟩
    rw [h] at h1
    simp only [] at h1 ⊢
    cases image with
    | none => simpa using h1
    | some image =>
      simp only []
      split
      · cases nonEmptyParam osParams "soft_raid" with
        | some softRaid =>
          simp only []
          have h3 := validateSoftRaidForConfiguration_noCreate env client softRaid configUUID t1
          rcases h2 : validateSoftRaidForConfiguration env client softRaid configUUID t1
            with ⟨r2, t2⟩
          rw [h2] at h3
          simp only [] at h3
          cases r2 with
          | error e2 =>
            simp only []
            omega
          | ok u =>
            simp only []
            cases nonEmptyParam osParams "partitions" with
            | none =>
              simp only []
              omega
            | some partitions =>
              simp only []
              cases validatePartitionsWithRaid partitions softRaid <;> (simp only []; omega)
        | none =>
          simp only []
          have h3 := getDefaultPartitionsForConfiguration_noCreate env client configUUID t1
          rcases h2 : getDefaultPartitionsForConfiguration env client configUUID t1
            with ⟨r2, t2⟩
          rw [h2] at h3
          simp only [] at h3
          cases r2 <;> (simp only []; omega)
      · simpa using h1

/-- No check of the chain calls the create endpoint. -/
theorem specValidationChain_noCreate (env : Env) (client : API) (d : ResourceData) :
    ∀ c ∈ specValidationChain env client d, NoCreate c := by
  intro c hc
  simp only [specValidationChain, List.mem_cons, List.mem_singleton, List.not_mem_nil,
    or_false] at hc
  rcases hc with rfl | rfl | rfl | rfl | rfl | rfl | rfl | rfl | rfl
  · exact labelled_noCreate _ _ (validateProjectAccess_noCreate _ _)
  · exact labelled_noCreate _ _ (validateLocation_noCreate _ _)
  · exact labelled_noCreate _ _ (validateConfigurationInLocation_noCreate _ _ _)
  · exact labelled_noCreate _ _ (validateTariffForConfiguration_noCreate _ _ _)
  · exact labelled_noCreate _ _ (validateOSImageForConfiguration_noCreate _ _ _ _)
  · split
    · exact skipped_noCreate
    · exact labelled_noCreate _ _ (validateServerNameUniqueness_noCreate _ _ _)
  · split
    · exact labelled_noCreate _ _ (validatePrivateNetworkForConfiguration_noCreate _ _ _ _ _)
    · exact skipped_noCreate
  · split
    · exact labelled_noCreate _ _ (validatePublicNetworkForLocation_noCreate _ _ _)
    · exact skipped_noCreate
  · intro t
    have := processOSParams_noCreate env client d d.os_image_uuid d.configuration_uuid t
    show (match processOSParams env client d d.os_image_uuid d.configuration_uuid t with
      | (.error diagErr, tr) => ((.error diagErr : Except String Unit), tr)
      | (.ok _, tr) => (.ok (), tr)).2.countP Call.isCreate = t.countP Call.isCreate
    rcases h : processOSParams env client d d.os_image_uuid d.configuration_uuid t with ⟨r, t1⟩
    rw [h] at this
    cases r <;> simpa using this

/-- The part of the create hook that follows the validation chain: the create call,
the status poll and the read-back.  With fuel for the poll it returns, having issued
the create call and then reads of the server only. -/
theorem create_after_validation (fuel : Nat) (env : Env) (config : Config)
    (d : ResourceData) (client : API) (opts : DedicatedServerCreateOpts)
    (serverName : String) (t : Trace)
    (hclient : getDedicatedServerClient d config = .ok client)
    (hfuel : 0 < fuel) (htimeout : d.timeoutCreate < fuel * pollInterval) :
    ∃ diags d1 reads,
      (match client.CreateDedicatedServer opts t with
        | (.error err, tr) =>
          some ((some ("error creating dedicated server: " ++ err) : Diagnostics), d, tr)
        | (.ok server, tr) =>
          match WaitForServerStatus fuel (pollReads client server.UUID tr) env.ctx env.pick
              server.UUID StatusActive d.timeoutCreate with
          | none => none
          | some (.error err, n) =>
            some (some ("server creation timeout: " ++ err),
              { d with id := server.UUID, name := serverName },
              afterReads server.UUID n tr)
          | some (.ok _, n) =>
            some (resourceDedicatedServerV1Read config
              { d with id := server.UUID, name := serverName }
              (afterReads server.UUID n tr)))
        = some (diags, d1, t ++ [Call.createServer opts] ++ reads) ∧
      ∀ c ∈ reads, c.isRead = true := by
  simp only [API.CreateDedicatedServer]
  cases client.create opts with
  | error err => exact ⟨some ("error creating dedicated server: " ++ err), d, [], by simp, by simp⟩
  | ok server =>
    simp only []
    obtain ⟨v, n, hw⟩ := WaitForServerStatus_returns fuel
      (pollReads client server.UUID (t ++ [Call.createServer opts]))
      env.ctx env.pick server.UUID StatusActive d.timeoutCreate hfuel htimeout
    rw [hw]
    cases v with
    | error err =>
      refine ⟨_, _, List.replicate n (Call.getServer server.UUID), rfl, ?_⟩
      intro c hc
      rw [List.eq_of_mem_replicate hc]
      rfl
    | ok u =>
      simp only []
      have htrace := resourceDedicatedServerV1Read_trace config
        { d with id := server.UUID, name := serverName }
        (afterReads server.UUID n (t ++ [Call.createServer opts])) client hclient
      rcases hR : resourceDedicatedServerV1Read config
        { d with id := server.UUID, name := serverName }
        (afterReads server.UUID n (t ++ [Call.createServer opts])) with ⟨dg, d2, t2⟩
      rw [hR] at htrace
      simp only [] at htrace
      refine ⟨dg, d2, List.replicate n (Call.getServer server.UUID)
        ++ [Call.getServer server.UUID], ?_, ?_⟩
      · rw [htrace]
        simp [afterReads]
      · intro c hc
        rcases List.mem_append.mp hc with h | h
        · rw [List.eq_of_mem_replicate h]
          rfl
        · rw [List.mem_singleton.mp h]
          rfl

/-- When every check of the specification's chain passes, the create hook goes on to the
create call: with fuel for the poll it returns, and its trace is the trace of the chain,
one create call, then reads of the server only. -/
theorem create_of_chain_pass (fuel : Nat) (env : Env) (config : Config)
    (d : ResourceData) (tr tr9 : Trace) (client : API)
    (hclient : getDedicatedServerClient d config = .ok client)
    (hfuel : 0 < fuel) (htimeout : d.timeoutCreate < fuel * pollInterval)
    (h : runChecks (specValidationChain env client d) tr = (.ok (), tr9)) :
    ∃ opts diags d1 reads,
      resourceDedicatedServerV1Create fuel env config d tr
        = some (diags, d1, tr9 ++ [Call.createServer opts] ++ reads) ∧
      ∀ c ∈ reads, c.isRead = true := by
  simp only [specValidationChain, runChecks, labelled] at h
  simp only [resourceDedicatedServerV1Create, hclient]
  rcases h1 : validateProjectAccess client d.project_id tr with ⟨r1, t1⟩
  rw [h1] at h
  cases r1 with
  | error e => simp at h
  | ok u1 =>
  simp only [] at h ⊢
  rcases h2 : validateLocation client d.location_uuid t1 with ⟨r2, t2⟩
  rw [h2] at h
  cases r2 with
  | error e => simp at h
  | ok u2 =>
  simp only [] at h ⊢
  rcases h3 : validateConfigurationInLocation client d.configuration_uuid d.location_uuid t2
    with ⟨r3, t3⟩
  rw [h3] at h
  cases r3 with
  | error e => simp at h
  | ok u3 =>
  simp only [] at h ⊢
  rcases h4 : validateTariffForConfiguration client d.tariff_uuid d.configuration_uuid t3
    with ⟨r4, t4⟩
  rw [h4] at h
  cases r4 with
  | error e => simp at h
  | ok u4 =>
  simp only [] at h ⊢
  rcases h5 : validateOSImageForConfiguration client d.os_image_uuid d.location_uuid
    d.configuration_uuid t4 with ⟨r5, t5⟩
  rw [h5] at h
  cases r5 with
  | error e => simp at h
  | ok u5 =>
  simp only [] at h ⊢
  by_cases hname : d.name = ""
  · simp only [hname, if_true, skipped] at h ⊢
    rw [ite_labelled] at h
    rcases h7 : (if d.private_network_uuid ≠ "" then
        validatePrivateNetworkForConfiguration env client d.private_network_uuid
          d.configuration_uuid d.location_uuid t5
      else (.ok (), t5)) with ⟨r7, t7⟩
    rw [h7] at h
    cases r7 with
    | error e => simp at h
    | ok u7 =>
    simp only [] at h ⊢
    rw [ite_labelled] at h
    rcases h8 : (if d.public_network_uuid ≠ "" then
        validatePublicNetworkForLocation client d.public_network_uuid d.location_uuid t7
      else (.ok (), t7)) with ⟨r8, t8⟩
    rw [h8] at h
    cases r8 with
    | error e => simp at h
    | ok u8 =>
    simp only [] at h ⊢
    rcases h9 : processOSParams env client d d.os_image_uuid d.configuration_uuid t8
      with ⟨r9, t9⟩
    rw [h9] at h
    cases r9 with
    | error e => simp at h
    | ok osParams =>
    simp only [Prod.mk.injEq, true_and] at h
    subst h
    simp only []
    exact ⟨_, create_after_validation fuel env config d client _ _ _ hclient hfuel htimeout⟩
  · simp only [hname, if_false, labelled] at h ⊢
    rcases h6 : validateServerNameUniqueness client d.project_id d.name t5 with ⟨r6, t6⟩
    rw [h6] at h
    cases r6 with
    | error e => simp at h
    | ok u6 =>
    simp only [] at h ⊢
    rw [ite_labelled] at h
    rcases h7 : (if d.private_network_uuid ≠ "" then
        validatePrivateNetworkForConfiguration env client d.private_network_uuid
          d.configuration_uuid d.location_uuid t6
      else (.ok (), t6)) with ⟨r7, t7⟩
    rw [h7] at h
    cases r7 with
    | error e => simp at h
    | ok u7 =>
    simp only [] at h ⊢
    rw [ite_labelled] at h
    rcases h8 : (if d.public_network_uuid ≠ "" then
        validatePublicNetworkForLocation client d.public_network_uuid d.location_uuid t7
      else (.ok (), t7)) with ⟨r8, t8⟩
    rw [h8] at h
    cases r8 with
    | error e => simp at h
    | ok u8 =>
    simp only [] at h ⊢
    rcases h9 : processOSParams env client d d.os_image_uuid d.configuration_uuid t8
      with ⟨r9, t9⟩
    rw [h9] at h
    cases r9 with
    | error e => simp at h
    | ok osParams =>
    simp only [Prod.mk.injEq, true_and] at h
    subst h
    simp only []
    exact ⟨_, create_after_validation fuel env config d client _ _ _ hclient hfuel htimeout⟩

/-- C3: the create hook runs the checks in the order of the specification's chain
(project access, location, configuration, tariff, OS image, name, private network,
public network, OS-parameter normalisation) and stops at the first failure: when the
checks before position `k` pass and the check at position `k` fails, the hook returns
that check's error with the trace as that check left it, so nothing that belongs to a
later check is issued, and the create endpoint has not been called.  When all nine pass,
the trace of the chain is followed by the one create call and by reads of the server. -/
theorem create_runs_checks_in_order_and_short_circuits (fuel : Nat) (env : Env)
    (config : Config) (d : ResourceData) (tr : Trace) (client : API)
    (hclient : getDedicatedServerClient d config = .ok client) :
    (∀ (k : Nat) (c : Check) (tr1 tr2 : Trace) (err : String),
      (specValidationChain env client d)[k]? = some c →
      runChecks ((specValidationChain env client d).take k) tr = (.ok (), tr1) →
      c tr1 = (.error err, tr2) →
      resourceDedicatedServerV1Create fuel env config d tr = some (some err, d, tr2) ∧
      tr2.countP Call.isCreate = tr.countP Call.isCreate) ∧
    (∀ tr9 : Trace,
      runChecks (specValidationChain env client d) tr = (.ok (), tr9) →
      0 < fuel → d.timeoutCreate < fuel * pollInterval →
      ∃ opts diags d1 reads,
        resourceDedicatedServerV1Create fuel env config d tr
          = some (diags, d1, tr9 ++ [Call.createServer opts] ++ reads) ∧
        (∀ c ∈ reads, c.isRead = true) ∧
        tr9.countP Call.isCreate = tr.countP Call.isCreate) := by
  have hall := specValidationChain_noCreate env client d
  constructor
  · intro k c tr1 tr2 err hk hpre hfail
    constructor
    · exact create_of_chain_failure fuel env config d tr tr2 client err hclient
        (runChecks_fails_at _ k c tr tr1 tr2 err hk hpre hfail)
    · have h1 := runChecks_noCreate ((specValidationChain env client d).take k)
        (fun c' hc' => hall c' (List.mem_of_mem_take hc')) tr
      rw [hpre] at h1
      have h2 := hall c (List.getElem?_mem hk) tr1
      rw [hfail] at h2
      simp only [] at h1 h2
      omega
  · intro tr9 hpass hfuel htimeout
    obtain ⟨opts, diags, d1, reads, h, hreads⟩ :=
      create_of_chain_pass fuel env config d tr tr9 client hclient hfuel htimeout hpass
    have h1 := runChecks_noCreate (specValidationChain env client d) hall tr
    rw [hpass] at h1
    exact ⟨opts, diags, d1, reads, h, hreads, h1⟩

/-- C3 on the sample remote with a tariff that is not offered for the configuration:
the checks 1 to 3 pass, check 4 (position 3) fails after the tariff listing, and neither
the image listing nor the create call follows. -/
theorem create_runs_checks_in_order_and_short_circuits_witness :
    resourceDedicatedServerV1Create 0 sampleEnv sampleConfig
        { sampleRequest with tariff_uuid := "tariff-9" } []
      = some (some "tariff validation failed: tariff tariff-9 not available for configuration cfg-1",
          { sampleRequest with tariff_uuid := "tariff-9" },
          [Call.listServers { ProjectID := "project-1" }, Call.listLocations,
            Call.listConfigurations "loc-1", Call.listTariffs "cfg-1"]) ∧
    ([Call.listServers { ProjectID := "project-1" }, Call.listLocations,
        Call.listConfigurations "loc-1", Call.listTariffs "cfg-1"] : Trace).countP Call.isCreate
      = ([] : Trace).countP Call.isCreate :=
  (create_runs_checks_in_order_and_short_circuits 0 sampleEnv sampleConfig
    { sampleRequest with tariff_uuid := "tariff-9" } [] sampleRemote rfl).1 3
    (labelled "tariff validation failed: "
      (validateTariffForConfiguration sampleRemote "tariff-9" "cfg-1"))
    [Call.listServers { ProjectID := "project-1" }, Call.listLocations,
      Call.listConfigurations "loc-1"]
    [Call.listServers { ProjectID := "project-1" }, Call.listLocations,
      Call.listConfigurations "loc-1", Call.listTariffs "cfg-1"]
    "tariff validation failed: tariff tariff-9 not available for configuration cfg-1"
    rfl rfl rfl

end Selectel

/-! ## Strings and parameter bags -/

namespace GoStrings

theorem startsWith_iff (s p : List Char) : startsWith s p = true ↔ p <+: s := by
  induction s generalizing p with
  | nil =>
    cases p with
    | nil => simp [startsWith]
    | cons a ps => simp [startsWith]
  | cons c cs ih =>
    cases p with
    | nil => simp [startsWith]
    | cons a ps =>
      simp only [startsWith, Bool.and_eq_true, beq_iff_eq, ih, List.cons_prefix_cons]
      constructor
      · rintro ⟨h1, h2⟩
        exact ⟨h1.symm, h2⟩
      · rintro ⟨h1, h2⟩
        exact ⟨h1.symm, h2⟩

/-- `containsChars` decides whether `sub` occurs in `s` as a contiguous block. -/
theorem containsChars_iff (s sub : List Char) : containsChars s sub = true ↔ sub <:+: s := by
  induction s with
  | nil =>
    simp only [containsChars, startsWith_iff, List.prefix_nil, List.infix_nil]
  | cons c cs ih =>
    simp only [containsChars, Bool.or_eq_true, startsWith_iff, ih, List.infix_cons_iff]

/-- `strings.Contains` holds exactly when the characters of `substr` occur in `s` as a
contiguous block. -/
theorem Contains_iff (s substr : String) :
    Contains s substr = true ↔ substr.data <:+: s.data :=
  containsChars_iff s.data substr.data

end GoStrings

namespace Ddaas

theorem lookup_filter_ne (m : Bag) (k k' : String) (h : k' ≠ k) :
    (m.filter (fun kv => kv.1 != k)).lookup k' = m.lookup k' := by
  induction m with
  | nil => rfl
  | cons kv m ih =>
    obtain ⟨a, b⟩ := kv
    by_cases ha : a = k
    · subst ha
      have h1 : (k' == a) = false := by simpa using h
      simp [List.filter_cons, List.lookup_cons, h1, ih]
    · have h2 : (a != k) = true := by simpa using ha
      simp only [List.filter_cons, h2, if_true, List.lookup_cons, ih]

/-- Reading a key of the empty map. -/
theorem Bag.get_nil (k : String) : Bag.get [] k = none := rfl

/-- Reading a key after a map assignment. -/
theorem Bag.get_set (m : Bag) (k v k' : String) :
    (m.set k v).get k' = if k' = k then some v else m.get k' := by
  unfold Bag.get Bag.set
  by_cases h : k' = k
  · subst h
    simp
  · have h1 : (k' == k) = false := by simpa using h
    simp only [List.lookup_cons, h1, h, if_false]
    exact lookup_filter_ne m k k' h

end Ddaas

namespace Selectel

open Ddaas GoTime

/-- C11: `validatePartitionsWithRaid` fails exactly when the RAID mode is "raid0" and
"swap" occurs in the partition string as a contiguous block; every other pair of RAID
mode and partition string is accepted, and the failure is always the same error. -/
theorem validatePartitionsWithRaid_fails_iff (partitions raid : String) :
    ((∃ err, validatePartitionsWithRaid partitions raid = .error err) ↔
      (raid = "raid0" ∧ "swap".data <:+: partitions.data)) ∧
    (¬ (raid = "raid0" ∧ "swap".data <:+: partitions.data) →
      validatePartitionsWithRaid partitions raid = .ok ()) ∧
    ((raid = "raid0" ∧ "swap".data <:+: partitions.data) →
      validatePartitionsWithRaid partitions raid
        = .error "swap partition is not recommended with RAID0") := by
  rw [← GoStrings.Contains_iff]
  unfold validatePartitionsWithRaid
  by_cases h : raid = "raid0" ∧ GoStrings.Contains partitions "swap" = true
  · simp [h]
  · simp [h]

/-- C11 on a RAID0 layout with a swap entry, which is rejected. -/
theorem validatePartitionsWithRaid_fails_iff_witness :
    validatePartitionsWithRaid "/=90%,swap=10%" "raid0"
      = .error "swap partition is not recommended with RAID0" :=
  (validatePartitionsWithRaid_fails_iff "/=90%,swap=10%" "raid0").2.2
    ⟨rfl, (GoStrings.Contains_iff "/=90%,swap=10%" "swap").mp (by decide)⟩

/-! ## OS-parameter normalisation -/

/-- What the pass-through part holds under each key: the four pass-through keys carry
the supplied non-empty value, no other key is present. -/
theorem passThroughParams_get (osParams : Bag) (k : String) :
    (passThroughParams osParams).get k =
      if k = "login" ∨ k = "password" ∨ k = "user_data" ∨ k = "ssh_key" then
        nonEmptyParam osParams k
      else none := by
  unfold passThroughParams
  simp only [List.foldl]
  by_cases h1 : k = "login"
  · subst h1
    cases nonEmptyParam osParams "login" <;> cases nonEmptyParam osParams "password" <;>
      cases nonEmptyParam osParams "user_data" <;> cases nonEmptyParam osParams "ssh_key" <;>
      simp [Bag.get_set, Bag.get_nil]
  · by_cases h2 : k = "password"
    · subst h2
      cases nonEmptyParam osParams "login" <;> cases nonEmptyParam osParams "password" <;>
        cases nonEmptyParam osParams "user_data" <;> cases nonEmptyParam osParams "ssh_key" <;>
        simp [Bag.get_set, Bag.get_nil]
    · by_cases h3 : k = "user_data"
      · subst h3
        cases nonEmptyParam osParams "login" <;> cases nonEmptyParam osParams "password" <;>
          cases nonEmptyParam osParams "user_data" <;>
          cases nonEmptyParam osParams "ssh_key" <;>
          simp [Bag.get_set, Bag.get_nil]
      · by_cases h4 : k = "ssh_key"
        · subst h4
          cases nonEmptyParam osParams "login" <;> cases nonEmptyParam osParams "password" <;>
            cases nonEmptyParam osParams "user_data" <;>
            cases nonEmptyParam osParams "ssh_key" <;>
            simp [Bag.get_set, Bag.get_nil]
        · cases nonEmptyParam osParams "login" <;> cases nonEmptyParam osParams "password" <;>
            cases nonEmptyParam osParams "user_data" <;>
            cases nonEmptyParam osParams "ssh_key" <;>
            simp [Bag.get_set, Bag.get_nil, h1, h2, h3, h4]

/-- The image lookup of the client when the listing holds the image. -/
theorem OSImage_found (client : API) (osImageUUID locationUUID serviceUUID : String)
    (tr : Trace) (images : List OSImage) (image : OSImage)
    (hlist : client.osImages locationUUID serviceUUID = .ok images)
    (hfind : images.find? (fun image => image.UUID == osImageUUID) = some image) :
    client.OSImage osImageUUID locationUUID serviceUUID tr
      = ((some image, none), tr ++ [Call.listOSImages locationUUID serviceUUID]) := by
  simp [API.OSImage, API.OSImages, hlist, hfind]

/-- The image lookup of the client when it fails: the pointer it returns is to an empty
image. -/
theorem OSImage_failed (client : API) (osImageUUID locationUUID serviceUUID : String)
    (tr : Trace) (err : String)
    (h : (client.OSImage osImageUUID locationUUID serviceUUID tr).1.2 = some err) :
    client.OSImage osImageUUID locationUUID serviceUUID tr
      = ((some default, some err), tr ++ [Call.listOSImages locationUUID serviceUUID]) := by
  simp only [API.OSImage, API.OSImages] at h ⊢
  cases hl : client.osImages locationUUID serviceUUID with
  | error e =>
    rw [hl] at h
    simp only [Option.some.injEq] at h
    simp [h]
  | ok images =>
    rw [hl] at h
    simp only [] at h ⊢
    cases hf : images.find? (fun image => image.UUID == osImageUUID) with
    | some image =>
      rw [hf] at h
      simp at h
    | none =>
      rw [hf] at h
      simp only [Option.some.injEq] at h
      simp [h]

/-- The configuration lookup of the client when the unscoped listing holds it. -/
theorem Configuration_found (client : API) (configUUID : String) (tr : Trace)
    (configurations : List Configuration) (config : Configuration)
    (hlist : client.configurations "" = .ok configurations)
    (hfind : configurations.find? (fun config => config.UUID == configUUID) = some config) :
    client.Configuration configUUID tr
      = (.ok config, tr ++ [Call.listConfigurations ""]) := by
  simp [API.Configuration, API.Configurations, hlist, hfind]

/-- `processOSParams` on an image whose family is not Linux: the pass-through part. -/
theorem processOSParams_not_linux (env : Env) (client : API) (d : ResourceData)
    (osImageUUID configUUID : String) (tr tr1 : Trace) (osParams : Bag) (rest : List Bag)
    (image : OSImage) (e : Option String)
    (hparams : d.os_params = osParams :: rest)
    (himage : client.OSImage osImageUUID "" "" tr = ((some image, e), tr1))
    (hfamily : GoStrings.ToLower env.lowerTable image.Family ≠ "linux") :
    processOSParams env client d osImageUUID configUUID tr
      = (.ok (passThroughParams osParams), tr1) := by
  simp [processOSParams, hparams, himage, hfamily]

/-- `processOSParams` on a Linux image without a RAID mode. -/
theorem processOSParams_linux_no_raid (env : Env) (client : API) (d : ResourceData)
    (osImageUUID configUUID : String) (tr tr1 : Trace) (osParams : Bag) (rest : List Bag)
    (image : OSImage) (e : Option String)
    (hparams : d.os_params = osParams :: rest)
    (himage : client.OSImage osImageUUID "" "" tr = ((some image, e), tr1))
    (hfamily : GoStrings.ToLower env.lowerTable image.Family = "linux")
    (hraid : nonEmptyParam osParams "soft_raid" = none) :
    processOSParams env client d osImageUUID configUUID tr =
      match getDefaultPartitionsForConfiguration env client configUUID tr1 with
      | (.error _, tr) => (.ok (passThroughParams osParams), tr)
      | (.ok defaultPartitions, tr) =>
        (.ok ((passThroughParams osParams).set "partitions" defaultPartitions), tr) := by
  simp only [processOSParams, hparams, himage, hfamily, hraid, if_true]

/-- `processOSParams` on a Linux image with a RAID mode. -/
theorem processOSParams_linux_raid (env : Env) (client : API) (d : ResourceData)
    (osImageUUID configUUID : String) (tr tr1 : Trace) (osParams : Bag) (rest : List Bag)
    (image : OSImage) (e : Option String) (softRaid : String)
    (hparams : d.os_params = osParams :: rest)
    (himage : client.OSImage osImageUUID "" "" tr = ((some image, e), tr1))
    (hfamily : GoStrings.ToLower env.lowerTable image.Family = "linux")
    (hraid : nonEmptyParam osParams "soft_raid" = some softRaid) :
    processOSParams env client d osImageUUID configUUID tr =
      match validateSoftRaidForConfiguration env client softRaid configUUID tr1 with
      | (.error err, tr) => (.error ("soft RAID validation failed: " ++ err), tr)
      | (.ok _, tr) =>
        match nonEmptyParam osParams "partitions" with
        | some partitions =>
          match validatePartitionsWithRaid partitions softRaid with
          | .error err => (.error ("partitions validation failed: " ++ err), tr)
          | .ok _ =>
            (.ok (((passThroughParams osParams).set "soft_raid" softRaid).set
              "partitions" partitions), tr)
        | none => (.ok ((passThroughParams osParams).set "soft_raid" softRaid), tr) := by
  simp only [processOSParams, hparams, himage, hfamily, hraid, if_true]

/-- The image lookup of the client always hands back a pointer and a trace. -/
theorem OSImage_shape (client : API) (osImageUUID locationUUID serviceUUID : String)
    (tr : Trace) :
    ∃ image e, client.OSImage osImageUUID locationUUID serviceUUID tr
      = ((some image, e), tr ++ [Call.listOSImages locationUUID serviceUUID]) := by
  simp only [API.OSImage, API.OSImages]
  cases client.osImages locationUUID serviceUUID with
  | error err => exact ⟨_, _, rfl⟩
  | ok images =>
    simp only []
    cases images.find? (fun image => image.UUID == osImageUUID) with
    | some image => exact ⟨_, _, rfl⟩
    | none => exact ⟨_, _, rfl⟩

/-- Under a key other than `soft_raid` and `partitions`, a bag returned by
`processOSParams` holds what the pass-through part holds. -/
theorem processOSParams_get_other (env : Env) (client : API) (d : ResourceData)
    (osImageUUID configUUID : String) (tr tr1 : Trace) (osParams : Bag) (rest : List Bag)
    (bag : Bag) (k : String)
    (hparams : d.os_params = osParams :: rest)
    (hres : processOSParams env client d osImageUUID configUUID tr = (.ok bag, tr1))
    (hk1 : k ≠ "soft_raid") (hk2 : k ≠ "partitions") :
    bag.get k = (passThroughParams osParams).get k := by
  obtain ⟨image, e, himage⟩ := OSImage_shape client osImageUUID "" "" tr
  by_cases hfamily : GoStrings.ToLower env.lowerTable image.Family = "linux"
  · cases hraid : nonEmptyParam osParams "soft_raid" with
    | none =>
      rw [processOSParams_linux_no_raid env client d osImageUUID configUUID tr _ osParams rest
        image e hparams himage hfamily hraid] at hres
      rcases hd : getDefaultPartitionsForConfiguration env client configUUID
        (tr ++ [Call.listOSImages "" ""]) with ⟨r, t⟩
      rw [hd] at hres
      cases r with
      | error err =>
        simp only [Prod.mk.injEq, Except.ok.injEq] at hres
        rw [← hres.1]
      | ok layout =>
        simp only [Prod.mk.injEq, Except.ok.injEq] at hres
        rw [← hres.1, Bag.get_set, if_neg hk2]
    | some softRaid =>
      rw [processOSParams_linux_raid env client d osImageUUID configUUID tr _ osParams rest
        image e softRaid hparams himage hfamily hraid] at hres
      rcases hv : validateSoftRaidForConfiguration env client softRaid configUUID
        (tr ++ [Call.listOSImages "" ""]) with ⟨r, t⟩
      rw [hv] at hres
      cases r with
      | error err => simp at hres
      | ok u =>
        simp only [] at hres
        cases hp : nonEmptyParam osParams "partitions" with
        | none =>
          rw [hp] at hres
          simp only [Prod.mk.injEq, Except.ok.injEq] at hres
          rw [← hres.1, Bag.get_set, if_neg hk1]
        | some partitions =>
          rw [hp] at hres
          simp only [] at hres
          cases hvp : validatePartitionsWithRaid partitions softRaid with
          | error err =>
            rw [hvp] at hres
            simp at hres
          | ok u2 =>
            rw [hvp] at hres
            simp only [Prod.mk.injEq, Except.ok.injEq] at hres
            rw [← hres.1, Bag.get_set, if_neg hk2, Bag.get_set, if_neg hk1]
  · rw [processOSParams_not_linux env client d osImageUUID configUUID tr _ osParams rest
      image e hparams himage hfamily] at hres
    simp only [Prod.mk.injEq, Except.ok.injEq] at hres
    rw [← hres.1]

/-- C19: for a request with an OS parameter bag, every bag that `processOSParams`
returns holds, under each of `login`, `password`, `user_data` and `ssh_key`, the supplied
value when the key is present with a non-empty string and nothing when it is absent or
empty; no hypothesis is made on the OS image or its family. -/
theorem processOSParams_passes_through (env : Env) (client : API) (d : ResourceData)
    (osImageUUID configUUID : String) (tr tr1 : Trace) (osParams : Bag) (rest : List Bag)
    (bag : Bag)
    (hparams : d.os_params = osParams :: rest)
    (hres : processOSParams env client d osImageUUID configUUID tr = (.ok bag, tr1)) :
    ∀ k ∈ ["login", "password", "user_data", "ssh_key"],
      (∀ v, osParams.get k = some v → v ≠ "" → bag.get k = some v) ∧
      (osParams.get k = none ∨ osParams.get k = some "" → bag.get k = none) := by
  intro k hk
  have hk' : k = "login" ∨ k = "password" ∨ k = "user_data" ∨ k = "ssh_key" := by
    simpa using hk
  have hk1 : k ≠ "soft_raid" := by
    rcases hk' with h | h | h | h <;> (subst h; decide)
  have hk2 : k ≠ "partitions" := by
    rcases hk' with h | h | h | h <;> (subst h; decide)
  have hget := processOSParams_get_other env client d osImageUUID configUUID tr tr1 osParams
    rest bag k hparams hres hk1 hk2
  rw [passThroughParams_get, if_pos hk'] at hget
  constructor
  · intro v hv hne
    rw [hget]
    simp [nonEmptyParam, hv, hne]
  · intro h
    rw [hget]
    rcases h with h | h <;> simp [nonEmptyParam, h]

/-- C19 on a bag with a login, an empty password and no other key, for the Linux image
of the sample remote: the login is copied, the password is left out. -/
theorem processOSParams_passes_through_witness :
    Bag.get [("partitions", "/=100%"), ("login", "root")] "login" = some "root" ∧
    Bag.get [("partitions", "/=100%"), ("login", "root")] "password" = none :=
  have h := processOSParams_passes_through sampleEnv sampleRemote
    { sampleRequest with os_params := [[("login", "root"), ("password", "")]] }
    "img-1" "cfg-1" [] [Call.listOSImages "" "", Call.listConfigurations ""]
    [("login", "root"), ("password", "")] []
    [("partitions", "/=100%"), ("login", "root")] rfl rfl
  ⟨(h "login" (by decide)).1 "root" rfl (by decide),
    (h "password" (by decide)).2 (Or.inr rfl)⟩

/-- Neither `soft_raid` nor `partitions` is a key of the pass-through part, and every
key it holds is one of the four pass-through keys. -/
theorem passThroughParams_keys (osParams : Bag) :
    (passThroughParams osParams).get "soft_raid" = none ∧
    (passThroughParams osParams).get "partitions" = none ∧
    ∀ k, (passThroughParams osParams).get k ≠ none →
      k ∈ ["login", "password", "user_data", "ssh_key"] := by
  refine ⟨?_, ?_, ?_⟩
  · rw [passThroughParams_get]
    simp
  · rw [passThroughParams_get]
    simp
  · intro k hk
    rw [passThroughParams_get] at hk
    by_cases h : k = "login" ∨ k = "password" ∨ k = "user_data" ∨ k = "ssh_key"
    · simpa using h
    · simp [h] at hk

/-- C18: when the image lookup inside `processOSParams` fails (the listing fails or does
not hold the image), `processOSParams` returns no error; the bag is the pass-through
part, so it has no `soft_raid`, no `partitions` and no key besides `login`, `password`,
`user_data` and `ssh_key`; and the only request issued is the image listing, so no RAID
or partition validation has run. -/
theorem processOSParams_image_lookup_failed (env : Env) (client : API) (d : ResourceData)
    (osImageUUID configUUID : String) (tr : Trace) (osParams : Bag) (rest : List Bag)
    (err : String)
    (hparams : d.os_params = osParams :: rest)
    (hlookup : (client.OSImage osImageUUID "" "" tr).1.2 = some err) :
    ∃ bag,
      processOSParams env client d osImageUUID configUUID tr
        = (.ok bag, tr ++ [Call.listOSImages "" ""]) ∧
      bag.get "soft_raid" = none ∧ bag.get "partitions" = none ∧
      (∀ k, bag.get k ≠ none → k ∈ ["login", "password", "user_data", "ssh_key"]) ∧
      (∀ k ∈ ["login", "password", "user_data", "ssh_key"],
        bag.get k = nonEmptyParam osParams k) := by
  have himage := OSImage_failed client osImageUUID "" "" tr err hlookup
  have hfamily : GoStrings.ToLower env.lowerTable (default : OSImage).Family ≠ "linux" := by
    have hempty : GoStrings.ToLower env.lowerTable (default : OSImage).Family = "" := rfl
    rw [hempty]
    decide
  refine ⟨passThroughParams osParams,
    processOSParams_not_linux env client d osImageUUID configUUID tr _ osParams rest
      default (some err) hparams himage hfamily,
    (passThroughParams_keys osParams).1, (passThroughParams_keys osParams).2.1,
    (passThroughParams_keys osParams).2.2, ?_⟩
  intro k hk
  rw [passThroughParams_get, if_pos (by simpa using hk)]

/-- C18 on an image the sample remote does not list, with a RAID mode and a partition
string that would be rejected for a Linux image: only the login comes back. -/
theorem processOSParams_image_lookup_failed_witness :
    ∃ bag,
      processOSParams sampleEnv sampleRemote
          { sampleRequest with os_params :=
              [[("login", "root"), ("soft_raid", "raid0"), ("partitions", "swap=1")]] }
          "img-9" "cfg-1" []
        = (.ok bag, [] ++ [Call.listOSImages "" ""]) ∧
      bag.get "soft_raid" = none ∧ bag.get "partitions" = none ∧
      (∀ k, bag.get k ≠ none → k ∈ ["login", "password", "user_data", "ssh_key"]) ∧
      (∀ k ∈ ["login", "password", "user_data", "ssh_key"],
        bag.get k = nonEmptyParam
          [("login", "root"), ("soft_raid", "raid0"), ("partitions", "swap=1")] k) :=
  processOSParams_image_lookup_failed sampleEnv sampleRemote
    { sampleRequest with os_params :=
        [[("login", "root"), ("soft_raid", "raid0"), ("partitions", "swap=1")]] }
    "img-9" "cfg-1" [] [("login", "root"), ("soft_raid", "raid0"), ("partitions", "swap=1")]
    [] "OS image with UUID img-9 not found" rfl rfl

/-- C12: for an image that resolves to the Linux family, a bag without a RAID mode and a
configuration that is found, `processOSParams` returns a bag whose `partitions` value is
"/=100%" when the lower-cased tariff-line of the configuration contains "entry" and
"/=50%,/var=25%,/home=25%" otherwise (the same holds when a partitions field is
supplied). -/
theorem processOSParams_default_partitions (env : Env) (client : API) (d : ResourceData)
    (osImageUUID configUUID : String) (tr : Trace) (osParams : Bag) (rest : List Bag)
    (images : List OSImage) (image : OSImage)
    (configurations : List Configuration) (config : Configuration)
    (hparams : d.os_params = osParams :: rest)
    (himages : client.osImages "" "" = .ok images)
    (himage : images.find? (fun image => image.UUID == osImageUUID) = some image)
    (hfamily : GoStrings.ToLower env.lowerTable image.Family = "linux")
    (hraid : nonEmptyParam osParams "soft_raid" = none)
    (hconfigurations : client.configurations "" = .ok configurations)
    (hconfig : configurations.find? (fun config => config.UUID == configUUID) = some config) :
    ∃ bag,
      processOSParams env client d osImageUUID configUUID tr
        = (.ok bag, tr ++ [Call.listOSImages "" ""] ++ [Call.listConfigurations ""]) ∧
      (GoStrings.Contains (GoStrings.ToLower env.lowerTable config.TariffLine) "entry" = true →
        bag.get "partitions" = some "/=100%") ∧
      (GoStrings.Contains (GoStrings.ToLower env.lowerTable config.TariffLine) "entry" = false →
        bag.get "partitions" = some "/=50%,/var=25%,/home=25%") := by
  have h1 := OSImage_found client osImageUUID "" "" tr images image himages himage
  have h2 := Configuration_found client configUUID (tr ++ [Call.listOSImages "" ""])
    configurations config hconfigurations hconfig
  rw [processOSParams_linux_no_raid env client d osImageUUID configUUID tr _ osParams rest
    image none hparams h1 hfamily hraid]
  simp only [getDefaultPartitionsForConfiguration, h2]
  by_cases hentry :
      GoStrings.Contains (GoStrings.ToLower env.lowerTable config.TariffLine) "entry" = true
  · simp [hentry, Bag.get_set]
  · simp [hentry, Bag.get_set]

/-- C12 on the sample remote: `cfg-1` is of the "Entry Line", so the single-root layout
is attached. -/
theorem processOSParams_default_partitions_witness :
    ∃ bag,
      processOSParams sampleEnv sampleRemote
          { sampleRequest with os_params := [[("login", "root")]] } "img-1" "cfg-1" []
        = (.ok bag, [] ++ [Call.listOSImages "" ""] ++ [Call.listConfigurations ""]) ∧
      bag.get "partitions" = some "/=100%" :=
  Exists.elim
    (processOSParams_default_partitions sampleEnv sampleRemote
      { sampleRequest with os_params := [[("login", "root")]] } "img-1" "cfg-1" []
      [("login", "root")] []
      [{ (default : OSImage) with UUID := "img-1", Name := "Ubuntu", Family := "linux" }]
      { (default : OSImage) with UUID := "img-1", Name := "Ubuntu", Family := "linux" }
      [{ (default : Configuration) with UUID := "cfg-1", Name := "EL10",
                                        TariffLine := "Entry Line" },
       { (default : Configuration) with UUID := "cfg-2", Name := "BL20",
                                        TariffLine := "Business Line" }]
      { (default : Configuration) with UUID := "cfg-1", Name := "EL10",
                                       TariffLine := "Entry Line" }
      rfl rfl rfl rfl rfl rfl rfl)
    (fun bag h => ⟨bag, h.1, h.2.1 (by decide)⟩)

/-- C13: for a configuration that is found, `validateSoftRaidForConfiguration` rejects
the RAID mode exactly when the lower-cased tariff-line contains "entry" and the mode is
not "no_raid".  For an image that resolves to the Linux family and a supplied RAID mode
that is accepted, every bag `processOSParams` returns holds that mode under `soft_raid`,
and a bag is returned unless the partition check rejects a supplied partition string. -/
theorem soft_raid_validated_and_passed_through (env : Env) (client : API)
    (d : ResourceData) (osImageUUID configUUID : String) (tr : Trace)
    (configurations : List Configuration) (config : Configuration) (softRaid : String)
    (hconfigurations : client.configurations "" = .ok configurations)
    (hconfig : configurations.find? (fun config => config.UUID == configUUID) = some config) :
    ((∃ err, (validateSoftRaidForConfiguration env client softRaid configUUID tr).1
        = .error err) ↔
      (GoStrings.Contains (GoStrings.ToLower env.lowerTable config.TariffLine) "entry" = true
        ∧ softRaid ≠ "no_raid")) ∧
    (∀ (osParams : Bag) (rest : List Bag) (images : List OSImage) (image : OSImage),
      d.os_params = osParams :: rest →
      client.osImages "" "" = .ok images →
      images.find? (fun image => image.UUID == osImageUUID) = some image →
      GoStrings.ToLower env.lowerTable image.Family = "linux" →
      nonEmptyParam osParams "soft_raid" = some softRaid →
      ¬ (GoStrings.Contains (GoStrings.ToLower env.lowerTable config.TariffLine) "entry" = true
        ∧ softRaid ≠ "no_raid") →
      (∀ bag tr1, processOSParams env client d osImageUUID configUUID tr = (.ok bag, tr1) →
        bag.get "soft_raid" = some softRaid) ∧
      ((∀ partitions, nonEmptyParam osParams "partitions" = some partitions →
          validatePartitionsWithRaid partitions softRaid = .ok ()) →
        ∃ bag tr1, processOSParams env client d osImageUUID configUUID tr = (.ok bag, tr1))) := by
  have hfound : ∀ t, client.Configuration configUUID t
      = (.ok config, t ++ [Call.listConfigurations ""]) :=
    fun t => Configuration_found client configUUID t configurations config hconfigurations hconfig
  constructor
  · simp only [validateSoftRaidForConfiguration, hfound]
    by_cases h : GoStrings.Contains (GoStrings.ToLower env.lowerTable config.TariffLine)
        "entry" = true ∧ softRaid ≠ "no_raid"
    · simp [h]
    · simp [h]
  · intro osParams rest images image hparams himages himage hfamily hraid haccept
    have h1 := OSImage_found client osImageUUID "" "" tr images image himages himage
    have hv : validateSoftRaidForConfiguration env client softRaid configUUID
        (tr ++ [Call.listOSImages "" ""])
        = (.ok (), tr ++ [Call.listOSImages "" ""] ++ [Call.listConfigurations ""]) := by
      simp only [validateSoftRaidForConfiguration, hfound]
      simp [haccept]
    have hnf := processOSParams_linux_raid env client d osImageUUID configUUID tr _ osParams
      rest image none softRaid hparams h1 hfamily hraid
    rw [hv] at hnf
    simp only [] at hnf
    constructor
    · intro bag tr1 hres
      rw [hnf] at hres
      cases hp : nonEmptyParam osParams "partitions" with
      | none =>
        rw [hp] at hres
        simp only [Prod.mk.injEq, Except.ok.injEq] at hres
        rw [← hres.1, Bag.get_set, if_pos rfl]
      | some partitions =>
        rw [hp] at hres
        simp only [] at hres
        cases hvp : validatePartitionsWithRaid partitions softRaid with
        | error err =>
          rw [hvp] at hres
          simp at hres
        | ok u =>
          rw [hvp] at hres
          simp only [Prod.mk.injEq, Except.ok.injEq] at hres
          rw [← hres.1, Bag.get_set, if_neg (by decide), Bag.get_set, if_pos rfl]
    · intro hpart
      rw [hnf]
      cases hp : nonEmptyParam osParams "partitions" with
      | none => exact ⟨_, _, rfl⟩
      | some partitions =>
        simp only []
        rw [hpart partitions hp]
        exact ⟨_, _, rfl⟩

/-- C13 on the sample remote: `cfg-2` is of the "Business Line", RAID1 is accepted for it
and comes back under `soft_raid`. -/
theorem soft_raid_validated_and_passed_through_witness :
    ∃ bag tr1,
      processOSParams sampleEnv sampleRemote
          { sampleRequest with os_params := [[("soft_raid", "raid1")]] } "img-1" "cfg-2" []
        = (.ok bag, tr1) ∧
      bag.get "soft_raid" = some "raid1" :=
  have h := (soft_raid_validated_and_passed_through sampleEnv sampleRemote
    { sampleRequest with os_params := [[("soft_raid", "raid1")]] } "img-1" "cfg-2" []
    [{ (default : Configuration) with UUID := "cfg-1", Name := "EL10",
                                      TariffLine := "Entry Line" },
     { (default : Configuration) with UUID := "cfg-2", Name := "BL20",
                                      TariffLine := "Business Line" }]
    { (default : Configuration) with UUID := "cfg-2", Name := "BL20",
                                     TariffLine := "Business Line" }
    "raid1" rfl rfl).2 [("soft_raid", "raid1")] []
    [{ (default : OSImage) with UUID := "img-1", Name := "Ubuntu", Family := "linux" }]
    { (default : OSImage) with UUID := "img-1", Name := "Ubuntu", Family := "linux" }
    rfl rfl rfl rfl rfl (by decide)
  Exists.elim (h.2 (fun _ hp => by cases hp))
    (fun bag hb => Exists.elim hb (fun tr1 hres => ⟨bag, tr1, hres, h.1 bag tr1 hres⟩))

/-- C17: for a resolved image whose lower-cased family is not "linux",
`processOSParams` returns the pass-through part after the image listing alone: the bag
has neither `soft_raid` nor `partitions`, whatever was supplied, and no error is raised.
For a resolved image whose lower-cased family is "linux" and a configuration that is
found, the disk layout is handled: without a RAID mode the default layout is attached,
and a supplied RAID mode that the configuration does not accept makes the call fail with
the soft-RAID validation error. -/
theorem disk_layout_only_for_linux (env : Env) (client : API) (d : ResourceData)
    (osImageUUID configUUID : String) (tr : Trace) (osParams : Bag) (rest : List Bag)
    (images : List OSImage) (image : OSImage)
    (hparams : d.os_params = osParams :: rest)
    (himages : client.osImages "" "" = .ok images)
    (himage : images.find? (fun image => image.UUID == osImageUUID) = some image) :
    (GoStrings.ToLower env.lowerTable image.Family ≠ "linux" →
      ∃ bag,
        processOSParams env client d osImageUUID configUUID tr
          = (.ok bag, tr ++ [Call.listOSImages "" ""]) ∧
        bag.get "soft_raid" = none ∧ bag.get "partitions" = none) ∧
    (GoStrings.ToLower env.lowerTable image.Family = "linux" →
      ∀ (configurations : List Configuration) (config : Configuration),
      client.configurations "" = .ok configurations →
      configurations.find? (fun config => config.UUID == configUUID) = some config →
      (nonEmptyParam osParams "soft_raid" = none →
        ∃ bag layout,
          processOSParams env client d osImageUUID configUUID tr
            = (.ok bag, tr ++ [Call.listOSImages "" ""] ++ [Call.listConfigurations ""]) ∧
          bag.get "partitions" = some layout) ∧
      (∀ softRaid, nonEmptyParam osParams "soft_raid" = some softRaid →
        GoStrings.Contains (GoStrings.ToLower env.lowerTable config.TariffLine) "entry" = true →
        softRaid ≠ "no_raid" →
        processOSParams env client d osImageUUID configUUID tr
          = (.error ("soft RAID validation failed: " ++ ("configuration " ++ configUUID ++ " ("
              ++ config.Name ++ ") supports only no_raid")),
            tr ++ [Call.listOSImages "" ""] ++ [Call.listConfigurations ""]))) := by
  have h1 := OSImage_found client osImageUUID "" "" tr images image himages himage
  constructor
  · intro hfamily
    exact ⟨passThroughParams osParams,
      processOSParams_not_linux env client d osImageUUID configUUID tr _ osParams rest
        image none hparams h1 hfamily,
      (passThroughParams_keys osParams).1, (passThroughParams_keys osParams).2.1⟩
  · intro hfamily configurations config hconfigurations hconfig
    have h2 := Configuration_found client configUUID (tr ++ [Call.listOSImages "" ""])
      configurations config hconfigurations hconfig
    constructor
    · intro hraid
      rw [processOSParams_linux_no_raid env client d osImageUUID configUUID tr _ osParams rest
        image none hparams h1 hfamily hraid]
      simp only [getDefaultPartitionsForConfiguration, h2]
      by_cases hentry :
          GoStrings.Contains (GoStrings.ToLower env.lowerTable config.TariffLine) "entry" = true
      · simp only [hentry, if_true]
        exact ⟨_, _, rfl, by rw [Bag.get_set, if_pos rfl]⟩
      · simp only [hentry, if_false]
        exact ⟨_, _, rfl, by rw [Bag.get_set, if_pos rfl]⟩
    · intro softRaid hraid hentry hmode
      rw [processOSParams_linux_raid env client d osImageUUID configUUID tr _ osParams rest
        image none softRaid hparams h1 hfamily hraid]
      simp [validateSoftRaidForConfiguration, h2, hentry, hmode]

/-- C17 on a Windows image, with a RAID mode and a partition string that a Linux image
would have had rejected: both are dropped and no error is raised. -/
theorem disk_layout_only_for_linux_witness :
    ∃ bag,
      processOSParams sampleEnv windowsRemote
          { sampleRequest with os_params :=
              [[("login", "admin"), ("soft_raid", "raid0"), ("partitions", "swap=1")]] }
          "img-2" "cfg-1" []
        = (.ok bag, [] ++ [Call.listOSImages "" ""]) ∧
      bag.get "soft_raid" = none ∧ bag.get "partitions" = none :=
  (disk_layout_only_for_linux sampleEnv windowsRemote
    { sampleRequest with os_params :=
        [[("login", "admin"), ("soft_raid", "raid0"), ("partitions", "swap=1")]] }
    "img-2" "cfg-1" []
    [("login", "admin"), ("soft_raid", "raid0"), ("partitions", "swap=1")] []
    [windowsImage] windowsImage rfl rfl rfl).1 (by decide)

/-! ## Network checks -/

/-- On a string of ASCII characters `strings.ToLower` does not depend on the Unicode
case table. -/
theorem ToLower_ascii (table table2 : Char → Char) (s : String)
    (h : ∀ c ∈ s.data, c.val < 128) :
    GoStrings.ToLower table s = GoStrings.ToLower table2 s := by
  unfold GoStrings.ToLower
  congr 1
  apply List.map_congr_left
  intro c hc
  simp [GoStrings.toLowerRune, h c hc]

/-- C16: `validatePublicNetworkForLocation` passes exactly when the network id is found
in the network listing and the network found has type "public" and the requested
location; `validatePrivateNetworkForConfiguration` passes exactly when the network found
has type "private" and the requested location, the configuration is found, and its
lower-cased tariff-line does not contain "chipcore". -/
theorem network_checks_pass_iff (env : Env) (client : API)
    (networkUUID configUUID locationUUID : String) (tr : Trace) :
    ((validatePublicNetworkForLocation client networkUUID locationUUID tr).1 = .ok () ↔
      ∃ networks network,
        client.networks "" = .ok networks ∧
        networks.find? (fun network => network.UUID == networkUUID) = some network ∧
        network.Typ = "public" ∧ network.LocationUUID = locationUUID) ∧
    ((validatePrivateNetworkForConfiguration env client networkUUID configUUID locationUUID
        tr).1 = .ok () ↔
      ∃ networks network configurations config,
        client.networks "" = .ok networks ∧
        networks.find? (fun network => network.UUID == networkUUID) = some network ∧
        network.Typ = "private" ∧ network.LocationUUID = locationUUID ∧
        client.configurations "" = .ok configurations ∧
        configurations.find? (fun config => config.UUID == configUUID) = some config ∧
        GoStrings.Contains (GoStrings.ToLower env.lowerTable config.TariffLine) "chipcore"
          = false) := by
  constructor
  · simp only [validatePublicNetworkForLocation, API.Network, API.Networks]
    cases hn : client.networks "" with
    | error e => simp
    | ok networks =>
      simp only []
      cases hf : networks.find? (fun network => network.UUID == networkUUID) with
      | none => simp [hf]
      | some network =>
        simp only []
        by_cases h1 : network.Typ = "public"
        · by_cases h2 : network.LocationUUID = locationUUID
          · simp [h1, h2, hf]
          · simp [h1, h2, hf]
        · simp [h1, hf]
  · simp only [validatePrivateNetworkForConfiguration, API.Network, API.Networks,
      API.Configuration, API.Configurations]
    cases hn : client.networks "" with
    | error e => simp
    | ok networks =>
      simp only []
      cases hf : networks.find? (fun network => network.UUID == networkUUID) with
      | none => simp [hf]
      | some network =>
        simp only []
        by_cases h1 : network.Typ = "private"
        · by_cases h2 : network.LocationUUID = locationUUID
          · simp only [h1, h2, ne_eq, not_true_eq_false, if_false]
            cases hc : client.configurations "" with
            | error e => simp [hf]
            | ok configurations =>
              simp only []
              cases hfc : configurations.find? (fun config => config.UUID == configUUID) with
              | none => simp [hf, hfc]
              | some config =>
                simp only []
                by_cases h3 : GoStrings.Contains
                    (GoStrings.ToLower env.lowerTable config.TariffLine) "chipcore" = true
                · simp [h3, hf, hfc, h1, h2]
                · simp [h3, hf, hfc, h1, h2]
          · simp [h1, h2, hf]
        · simp [h1, hf]

/-! ## The name check -/

/-- C14: on a remote whose server listing applies the filter of the query exactly, and
which holds a server with the name of the request in the project of the request: once
the five checks before it have passed, the create hook fails at the name check, after
the filtered listing and without a call to the create endpoint; and for a project that
holds no server of that name the name check passes. -/
theorem name_check_per_project (fuel : Nat) (env : Env) (config : Config)
    (d : ResourceData) (tr tr5 : Trace) (client : API)
    (inventory : List DedicatedServer) (existing : DedicatedServer) (otherProject : String)
    (hclient : getDedicatedServerClient d config = .ok client)
    (hremote : ∀ q, client.servers q = .ok (inventory.filter q.selects))
    (hexisting : existing ∈ inventory)
    (hproject : existing.ProjectID = d.project_id)
    (hname : existing.Name = d.name)
    (hsupplied : d.name ≠ "")
    (hpre : runChecks ((specValidationChain env client d).take 5) tr = (.ok (), tr5))
    (hother : otherProject ≠ "")
    (hfree : ∀ s ∈ inventory, ¬ (s.ProjectID = otherProject ∧ s.Name = d.name)) :
    (resourceDedicatedServerV1Create fuel env config d tr
        = some (some ("server name validation failed: " ++ ("server with name '" ++ d.name
            ++ "' already exists in project " ++ d.project_id)), d,
          tr5 ++ [Call.listServers { ProjectID := d.project_id, Name := d.name }]) ∧
      (tr5 ++ [Call.listServers { ProjectID := d.project_id, Name := d.name }]).countP
          Call.isCreate = tr.countP Call.isCreate) ∧
    (∀ t, validateServerNameUniqueness client otherProject d.name t
      = (.ok (), t ++ [Call.listServers { ProjectID := otherProject, Name := d.name }])) := by
  have hsel : (inventory.filter
      (DedicatedServerQueryParams.selects { ProjectID := d.project_id, Name := d.name })).length
      > 0 := by
    have hmem : existing ∈ inventory.filter
        (DedicatedServerQueryParams.selects { ProjectID := d.project_id, Name := d.name }) := by
      rw [List.mem_filter]
      refine ⟨hexisting, ?_⟩
      simp [DedicatedServerQueryParams.selects, hproject, hname]
    exact List.length_pos_of_mem hmem
  have hfail : labelled "server name validation failed: "
      (validateServerNameUniqueness client d.project_id d.name) tr5
      = (.error ("server name validation failed: " ++ ("server with name '" ++ d.name
          ++ "' already exists in project " ++ d.project_id)),
        tr5 ++ [Call.listServers { ProjectID := d.project_id, Name := d.name }]) := by
    simp only [labelled, validateServerNameUniqueness, API.DedicatedServers, hremote]
    simp only [hsel, if_true]
  have hk : (specValidationChain env client d)[5]? = some (labelled
      "server name validation failed: "
      (validateServerNameUniqueness client d.project_id d.name)) := by
    simp [specValidationChain, hsupplied]
  refine ⟨⟨?_, ?_⟩, ?_⟩
  · exact create_of_chain_failure fuel env config d tr _ client _ hclient
      (runChecks_fails_at _ 5 _ tr tr5 _ _ hk hpre hfail)
  · have hall := specValidationChain_noCreate env client d
    have h1 := runChecks_noCreate ((specValidationChain env client d).take 5)
      (fun c hc => hall c (List.mem_of_mem_take hc)) tr
    rw [hpre] at h1
    simp only [] at h1
    simp [List.countP_append, Call.isCreate, h1]
  · intro t
    have hnil : inventory.filter
        (DedicatedServerQueryParams.selects { ProjectID := otherProject, Name := d.name })
        = [] := by
      rw [List.filter_eq_nil_iff]
      intro s hs hsel
      apply hfree s hs
      simp only [DedicatedServerQueryParams.selects, Bool.and_eq_true, Bool.or_eq_true,
        beq_iff_eq] at hsel
      obtain ⟨⟨⟨_, hp⟩, hn⟩, _⟩ := hsel
      exact ⟨hp.resolve_left hother, hn.resolve_left hsupplied⟩
    simp [validateServerNameUniqueness, API.DedicatedServers, hremote, hnil]

/-- C14 on a remote that holds `web-01` in `project-1`: a create request for
`project-1` named `web-01` fails at the name check after six listings and no create
call, and the name check for `project-2` with the same name passes. -/
theorem name_check_per_project_witness :
    (resourceDedicatedServerV1Create 0 sampleEnv (configFor (inventoryRemote [web01]))
        { sampleRequest with name := "web-01" } []
      = some (some ("server name validation failed: " ++ ("server with name '" ++ "web-01"
            ++ "' already exists in project " ++ "project-1")),
          { sampleRequest with name := "web-01" },
          [Call.listServers { ProjectID := "project-1" }, Call.listLocations,
            Call.listConfigurations "loc-1", Call.listTariffs "cfg-1",
            Call.listOSImages "loc-1" "cfg-1"]
            ++ [Call.listServers { ProjectID := "project-1", Name := "web-01" }])) ∧
    validateServerNameUniqueness (inventoryRemote [web01]) "project-2" "web-01" []
      = (.ok (), [] ++ [Call.listServers { ProjectID := "project-2", Name := "web-01" }]) :=
  have h := name_check_per_project 0 sampleEnv (configFor (inventoryRemote [web01]))
    { sampleRequest with name := "web-01" } []
    [Call.listServers { ProjectID := "project-1" }, Call.listLocations,
      Call.listConfigurations "loc-1", Call.listTariffs "cfg-1",
      Call.listOSImages "loc-1" "cfg-1"]
    (inventoryRemote [web01]) [web01] web01 "project-2"
    rfl (fun _ => rfl) (List.mem_singleton.mpr rfl) rfl rfl (by decide) rfl (by decide)
    (by decide)
  ⟨h.1.1, h.2 []⟩

/-- C15 (as stated): a listing that holds only a server with another name, here
`web-010` returned for the requested name `web-01`, makes the name check fail, although
no server of the listing has the requested name. -/
theorem name_check_fails_on_other_names :
    (fixedListingRemote [{ web01 with Name := "web-010" }]).servers
        { ProjectID := "project-1", Name := "web-01" }
      = .ok [{ web01 with Name := "web-010" }] ∧
    (∀ s ∈ [{ web01 with Name := "web-010" }], s.Name ≠ "web-01") ∧
    (validateServerNameUniqueness (fixedListingRemote [{ web01 with Name := "web-010" }])
        "project-1" "web-01" []).1
      = .error "server with name 'web-01' already exists in project project-1" :=
  ⟨rfl, by decide, rfl⟩

/-- C15 (amended): `validateServerNameUniqueness` asks for the servers of the project
filtered by the requested name and passes exactly when that listing is returned empty;
it fails when the request fails and when the listing holds any server, whatever the
names of the servers in it.  On a remote that applies the filter exactly this is an
exact match: the check passes exactly when no server of the project has the name. -/
theorem name_check_passes_iff_listing_empty (client : API) (projectID name : String)
    (tr : Trace) :
    ((validateServerNameUniqueness client projectID name tr).1 = .ok () ↔
      client.servers { ProjectID := projectID, Name := name } = .ok []) ∧
    (validateServerNameUniqueness client projectID name tr).2
      = tr ++ [Call.listServers { ProjectID := projectID, Name := name }] ∧
    (∀ inventory : List DedicatedServer,
      (∀ q, client.servers q = .ok (inventory.filter q.selects)) →
      projectID ≠ "" → name ≠ "" →
      ((validateServerNameUniqueness client projectID name tr).1 = .ok () ↔
        ∀ s ∈ inventory, ¬ (s.ProjectID = projectID ∧ s.Name = name))) := by
  have hfirst : (validateServerNameUniqueness client projectID name tr).1 = .ok () ↔
      client.servers { ProjectID := projectID, Name := name } = .ok [] := by
    simp only [validateServerNameUniqueness, API.DedicatedServers]
    cases h : client.servers { ProjectID := projectID, Name := name } with
    | error err => simp
    | ok servers =>
      cases servers with
      | nil => simp
      | cons s rest => simp
  refine ⟨hfirst, ?_, ?_⟩
  · simp only [validateServerNameUniqueness, API.DedicatedServers]
    cases h : client.servers { ProjectID := projectID, Name := name } with
    | error err => rfl
    | ok servers =>
      simp only []
      split <;> rfl
  · intro inventory hremote hproject hname
    rw [hfirst, hremote]
    simp only [Except.ok.injEq, List.filter_eq_nil_iff]
    constructor
    · intro h s hs hsn
      apply h s hs
      simp [DedicatedServerQueryParams.selects, hsn.1, hsn.2]
    · intro h s hs hsel
      apply h s hs
      simp only [DedicatedServerQueryParams.selects, Bool.and_eq_true, Bool.or_eq_true,
        beq_iff_eq] at hsel
      obtain ⟨⟨⟨_, hp⟩, hn⟩, _⟩ := hsel
      exact ⟨hp.resolve_left hproject, hn.resolve_left hname⟩

/-- C15 (amended) on a remote that filters exactly and holds `web-01` in `project-1`:
the name `web-02` passes the check for `project-1`. -/
theorem name_check_passes_iff_listing_empty_witness :
    (validateServerNameUniqueness (inventoryRemote [web01]) "project-1" "web-02" []).1
      = .ok () :=
  ((name_check_passes_iff_listing_empty (inventoryRemote [web01]) "project-1" "web-02"
    []).2.2 [web01] (fun _ => rfl) (by decide) (by decide)).mpr (by decide)

/-! ## The transport -/

/-- The classification of a completed response by `makeRequest`: below 400 the body is
returned as it is; at 500 and above the failure carries the status and the body; from
400 to 499 the failure is what the decoder makes of the body, the structured error,
the nil pointer for the JSON literal `null`, or, when it does not decode, an error that
carries the status, the raw body and the decoding error. -/
theorem makeRequest_classifies (api : Transport) (method uri : String) (params : Params)
    (jsonBody : Option String) (resp : HTTPResponse) (body : String)
    (hparams : handleParams params = .ok jsonBody)
    (hrequest : api.request method uri jsonBody = .ok resp)
    (hbody : resp.Body = .ok body) :
    (resp.StatusCode < 400 → api.makeRequest method uri params = .ok body) ∧
    (500 ≤ resp.StatusCode →
      api.makeRequest method uri params = .error (.message ("request failed with status "
        ++ toString resp.StatusCode ++ ": " ++ body))) ∧
    (400 ≤ resp.StatusCode → resp.StatusCode < 500 →
      (∀ e, api.unmarshalAPIError body = .ok e →
        api.makeRequest method uri params = .error (.apiError e)) ∧
      (∀ err, api.unmarshalAPIError body = .error err →
        api.makeRequest method uri params = .error (.message ("can't unmarshal response (status "
          ++ toString resp.StatusCode ++ "): " ++ body ++ ", " ++ err)))) := by
  simp only [Transport.makeRequest, hparams, hrequest, hbody, StatusInternalServerError,
    StatusBadRequest, handleStatusCode]
  refine ⟨?_, ?_, ?_⟩
  · intro h
    have h1 : ¬ resp.StatusCode ≥ 500 := by omega
    have h2 : ¬ resp.StatusCode ≥ 400 := by omega
    simp [h1, h2]
  · intro h
    have h1 : resp.StatusCode ≥ 500 := h
    simp [h1]
  · intro h4 h5
    have h1 : ¬ resp.StatusCode ≥ 500 := by omega
    have h2 : resp.StatusCode ≥ 400 := h4
    constructor
    · intro e he
      simp [h1, h2, he]
    · intro err he
      simp [h1, h2, he]

/-- C20 (failing input): a completed response with status 404 whose body is the JSON
literal `null`.  `json.Unmarshal(body, &errBody)` sets the pointer `errBody` to nil and
reports no error, so `makeRequest` fails with a nil `*DedicatedServerAPIError`: an error
that holds no code, message or detail and does not carry the body text either. -/
theorem makeRequest_null_body_gives_nil_error :
    (cannedTransport 404 "null").makeRequest "GET" "/servers/v2/resource/srv-1" Params.none
      = .error (.apiError none) ∧
    (cannedTransport 404 "\x7b\"code\":404,\"message\":\"server not found\"\x7d").makeRequest
        "GET" "/servers/v2/resource/srv-1" Params.none
      = .error (.apiError (some { Code := 404, Message := "server not found", Detail := "" })) ∧
    (cannedTransport 404 "not json").makeRequest "GET" "/servers/v2/resource/srv-1" Params.none
      = .error (.message "can't unmarshal response (status 404): not json, invalid character") :=
  ⟨rfl, rfl, rfl⟩

/-! ## Normalisation without parameters, and supplied partitions -/

/-- C28: when the `os_params` list of the request is empty, `processOSParams` returns the
empty bag and no error, whatever the image and the configuration, and leaves the trace as
it was: no catalog listing is fetched, and the bag has no `partitions` entry. -/
theorem processOSParams_without_params (env : Env) (client : API) (d : ResourceData)
    (osImageUUID configUUID : String) (tr : Trace) (hparams : d.os_params = []) :
    processOSParams env client d osImageUUID configUUID tr = (.ok [], tr) ∧
    ∀ bag, (processOSParams env client d osImageUUID configUUID tr).1 = .ok bag →
      bag.get "partitions" = none := by
  have h : processOSParams env client d osImageUUID configUUID tr = (.ok [], tr) := by
    simp [processOSParams, hparams]
  refine ⟨h, ?_⟩
  intro bag hbag
  rw [h] at hbag
  simp only [Except.ok.injEq] at hbag
  rw [← hbag]
  rfl

/-- C28 on the sample request, whose image `img-1` is a Linux image and whose
configuration `cfg-1` has a default layout: no listing is fetched and nothing is
attached. -/
theorem processOSParams_without_params_witness :
    processOSParams sampleEnv sampleRemote sampleRequest "img-1" "cfg-1" [] = (.ok [], []) :=
  (processOSParams_without_params sampleEnv sampleRemote sampleRequest "img-1" "cfg-1" []
    rfl).1

/-- C29: for an image that resolves to the Linux family and a bag without a RAID mode,
`processOSParams` returns a bag and no error, and the `partitions` entry of that bag does
not depend on the bag supplied: it is the default layout of the configuration when the
configuration lookup succeeds ("/=100%" when the lower-cased tariff line contains
"entry", "/=50%,/var=25%,/home=25%" otherwise), and it is absent when the lookup
fails. -/
theorem supplied_partitions_dropped_without_raid (env : Env) (client : API)
    (d : ResourceData) (osImageUUID configUUID : String) (tr : Trace) (osParams : Bag)
    (rest : List Bag) (images : List OSImage) (image : OSImage)
    (hparams : d.os_params = osParams :: rest)
    (himages : client.osImages "" "" = .ok images)
    (himage : images.find? (fun image => image.UUID == osImageUUID) = some image)
    (hfamily : GoStrings.ToLower env.lowerTable image.Family = "linux")
    (hraid : nonEmptyParam osParams "soft_raid" = none) :
    ∃ bag tr1,
      processOSParams env client d osImageUUID configUUID tr = (.ok bag, tr1) ∧
      (∀ config, (client.Configuration configUUID (tr ++ [Call.listOSImages "" ""])).1
          = .ok config →
        bag.get "partitions" =
          some (if GoStrings.Contains (GoStrings.ToLower env.lowerTable config.TariffLine)
              "entry" then "/=100%" else "/=50%,/var=25%,/home=25%")) ∧
      (∀ err, (client.Configuration configUUID (tr ++ [Call.listOSImages "" ""])).1
          = .error err →
        bag.get "partitions" = none) := by
  have h1 := OSImage_found client osImageUUID "" "" tr images image himages himage
  rw [processOSParams_linux_no_raid env client d osImageUUID configUUID tr _ osParams rest
    image none hparams h1 hfamily hraid]
  simp only [getDefaultPartitionsForConfiguration]
  rcases hc : client.Configuration configUUID (tr ++ [Call.listOSImages "" ""]) with ⟨r, t⟩
  cases r with
  | error err =>
    refine ⟨_, _, rfl, ?_, ?_⟩
    · intro config h
      simp at h
    · intro err2 _
      exact (passThroughParams_keys osParams).2.1
  | ok config =>
    by_cases hentry :
        GoStrings.Contains (GoStrings.ToLower env.lowerTable config.TariffLine) "entry" = true
    · simp only [hentry, if_true]
      refine ⟨_, _, rfl, ?_, ?_⟩
      · intro config2 h
        simp only [Except.ok.injEq] at h
        subst h
        simp [hentry, Bag.get_set]
      · intro err h
        simp at h
    · simp only [hentry, if_false]
      refine ⟨_, _, rfl, ?_, ?_⟩
      · intro config2 h
        simp only [Except.ok.injEq] at h
        subst h
        simp [hentry, Bag.get_set]
      · intro err h
        simp at h

/-- C29 on the sample remote, with a supplied layout that differs from every default:
for `cfg-1` the default of the "Entry Line" comes back, and for a configuration the
remote does not list no layout comes back at all. -/
theorem supplied_partitions_dropped_without_raid_witness :
    (∃ bag tr1,
      processOSParams sampleEnv sampleRemote
          { sampleRequest with os_params := [[("partitions", "/=10%,/data=90%")]] }
          "img-1" "cfg-1" [] = (.ok bag, tr1) ∧
      bag.get "partitions" = some "/=100%") ∧
    (∃ bag tr1,
      processOSParams sampleEnv sampleRemote
          { sampleRequest with os_params := [[("partitions", "/=10%,/data=90%")]] }
          "img-1" "cfg-9" [] = (.ok bag, tr1) ∧
      bag.get "partitions" = none) :=
  ⟨Exists.elim
    (supplied_partitions_dropped_without_raid sampleEnv sampleRemote
      { sampleRequest with os_params := [[("partitions", "/=10%,/data=90%")]] }
      "img-1" "cfg-1" [] [("partitions", "/=10%,/data=90%")] []
      [{ (default : OSImage) with UUID := "img-1", Name := "Ubuntu", Family := "linux" }]
      { (default : OSImage) with UUID := "img-1", Name := "Ubuntu", Family := "linux" }
      rfl rfl rfl rfl rfl)
    (fun bag h => Exists.elim h (fun tr1 h2 =>
      ⟨bag, tr1, h2.1, h2.2.1
        { (default : Configuration) with UUID := "cfg-1", Name := "EL10",
                                         TariffLine := "Entry Line" } rfl⟩)),
   Exists.elim
    (supplied_partitions_dropped_without_raid sampleEnv sampleRemote
      { sampleRequest with os_params := [[("partitions", "/=10%,/data=90%")]] }
      "img-1" "cfg-9" [] [("partitions", "/=10%,/data=90%")] []
      [{ (default : OSImage) with UUID := "img-1", Name := "Ubuntu", Family := "linux" }]
      { (default : OSImage) with UUID := "img-1", Name := "Ubuntu", Family := "linux" }
      rfl rfl rfl rfl rfl)
    (fun bag h => Exists.elim h (fun tr1 h2 =>
      ⟨bag, tr1, h2.1, h2.2.2 "configuration with UUID cfg-9 not found" rfl⟩))⟩

/-! ## The deletion poller and the status of the server -/

/-- A poll that returns does so in the context case, in the timer case, or at a read
whose verdict ends it. -/
theorem pollLoop_ends (verdict : Nat → Option (Except String Unit)) (ctx : Context)
    (pick : Nat → Nat) (timeoutErr : String) (timeout : Int)
    (fuel reads : Nat) (now nextTick : Int) (r : Except String Unit) (n : Nat)
    (h : pollLoop verdict ctx pick timeoutErr timeout fuel reads now nextTick = some (r, n)) :
    r = .error ctx.err ∨ r = .error timeoutErr ∨ (reads < n ∧ verdict (n - 1) = some r) := by
  induction fuel generalizing reads now nextTick with
  | zero => simp [pollLoop] at h
  | succ f ih =>
    rw [pollLoop_succ] at h
    rcases hsel : goSelect (pick reads) ctx timeout nextTick now with ⟨c, t⟩
    rw [hsel] at h
    cases c
    · simp only [Option.some.injEq, Prod.mk.injEq] at h
      exact Or.inl h.1.symm
    · simp only [Option.some.injEq, Prod.mk.injEq] at h
      exact Or.inr (Or.inl h.1.symm)
    · simp only [] at h
      cases hv : verdict reads with
      | some r2 =>
        rw [hv] at h
        simp only [Option.some.injEq, Prod.mk.injEq] at h
        obtain ⟨h1, h2⟩ := h
        subst h1 h2
        exact Or.inr (Or.inr ⟨Nat.lt_succ_self _, by simpa using hv⟩)
      | none =>
        rw [hv] at h
        rcases ih _ _ _ h with h1 | h1 | ⟨h1, h2⟩
        · exact Or.inl h1
        · exact Or.inr (Or.inl h1)
        · exact Or.inr (Or.inr ⟨by omega, h2⟩)

/-- C30: `waitForServerDeleted` does not look at the server a read returns: two
sequences of read answers that fail at the same reads with the same errors, and succeed
at the same reads with whatever servers and statuses, give the same run.  And a run that
returns ends in the context case with the context's error, in the timer case with the
timeout error, or at a read that failed: never at a read that succeeded, since a tick
whose read succeeds sends the loop back to the select with the next tick. -/
theorem waitForServerDeleted_ignores_status (read read2 : Nat → Except String DedicatedServer)
    (ctx : Context) (pick : Nat → Nat) (serverUUID : String) (timeout : Int) (fuel : Nat)
    (hsame : ∀ k, (∃ s s2, read k = .ok s ∧ read2 k = .ok s2) ∨
      (∃ err, read k = .error err ∧ read2 k = .error err)) :
    waitForServerDeleted fuel read ctx pick serverUUID timeout
      = waitForServerDeleted fuel read2 ctx pick serverUUID timeout ∧
    (∀ r n, waitForServerDeleted fuel read ctx pick serverUUID timeout = some (r, n) →
      r = .error ctx.err ∨
      r = .error ("timeout waiting for server " ++ serverUUID ++ " to be deleted") ∨
      (0 < n ∧ ∃ err, read (n - 1) = .error err)) ∧
    (∀ (f reads : Nat) (now nextTick t : Int) (s : DedicatedServer),
      goSelect (pick reads) ctx timeout nextTick now = (SelectCase.tickerC, t) →
      read reads = .ok s →
      waitForServerDeletedLoop read ctx pick serverUUID timeout (f + 1) reads now nextTick
        = waitForServerDeletedLoop read ctx pick serverUUID timeout f (reads + 1) t
            (nextTick + pollInterval)) := by
  refine ⟨?_, ?_, ?_⟩
  · rw [waitForServerDeleted_eq_pollLoop, waitForServerDeleted_eq_pollLoop]
    have hv : (fun k => deletedVerdict (read k)) = (fun k => deletedVerdict (read2 k)) := by
      funext k
      rcases hsame k with ⟨s, s2, h1, h2⟩ | ⟨err, h1, h2⟩
      · rw [h1, h2]
        rfl
      · rw [h1, h2]
    rw [hv]
  · intro r n h
    rw [waitForServerDeleted_eq_pollLoop] at h
    rcases pollLoop_ends _ _ _ _ _ _ _ _ _ _ _ h with h1 | h1 | ⟨h1, h2⟩
    · exact Or.inl h1
    · exact Or.inr (Or.inl h1)
    · refine Or.inr (Or.inr ⟨by omega, ?_⟩)
      cases hr : read (n - 1) with
      | error err => exact ⟨err, rfl⟩
      | ok s =>
        rw [hr] at h2
        simp [deletedVerdict] at h2
  · intro f reads now nextTick t s hsel hr
    simp only [waitForServerDeletedLoop, hsel, hr]

/-- C30 on two scripts of three reads: servers in the statuses ERROR and DELETED, then a
not-found failure, against two ACTIVE servers, then the same failure.  Both runs are the
same run, which goes on polling after the first two reads and succeeds at the third. -/
theorem waitForServerDeleted_ignores_status_witness :
    waitForServerDeleted 3
        (scriptedReads [.ok (serverWithStatus StatusError), .ok (serverWithStatus StatusDeleted)]
          (.error "API error 404: server not found"))
        neverCancelled pickFirst "srv-1" (1800 * Second)
      = waitForServerDeleted 3
        (scriptedReads [.ok (serverWithStatus StatusActive), .ok (serverWithStatus StatusActive)]
          (.error "API error 404: server not found"))
        neverCancelled pickFirst "srv-1" (1800 * Second) ∧
    waitForServerDeleted 3
        (scriptedReads [.ok (serverWithStatus StatusError), .ok (serverWithStatus StatusDeleted)]
          (.error "API error 404: server not found"))
        neverCancelled pickFirst "srv-1" (1800 * Second) = some (.ok (), 3) :=
  ⟨(waitForServerDeleted_ignores_status
      (scriptedReads [.ok (serverWithStatus StatusError), .ok (serverWithStatus StatusDeleted)]
        (.error "API error 404: server not found"))
      (scriptedReads [.ok (serverWithStatus StatusActive), .ok (serverWithStatus StatusActive)]
        (.error "API error 404: server not found"))
      neverCancelled pickFirst "srv-1" (1800 * Second) 3
      (by
        intro k
        rcases k with _ | _ | k
        · exact Or.inl ⟨_, _, rfl, rfl⟩
        · exact Or.inl ⟨_, _, rfl, rfl⟩
        · exact Or.inr ⟨_, rfl, rfl⟩)).1,
    rfl⟩

/-! ## Catalog lookups by id -/

/-- The first element that satisfies `p`, by position: nothing before it does. -/
theorem find?_first {α : Type} (p : α → Bool) (pre post : List α) (x : α)
    (hpre : ∀ y ∈ pre, p y = false) (hx : p x = true) :
    (pre ++ x :: post).find? p = some x := by
  induction pre with
  | nil => simp [List.find?, hx]
  | cons y ys ih =>
    have hy : p y = false := hpre y (List.mem_cons_self _ _)
    have := ih (fun z hz => hpre z (List.mem_cons_of_mem _ hz))
    simp [List.find?, hy, this]

/-- C22: each catalog lookup by id (`Location`, `Configuration`, `Tariff`, `Network` on
the unscoped listing, `OSImage` on the listing of the location and service passed in)
fetches its listing once; when the fetch fails it hands the error of the fetch on; when
the listing is fetched it returns the element at the first position whose UUID is the id
requested, and fails with its not-found error exactly when no element of the listing has
that UUID (`OSImage` then hands back a pointer to an empty image with the error). -/
theorem catalog_lookup_by_id (client : API) (id : String) (tr : Trace) :
    ((∀ e, client.locations = .error e →
        client.Location id tr = (.error e, tr ++ [Call.listLocations])) ∧
      (∀ pre x post, client.locations = .ok (pre ++ x :: post) →
        (∀ y ∈ pre, y.UUID ≠ id) → x.UUID = id →
        client.Location id tr = (.ok x, tr ++ [Call.listLocations])) ∧
      (∀ xs, client.locations = .ok xs →
        ((client.Location id tr).1 = .error ("location with UUID " ++ id ++ " not found")
            ↔ ∀ y ∈ xs, y.UUID ≠ id) ∧
        (client.Location id tr).2 = tr ++ [Call.listLocations])) ∧
    ((∀ e, client.configurations "" = .error e →
        client.Configuration id tr = (.error e, tr ++ [Call.listConfigurations ""])) ∧
      (∀ pre x post, client.configurations "" = .ok (pre ++ x :: post) →
        (∀ y ∈ pre, y.UUID ≠ id) → x.UUID = id →
        client.Configuration id tr = (.ok x, tr ++ [Call.listConfigurations ""])) ∧
      (∀ xs, client.configurations "" = .ok xs →
        ((client.Configuration id tr).1 = .error ("configuration with UUID " ++ id ++ " not found")
            ↔ ∀ y ∈ xs, y.UUID ≠ id) ∧
        (client.Configuration id tr).2 = tr ++ [Call.listConfigurations ""])) ∧
    ((∀ e, client.tariffs "" = .error e →
        client.Tariff id tr = (.error e, tr ++ [Call.listTariffs ""])) ∧
      (∀ pre x post, client.tariffs "" = .ok (pre ++ x :: post) →
        (∀ y ∈ pre, y.UUID ≠ id) → x.UUID = id →
        client.Tariff id tr = (.ok x, tr ++ [Call.listTariffs ""])) ∧
      (∀ xs, client.tariffs "" = .ok xs →
        ((client.Tariff id tr).1 = .error ("tariff with UUID " ++ id ++ " not found")
            ↔ ∀ y ∈ xs, y.UUID ≠ id) ∧
        (client.Tariff id tr).2 = tr ++ [Call.listTariffs ""])) ∧
    ((∀ e, client.networks "" = .error e →
        client.Network id tr = (.error e, tr ++ [Call.listNetworks ""])) ∧
      (∀ pre x post, client.networks "" = .ok (pre ++ x :: post) →
        (∀ y ∈ pre, y.UUID ≠ id) → x.UUID = id →
        client.Network id tr = (.ok x, tr ++ [Call.listNetworks ""])) ∧
      (∀ xs, client.networks "" = .ok xs →
        ((client.Network id tr).1 = .error ("network with UUID " ++ id ++ " not found")
            ↔ ∀ y ∈ xs, y.UUID ≠ id) ∧
        (client.Network id tr).2 = tr ++ [Call.listNetworks ""])) ∧
    (∀ locationUUID serviceUUID : String,
      (∀ e, client.osImages locationUUID serviceUUID = .error e →
        client.OSImage id locationUUID serviceUUID tr
          = ((some default, some e), tr ++ [Call.listOSImages locationUUID serviceUUID])) ∧
      (∀ pre x post, client.osImages locationUUID serviceUUID = .ok (pre ++ x :: post) →
        (∀ y ∈ pre, y.UUID ≠ id) → x.UUID = id →
        client.OSImage id locationUUID serviceUUID tr
          = ((some x, none), tr ++ [Call.listOSImages locationUUID serviceUUID])) ∧
      (∀ xs, client.osImages locationUUID serviceUUID = .ok xs →
        ((client.OSImage id locationUUID serviceUUID tr).1
            = (some default, some ("OS image with UUID " ++ id ++ " not found"))
            ↔ ∀ y ∈ xs, y.UUID ≠ id) ∧
        (client.OSImage id locationUUID serviceUUID tr).2
          = tr ++ [Call.listOSImages locationUUID serviceUUID])) := by
  refine ⟨⟨?_, ?_, ?_⟩, ⟨?_, ?_, ?_⟩, ⟨?_, ?_, ?_⟩, ⟨?_, ?_, ?_⟩, ?_⟩
  · intro e h
    simp [API.Location, API.Locations, h]
  · intro pre x post h hpre hx
    have hf := find?_first (fun location : Location => location.UUID == id) pre post x
      (fun y hy => by simpa using hpre y hy) (by simpa using hx)
    simp [API.Location, API.Locations, h, hf]
  · intro xs h
    cases hf : xs.find? (fun location : Location => location.UUID == id) with
    | none =>
      have hall : ∀ y ∈ xs, y.UUID ≠ id := fun y hy => by
        simpa using List.find?_eq_none.mp hf y hy
      simpa [API.Location, API.Locations, h, hf] using hall
    | some x =>
      have hx : ¬ ∀ y ∈ xs, y.UUID ≠ id := fun hall =>
        hall x (List.mem_of_find?_eq_some hf) (by simpa using List.find?_some hf)
      simp [API.Location, API.Locations, h, hf, hx]
  · intro e h
    simp [API.Configuration, API.Configurations, h]
  · intro pre x post h hpre hx
    have hf := find?_first (fun config : Configuration => config.UUID == id) pre post x
      (fun y hy => by simpa using hpre y hy) (by simpa using hx)
    simp [API.Configuration, API.Configurations, h, hf]
  · intro xs h
    cases hf : xs.find? (fun config : Configuration => config.UUID == id) with
    | none =>
      have hall : ∀ y ∈ xs, y.UUID ≠ id := fun y hy => by
        simpa using List.find?_eq_none.mp hf y hy
      simpa [API.Configuration, API.Configurations, h, hf] using hall
    | some x =>
      have hx : ¬ ∀ y ∈ xs, y.UUID ≠ id := fun hall =>
        hall x (List.mem_of_find?_eq_some hf) (by simpa using List.find?_some hf)
      simp [API.Configuration, API.Configurations, h, hf, hx]
  · intro e h
    simp [API.Tariff, API.Tariffs, h]
  · intro pre x post h hpre hx
    have hf := find?_first (fun tariff : Tariff => tariff.UUID == id) pre post x
      (fun y hy => by simpa using hpre y hy) (by simpa using hx)
    simp [API.Tariff, API.Tariffs, h, hf]
  · intro xs h
    cases hf : xs.find? (fun tariff : Tariff => tariff.UUID == id) with
    | none =>
      have hall : ∀ y ∈ xs, y.UUID ≠ id := fun y hy => by
        simpa using List.find?_eq_none.mp hf y hy
      simpa [API.Tariff, API.Tariffs, h, hf] using hall
    | some x =>
      have hx : ¬ ∀ y ∈ xs, y.UUID ≠ id := fun hall =>
        hall x (List.mem_of_find?_eq_some hf) (by simpa using List.find?_some hf)
      simp [API.Tariff, API.Tariffs, h, hf, hx]
  · intro e h
    simp [API.Network, API.Networks, h]
  · intro pre x post h hpre hx
    have hf := find?_first (fun network : Network => network.UUID == id) pre post x
      (fun y hy => by simpa using hpre y hy) (by simpa using hx)
    simp [API.Network, API.Networks, h, hf]
  · intro xs h
    cases hf : xs.find? (fun network : Network => network.UUID == id) with
    | none =>
      have hall : ∀ y ∈ xs, y.UUID ≠ id := fun y hy => by
        simpa using List.find?_eq_none.mp hf y hy
      simpa [API.Network, API.Networks, h, hf] using hall
    | some x =>
      have hx : ¬ ∀ y ∈ xs, y.UUID ≠ id := fun hall =>
        hall x (List.mem_of_find?_eq_some hf) (by simpa using List.find?_some hf)
      simp [API.Network, API.Networks, h, hf, hx]
  · intro locationUUID serviceUUID
    refine ⟨?_, ?_, ?_⟩
    · intro e h
      simp [API.OSImage, API.OSImages, h]
    · intro pre x post h hpre hx
      have hf := find?_first (fun image : OSImage => image.UUID == id) pre post x
        (fun y hy => by simpa using hpre y hy) (by simpa using hx)
      simp [API.OSImage, API.OSImages, h, hf]
    · intro xs h
      cases hf : xs.find? (fun image : OSImage => image.UUID == id) with
      | none =>
        have hall : ∀ y ∈ xs, y.UUID ≠ id := fun y hy => by
          simpa using List.find?_eq_none.mp hf y hy
        simpa [API.OSImage, API.OSImages, h, hf] using hall
      | some x =>
        have hx : ¬ ∀ y ∈ xs, y.UUID ≠ id := fun hall =>
          hall x (List.mem_of_find?_eq_some hf) (by simpa using List.find?_some hf)
        simp [API.OSImage, API.OSImages, h, hf, hx]

/-- C22 on the sample remote: `cfg-2` is the second configuration of the unscoped
listing and comes back; the remote lists no network, so the lookup of `net-1` fails with
the not-found error of the lookup. -/
theorem catalog_lookup_by_id_witness :
    sampleRemote.Configuration "cfg-2" []
      = (.ok { (default : Configuration) with
            UUID := "cfg-2", Name := "BL20", TariffLine := "Business Line" },
          [] ++ [Call.listConfigurations ""]) ∧
    sampleRemote.Network "net-1" []
      = (.error ("network with UUID " ++ "net-1" ++ " not found"),
          [] ++ [Call.listNetworks ""]) :=
  ⟨(catalog_lookup_by_id sampleRemote "cfg-2" []).2.1.2.1
      [{ (default : Configuration) with
          UUID := "cfg-1", Name := "EL10", TariffLine := "Entry Line" }]
      { (default : Configuration) with
          UUID := "cfg-2", Name := "BL20", TariffLine := "Business Line" }
      [] rfl (by decide) rfl,
    Prod.ext
      (((catalog_lookup_by_id sampleRemote "net-1" []).2.2.2.1.2.2 [] rfl).1.mpr (by decide))
      ((catalog_lookup_by_id sampleRemote "net-1" []).2.2.2.1.2.2 [] rfl).2⟩

/-! ## The location check -/

/-- C26 (as stated): the location `loc-1` is listed with its enabled flag false, and
`validateLocation` accepts it after the one listing; the create hook then goes through
the whole chain and creates the server in that location. -/
theorem validateLocation_accepts_disabled_location :
    disabledLocationRemote.locations
      = .ok [{ UUID := "loc-1", Name := "SPB-1", LocationID := 1, Description := "",
               Enable := false }] ∧
    validateLocation disabledLocationRemote "loc-1" [] = (.ok (), [Call.listLocations]) ∧
    ∃ d1 tr1,
      resourceDedicatedServerV1Create 361 sampleEnv (configFor disabledLocationRemote)
        sampleRequest [] = some (none, d1, tr1) ∧
      tr1.countP Call.isCreate = 1 := by
  refine ⟨rfl, rfl, _, _, rfl, ?_⟩
  decide

/-- C26 (amended): `validateLocation` fetches the location listing once and succeeds
exactly when the listing is fetched and holds a location with the requested id, whatever
the enabled flag of that location. -/
theorem validateLocation_passes_iff_listed (client : API) (locationUUID : String)
    (tr : Trace) :
    ((validateLocation client locationUUID tr).1 = .ok () ↔
      ∃ locations, client.locations = .ok locations ∧
        ∃ l ∈ locations, l.UUID = locationUUID) ∧
    (validateLocation client locationUUID tr).2 = tr ++ [Call.listLocations] := by
  simp only [validateLocation, API.Location, API.Locations]
  cases hl : client.locations with
  | error err => simp
  | ok locations =>
    simp only []
    cases hf : locations.find? (fun location => location.UUID == locationUUID) with
    | none =>
      have hall := List.find?_eq_none.mp hf
      refine ⟨?_, rfl⟩
      constructor
      · intro h
        simp at h
      · rintro ⟨ls, h1, l, hl1, hl2⟩
        simp only [Except.ok.injEq] at h1
        subst h1
        have := hall l hl1
        simp [hl2] at this
    | some l =>
      refine ⟨?_, rfl⟩
      constructor
      · intro _
        exact ⟨locations, rfl, l, List.mem_of_find?_eq_some hf,
          by simpa using List.find?_some hf⟩
      · intro _
        rfl

/-- C26 (amended) on the two remotes: the enabled `loc-1` of the sample remote and the
disabled `loc-1` both pass. -/
theorem validateLocation_passes_iff_listed_witness :
    (validateLocation sampleRemote "loc-1" []).1 = .ok () ∧
    (validateLocation disabledLocationRemote "loc-1" []).1 = .ok () :=
  ⟨(validateLocation_passes_iff_listed sampleRemote "loc-1" []).1.mpr
      ⟨_, rfl, _, List.mem_singleton.mpr rfl, rfl⟩,
    (validateLocation_passes_iff_listed disabledLocationRemote "loc-1" []).1.mpr
      ⟨_, rfl, _, List.mem_singleton.mpr rfl, rfl⟩⟩

/-! ## The read hook and the absence of the server -/

/-- C24: a response with the status 503 and the body "upstream not found" makes
`makeRequest` fail with the error of a server fault, and a read that fails with that
error makes the read hook clear the id of the record and return no error: the server
fault is reported as the absence of the server.  The same fault with the body
"bad gateway" is returned by the hook as an error, wrapped, and the id is kept. -/
theorem read_reports_server_fault_as_absence :
    (cannedTransport 503 "upstream not found").makeRequest "GET" "/servers/v2/resource/srv-1"
        Params.none
      = .error (.message "request failed with status 503: upstream not found") ∧
    resourceDedicatedServerV1Read (configFor gatewayFaultRemote)
        { sampleRequest with id := "srv-1" } []
      = (none, { sampleRequest with id := "" }, [Call.getServer "srv-1"]) ∧
    (cannedTransport 503 "bad gateway").makeRequest "GET" "/servers/v2/resource/srv-1"
        Params.none
      = .error (.message "request failed with status 503: bad gateway") ∧
    resourceDedicatedServerV1Read (configFor badGatewayRemote)
        { sampleRequest with id := "srv-1" } []
      = (some "error reading dedicated server srv-1: request failed with status 503: bad gateway",
          { sampleRequest with id := "srv-1" }, [Call.getServer "srv-1"]) :=
  ⟨rfl, rfl, rfl, rfl⟩

/-! ## The image that normalisation resolves -/

/-- C27: on a remote whose image listing needs its scope, the image `img-1` passes the
OS-image check of step 5 (it is in the listing scoped to `loc-1` and `cfg-1`, with the
family linux), the configuration `cfg-1` can be looked up, the bag holds a login and no
RAID mode; `processOSParams` asks for the listing with an empty location and an empty
service, does not find the image there, and returns the bag without any partition
layout.  The create hook then sends the create call without a layout. -/
theorem processOSParams_looks_up_unscoped_image :
    validateOSImageForConfiguration scopedImagesRemote "img-1" "loc-1" "cfg-1" []
      = (.ok (), [Call.listOSImages "loc-1" "cfg-1"]) ∧
    scopedImagesRemote.osImages "loc-1" "cfg-1"
      = .ok [{ (default : OSImage) with UUID := "img-1", Name := "Ubuntu",
                                        Family := "linux" }] ∧
    (scopedImagesRemote.Configuration "cfg-1" []).1
      = .ok { (default : Configuration) with UUID := "cfg-1", Name := "EL10",
                                             TariffLine := "Entry Line" } ∧
    processOSParams sampleEnv scopedImagesRemote
        { sampleRequest with os_params := [[("login", "root")]] } "img-1" "cfg-1"
        [Call.listOSImages "loc-1" "cfg-1"]
      = (.ok [("login", "root")], [Call.listOSImages "loc-1" "cfg-1", Call.listOSImages "" ""]) ∧
    Bag.get [("login", "root")] "partitions" = none ∧
    ∃ d1 tr1 reads,
      resourceDedicatedServerV1Create 361 sampleEnv (configFor scopedImagesRemote)
        { sampleRequest with os_params := [[("login", "root")]] } [] = some (none, d1, tr1) ∧
      tr1 = [Call.listServers { ProjectID := "project-1" }, Call.listLocations,
          Call.listConfigurations "loc-1", Call.listTariffs "cfg-1",
          Call.listOSImages "loc-1" "cfg-1", Call.listOSImages "" "",
          Call.createServer {
            ProjectID := "project-1"
            LocationUUID := "loc-1"
            ConfigurationUUID := "cfg-1"
            TariffUUID := "tariff-1"
            OSImageUUID := "img-1"
            Name := generateServerName sampleEnv
            PublicNetworkUUID := ""
            PrivateNetworkUUID := ""
            OsParams := [("login", "root")] }] ++ reads := by
  refine ⟨rfl, rfl, rfl, rfl, rfl, _, _, _, rfl, rfl⟩

/-! ## After the create call -/

/-- The configuration lookup, whatever the trace: its answer and the one listing. -/
theorem Configuration_trace (client : API) (configUUID : String) (t : Trace) :
    client.Configuration configUUID t
      = ((client.Configuration configUUID []).1, t ++ [Call.listConfigurations ""]) := by
  simp only [API.Configuration, API.Configurations]
  cases client.configurations "" with
  | error e => rfl
  | ok l =>
    simp only []
    cases List.find? (fun config => config.UUID == configUUID) l <;> rfl

/-- The image lookup, whatever the trace: its answer and the one listing. -/
theorem OSImage_trace (client : API) (osImageUUID locationUUID serviceUUID : String)
    (t : Trace) :
    client.OSImage osImageUUID locationUUID serviceUUID t
      = ((client.OSImage osImageUUID locationUUID serviceUUID []).1,
          t ++ [Call.listOSImages locationUUID serviceUUID]) := by
  simp only [API.OSImage, API.OSImages]
  cases client.osImages locationUUID serviceUUID with
  | error e => rfl
  | ok l =>
    simp only []
    cases List.find? (fun image => image.UUID == osImageUUID) l <;> rfl

/-- The answer of `processOSParams` does not depend on the trace it starts from, and
the requests it adds are the image listing with an empty scope and the unscoped
configuration listing, in this order, or a prefix of these. -/
theorem processOSParams_trace (env : Env) (client : API) (d : ResourceData)
    (osImageUUID configUUID : String) (t : Trace) :
    ∃ calls, processOSParams env client d osImageUUID configUUID t
        = ((processOSParams env client d osImageUUID configUUID []).1, t ++ calls) ∧
      (calls = [] ∨ calls = [Call.listOSImages "" ""] ∨
        calls = [Call.listOSImages "" "", Call.listConfigurations ""]) := by
  simp only [processOSParams]
  cases d.os_params with
  | nil => exact ⟨[], by simp, Or.inl rfl⟩
  | cons osParams rest =>
    simp only []
    rw [OSImage_trace client osImageUUID "" "" t, OSImage_trace client osImageUUID "" "" []]
    rcases (client.OSImage osImageUUID "" "" []).1 with ⟨image, e⟩
    simp only []
    cases image with
    | none => exact ⟨_, rfl, Or.inr (Or.inl rfl)⟩
    | some image =>
      simp only []
      split
      · cases nonEmptyParam osParams "soft_raid" with
        | some softRaid =>
          simp only [validateSoftRaidForConfiguration]
          rw [Configuration_trace client configUUID (t ++ [Call.listOSImages "" ""]),
            Configuration_trace client configUUID ([] ++ [Call.listOSImages "" ""])]
          cases (client.Configuration configUUID []).1 with
          | error e2 => exact ⟨_, by simp, Or.inr (Or.inr rfl)⟩
          | ok config =>
            simp only []
            by_cases hentry : GoStrings.Contains
                (GoStrings.ToLower env.lowerTable config.TariffLine) "entry" = true
                ∧ softRaid ≠ "no_raid"
            · simp only [if_pos hentry]
              exact ⟨_, by simp, Or.inr (Or.inr rfl)⟩
            · simp only [if_neg hentry]
              cases nonEmptyParam osParams "partitions" with
              | none => exact ⟨_, by simp, Or.inr (Or.inr rfl)⟩
              | some partitions =>
                simp only []
                cases validatePartitionsWithRaid partitions softRaid <;>
                  exact ⟨_, by simp, Or.inr (Or.inr rfl)⟩
        | none =>
          simp only [getDefaultPartitionsForConfiguration]
          rw [Configuration_trace client configUUID (t ++ [Call.listOSImages "" ""]),
            Configuration_trace client configUUID ([] ++ [Call.listOSImages "" ""])]
          cases (client.Configuration configUUID []).1 with
          | error e2 => exact ⟨_, by simp, Or.inr (Or.inr rfl)⟩
          | ok config =>
            simp only []
            by_cases hentry : GoStrings.Contains
                (GoStrings.ToLower env.lowerTable config.TariffLine) "entry" = true
            · simp only [if_pos hentry]
              exact ⟨_, by simp, Or.inr (Or.inr rfl)⟩
            · simp only [if_neg hentry]
              exact ⟨_, by simp, Or.inr (Or.inr rfl)⟩
      · exact ⟨_, rfl, Or.inr (Or.inl rfl)⟩

/-- When every check of the specification's chain passes, the create hook is the create
call with the request's fields, the supplied or generated name and the normalised bag,
followed by the status poll and the read-back. -/
theorem create_of_chain_pass_eq (fuel : Nat) (env : Env) (config : Config)
    (d : ResourceData) (tr tr9 : Trace) (client : API)
    (hclient : getDedicatedServerClient d config = .ok client)
    (h : runChecks (specValidationChain env client d) tr = (.ok (), tr9)) :
    ∃ osParams : Bag,
      (processOSParams env client d d.os_image_uuid d.configuration_uuid []).1
        = .ok osParams ∧
      resourceDedicatedServerV1Create fuel env config d tr =
        (match client.CreateDedicatedServer {
            ProjectID := d.project_id
            LocationUUID := d.location_uuid
            ConfigurationUUID := d.configuration_uuid
            TariffUUID := d.tariff_uuid
            OSImageUUID := d.os_image_uuid
            Name := if d.name = "" then generateServerName env else d.name
            PublicNetworkUUID := d.public_network_uuid
            PrivateNetworkUUID := d.private_network_uuid
            OsParams := osParams } tr9 with
        | (.error err, tr) =>
          some ((some ("error creating dedicated server: " ++ err) : Diagnostics), d, tr)
        | (.ok server, tr) =>
          match WaitForServerStatus fuel (pollReads client server.UUID tr) env.ctx env.pick
              server.UUID StatusActive d.timeoutCreate with
          | none => none
          | some (.error err, n) =>
            some (some ("server creation timeout: " ++ err),
              { d with id := server.UUID,
                       name := if d.name = "" then generateServerName env else d.name },
              afterReads server.UUID n tr)
          | some (.ok _, n) =>
            some (resourceDedicatedServerV1Read config
              { d with id := server.UUID,
                       name := if d.name = "" then generateServerName env else d.name }
              (afterReads server.UUID n tr))) := by
  simp only [specValidationChain, runChecks, labelled] at h
  simp only [resourceDedicatedServerV1Create, hclient]
  rcases h1 : validateProjectAccess client d.project_id tr with ⟨r1, t1⟩
  rw [h1] at h
  cases r1 with
  | error e => simp at h
  | ok u1 =>
  simp only [] at h ⊢
  rcases h2 : validateLocation client d.location_uuid t1 with ⟨r2, t2⟩
  rw [h2] at h
  cases r2 with
  | error e => simp at h
  | ok u2 =>
  simp only [] at h ⊢
  rcases h3 : validateConfigurationInLocation client d.configuration_uuid d.location_uuid t2
    with ⟨r3, t3⟩
  rw [h3] at h
  cases r3 with
  | error e => simp at h
  | ok u3 =>
  simp only [] at h ⊢
  rcases h4 : validateTariffForConfiguration client d.tariff_uuid d.configuration_uuid t3
    with ⟨r4, t4⟩
  rw [h4] at h
  cases r4 with
  | error e => simp at h
  | ok u4 =>
  simp only [] at h ⊢
  rcases h5 : validateOSImageForConfiguration client d.os_image_uuid d.location_uuid
    d.configuration_uuid t4 with ⟨r5, t5⟩
  rw [h5] at h
  cases r5 with
  | error e => simp at h
  | ok u5 =>
  simp only [] at h ⊢
  by_cases hname : d.name = ""
  · simp only [hname, if_true, skipped] at h ⊢
    rw [ite_labelled] at h
    rcases h7 : (if d.private_network_uuid ≠ "" then
        validatePrivateNetworkForConfiguration env client d.private_network_uuid
          d.configuration_uuid d.location_uuid t5
      else (.ok (), t5)) with ⟨r7, t7⟩
    rw [h7] at h
    cases r7 with
    | error e => simp at h
    | ok u7 =>
    simp only [] at h ⊢
    rw [ite_labelled] at h
    rcases h8 : (if d.public_network_uuid ≠ "" then
        validatePublicNetworkForLocation client d.public_network_uuid d.location_uuid t7
      else (.ok (), t7)) with ⟨r8, t8⟩
    rw [h8] at h
    cases r8 with
    | error e => simp at h
    | ok u8 =>
    simp only [] at h ⊢
    rcases h9 : processOSParams env client d d.os_image_uuid d.configuration_uuid t8
      with ⟨r9, t9⟩
    rw [h9] at h
    cases r9 with
    | error e => simp at h
    | ok osParams =>
    simp only [Prod.mk.injEq, true_and] at h
    subst h
    simp only []
    obtain ⟨calls, hcalls, _⟩ := processOSParams_trace env client d d.os_image_uuid
      d.configuration_uuid t8
    rw [h9] at hcalls
    simp only [Prod.mk.injEq] at hcalls
    exact ⟨osParams, hcalls.1.symm, rfl⟩
  · simp only [hname, if_false, labelled] at h ⊢
    rcases h6 : validateServerNameUniqueness client d.project_id d.name t5 with ⟨r6, t6⟩
    rw [h6] at h
    cases r6 with
    | error e => simp at h
    | ok u6 =>
    simp only [] at h ⊢
    rw [ite_labelled] at h
    rcases h7 : (if d.private_network_uuid ≠ "" then
        validatePrivateNetworkForConfiguration env client d.private_network_uuid
          d.configuration_uuid d.location_uuid t6
      else (.ok (), t6)) with ⟨r7, t7⟩
    rw [h7] at h
    cases r7 with
    | error e => simp at h
    | ok u7 =>
    simp only [] at h ⊢
    rw [ite_labelled] at h
    rcases h8 : (if d.public_network_uuid ≠ "" then
        validatePublicNetworkForLocation client d.public_network_uuid d.location_uuid t7
      else (.ok (), t7)) with ⟨r8, t8⟩
    rw [h8] at h
    cases r8 with
    | error e => simp at h
    | ok u8 =>
    simp only [] at h ⊢
    rcases h9 : processOSParams env client d d.os_image_uuid d.configuration_uuid t8
      with ⟨r9, t9⟩
    rw [h9] at h
    cases r9 with
    | error e => simp at h
    | ok osParams =>
    simp only [Prod.mk.injEq, true_and] at h
    subst h
    simp only []
    obtain ⟨calls, hcalls, _⟩ := processOSParams_trace env client d d.os_image_uuid
      d.configuration_uuid t8
    rw [h9] at hcalls
    simp only [Prod.mk.injEq] at hcalls
    exact ⟨osParams, hcalls.1.symm, rfl⟩

/-- C25: when the validation chain passes, the create call is accepted with `server`
and the status poll that follows fails with `err` after `n` reads (the timeout, the
ERROR status, a failed read or a cancellation), `resourceDedicatedServerV1Create` returns
the error "server creation timeout: " followed by `err`; the record it leaves carries the
UUID of the created server as its id; what it has issued after the chain is the create
call and the `n` reads of the poll, so no delete and no other mutating call; and a read
hook run on the record it leaves reads that server. -/
theorem create_poll_failure_keeps_server (fuel : Nat) (env : Env) (config : Config)
    (d : ResourceData) (tr tr9 : Trace) (client : API) (osParams : Bag)
    (server : DedicatedServer) (err : String) (n : Nat)
    (hclient : getDedicatedServerClient d config = .ok client)
    (hchain : runChecks (specValidationChain env client d) tr = (.ok (), tr9))
    (hparams : (processOSParams env client d d.os_image_uuid d.configuration_uuid []).1
      = .ok osParams)
    (hcreate : client.create {
          ProjectID := d.project_id
          LocationUUID := d.location_uuid
          ConfigurationUUID := d.configuration_uuid
          TariffUUID := d.tariff_uuid
          OSImageUUID := d.os_image_uuid
          Name := if d.name = "" then generateServerName env else d.name
          PublicNetworkUUID := d.public_network_uuid
          PrivateNetworkUUID := d.private_network_uuid
          OsParams := osParams } = .ok server)
    (hpoll : WaitForServerStatus fuel
        (pollReads client server.UUID (tr9 ++ [Call.createServer {
          ProjectID := d.project_id
          LocationUUID := d.location_uuid
          ConfigurationUUID := d.configuration_uuid
          TariffUUID := d.tariff_uuid
          OSImageUUID := d.os_image_uuid
          Name := if d.name = "" then generateServerName env else d.name
          PublicNetworkUUID := d.public_network_uuid
          PrivateNetworkUUID := d.private_network_uuid
          OsParams := osParams }]))
        env.ctx env.pick server.UUID StatusActive d.timeoutCreate = some (.error err, n)) :
    ∃ d1 reads,
      resourceDedicatedServerV1Create fuel env config d tr
        = some (some ("server creation timeout: " ++ err), d1,
            tr9 ++ [Call.createServer {
          ProjectID := d.project_id
          LocationUUID := d.location_uuid
          ConfigurationUUID := d.configuration_uuid
          TariffUUID := d.tariff_uuid
          OSImageUUID := d.os_image_uuid
          Name := if d.name = "" then generateServerName env else d.name
          PublicNetworkUUID := d.public_network_uuid
          PrivateNetworkUUID := d.private_network_uuid
          OsParams := osParams }] ++ reads) ∧
      d1.id = server.UUID ∧
      reads = List.replicate n (Call.getServer server.UUID) ∧
      reads.countP Call.isMutating = 0 ∧
      (resourceDedicatedServerV1Read config d1
          (tr9 ++ [Call.createServer {
          ProjectID := d.project_id
          LocationUUID := d.location_uuid
          ConfigurationUUID := d.configuration_uuid
          TariffUUID := d.tariff_uuid
          OSImageUUID := d.os_image_uuid
          Name := if d.name = "" then generateServerName env else d.name
          PublicNetworkUUID := d.public_network_uuid
          PrivateNetworkUUID := d.private_network_uuid
          OsParams := osParams }] ++ reads)).2.2
        = tr9 ++ [Call.createServer {
          ProjectID := d.project_id
          LocationUUID := d.location_uuid
          ConfigurationUUID := d.configuration_uuid
          TariffUUID := d.tariff_uuid
          OSImageUUID := d.os_image_uuid
          Name := if d.name = "" then generateServerName env else d.name
          PublicNetworkUUID := d.public_network_uuid
          PrivateNetworkUUID := d.private_network_uuid
          OsParams := osParams }] ++ reads ++ [Call.getServer server.UUID] := by
  obtain ⟨osParams0, h0, heq⟩ := create_of_chain_pass_eq fuel env config d tr tr9 client
    hclient hchain
  rw [hparams] at h0
  simp only [Except.ok.injEq] at h0
  subst h0
  rw [heq]
  simp only [API.CreateDedicatedServer, hcreate, hpoll]
  refine ⟨_, _, rfl, rfl, rfl, ?_, ?_⟩
  · rw [List.countP_eq_zero]
    intro c hc
    rw [List.eq_of_mem_replicate hc]
    simp [Call.isMutating]
  · exact resourceDedicatedServerV1Read_trace config _ _ client hclient

/-- C25 on a remote that accepts the create call and then reports the server in the
ERROR status: the hook fails at the first read of the poll, the record carries the id
`srv-1`, and the trace ends with the create call and that one read. -/
theorem create_poll_failure_keeps_server_witness :
    ∃ d1 reads,
      resourceDedicatedServerV1Create 361 sampleEnv (configFor errorStatusRemote)
          sampleRequest []
        = some (some ("server creation timeout: " ++ "server srv-1 entered error state"), d1,
            [Call.listServers { ProjectID := "project-1" }, Call.listLocations,
              Call.listConfigurations "loc-1", Call.listTariffs "cfg-1",
              Call.listOSImages "loc-1" "cfg-1"] ++ [Call.createServer {
          ProjectID := "project-1"
          LocationUUID := "loc-1"
          ConfigurationUUID := "cfg-1"
          TariffUUID := "tariff-1"
          OSImageUUID := "img-1"
          Name := generateServerName sampleEnv
          PublicNetworkUUID := ""
          PrivateNetworkUUID := ""
          OsParams := [] }] ++ reads) ∧
      d1.id = "srv-1" ∧
      reads = List.replicate 1 (Call.getServer "srv-1") ∧
      reads.countP Call.isMutating = 0 :=
  Exists.elim
    (create_poll_failure_keeps_server 361 sampleEnv (configFor errorStatusRemote)
      sampleRequest []
      [Call.listServers { ProjectID := "project-1" }, Call.listLocations,
        Call.listConfigurations "loc-1", Call.listTariffs "cfg-1",
        Call.listOSImages "loc-1" "cfg-1"]
      errorStatusRemote [] (serverWithStatus StatusBuilding) "server srv-1 entered error state" 1
      rfl rfl rfl rfl rfl)
    (fun d1 h => Exists.elim h (fun reads h2 =>
      ⟨d1, reads, h2.1, h2.2.1, h2.2.2.1, h2.2.2.2.1⟩))

/-! ## Update -/

/-- The OS-image check issues the one listing scoped to the location and the
configuration. -/
theorem validateOSImageForConfiguration_trace (client : API)
    (osImageUUID locationUUID configUUID : String) (t : Trace) :
    (validateOSImageForConfiguration client osImageUUID locationUUID configUUID t).2
      = t ++ [Call.listOSImages locationUUID configUUID] := by
  simp only [validateOSImageForConfiguration, API.OSImages]
  cases client.osImages locationUUID configUUID with
  | error e => rfl
  | ok images =>
    simp only []
    split <;> rfl

/-- C23: once the client is obtained and with fuel for the poll, the update hook returns,
and the requests it has added to the trace hold a mutating call exactly when the OS-image
field changed, the OS-image check passes for the new image and `processOSParams` returns
a bag for it.  In that case the requests are the listings of the two checks, one update
call for the server carrying the new image id and the normalised bag, and reads of the
server: none when the update call is rejected, otherwise those of the poll for ACTIVE
under the update timeout, followed by the read of the read hook when the poll succeeds.
When the OS-image field did not change the hook is the read hook: one read, no other
request. -/
theorem update_reinstalls_iff_image_changed (fuel : Nat) (env : Env) (config : Config)
    (d : ResourceData) (tr : Trace) (client : API)
    (hclient : getDedicatedServerClient d config = .ok client)
    (hfuel : 0 < fuel) (htimeout : d.timeoutUpdate < fuel * pollInterval) :
    ∃ diags d1 new,
      resourceDedicatedServerV1Update fuel env config d tr = some (diags, d1, tr ++ new) ∧
      ((∃ c ∈ new, c.isMutating = true) ↔
        (d.os_image_uuid_changed = true ∧
          (validateOSImageForConfiguration client d.os_image_uuid d.location_uuid
            d.configuration_uuid tr).1 = .ok () ∧
          ∃ osParams, (processOSParams env client d d.os_image_uuid d.configuration_uuid
            []).1 = .ok osParams)) ∧
      (∀ osParams, d.os_image_uuid_changed = true →
        (validateOSImageForConfiguration client d.os_image_uuid d.location_uuid
          d.configuration_uuid tr).1 = .ok () →
        (processOSParams env client d d.os_image_uuid d.configuration_uuid []).1
          = .ok osParams →
        ∃ listings reads,
          new = listings ++ [Call.updateServer d.id
            { OSImageUUID := d.os_image_uuid, OsParams := osParams }] ++ reads ∧
          (∀ c ∈ listings, c.isMutating = false) ∧
          (∀ c ∈ reads, c = Call.getServer d.id) ∧
          (∀ e, client.update d.id { OSImageUUID := d.os_image_uuid, OsParams := osParams }
              = .error e →
            diags = some ("OS reinstall failed: " ++ e) ∧ reads = []) ∧
          (∀ s, client.update d.id { OSImageUUID := d.os_image_uuid, OsParams := osParams }
              = .ok s →
            ∃ v n,
              WaitForServerStatus fuel
                (pollReads client d.id (tr ++ listings ++ [Call.updateServer d.id
                  { OSImageUUID := d.os_image_uuid, OsParams := osParams }]))
                env.ctx env.pick d.id StatusActive d.timeoutUpdate = some (v, n) ∧
              (∀ err, v = .error err →
                diags = some ("OS reinstall timeout: " ++ err) ∧
                reads = List.replicate n (Call.getServer d.id)) ∧
              (v = .ok () →
                reads = List.replicate n (Call.getServer d.id) ++ [Call.getServer d.id]))) ∧
      (d.os_image_uuid_changed = false →
        resourceDedicatedServerV1Update fuel env config d tr
          = some (resourceDedicatedServerV1Read config d tr) ∧
        new = [Call.getServer d.id]) := by
  by_cases hch : d.os_image_uuid_changed = true
  swap
  · have hch2 : d.os_image_uuid_changed = false := by simpa using hch
    have hU : resourceDedicatedServerV1Update fuel env config d tr
        = some (resourceDedicatedServerV1Read config d tr) := by
      simp [resourceDedicatedServerV1Update, hclient, hch2]
    have htrace := resourceDedicatedServerV1Read_trace config d tr client hclient
    refine ⟨(resourceDedicatedServerV1Read config d tr).1,
      (resourceDedicatedServerV1Read config d tr).2.1, [Call.getServer d.id], ?_, ?_, ?_, ?_⟩
    · rw [hU, ← htrace]
    · constructor
      · rintro ⟨c, hc, hm⟩
        rw [List.mem_singleton] at hc
        subst hc
        simp [Call.isMutating] at hm
      · rintro ⟨h, _⟩
        exact absurd h hch
    · intro osParams h
      exact absurd h hch
    · intro _
      exact ⟨hU, rfl⟩
  · have h5t := validateOSImageForConfiguration_trace client d.os_image_uuid d.location_uuid
      d.configuration_uuid tr
    have hU : resourceDedicatedServerV1Update fuel env config d tr
        = reinstallServerOS fuel env config d client d.id tr := by
      simp [resourceDedicatedServerV1Update, hclient, hch]
    rw [hU]
    simp only [reinstallServerOS]
    rcases h5 : validateOSImageForConfiguration client d.os_image_uuid d.location_uuid
      d.configuration_uuid tr with ⟨r5, t5⟩
    rw [h5] at h5t
    simp only [] at h5t
    subst h5t
    cases r5 with
    | error e5 =>
      refine ⟨_, _, [Call.listOSImages d.location_uuid d.configuration_uuid], rfl, ?_, ?_, ?_⟩
      · constructor
        · rintro ⟨c, hc, hm⟩
          rw [List.mem_singleton] at hc
          subst hc
          simp [Call.isMutating] at hm
        · rintro ⟨_, h, _⟩
          simp at h
      · intro osParams _ h
        simp at h
      · intro h
        rw [h] at hch
        simp at hch
    | ok u5 =>
      simp only []
      obtain ⟨calls, hcalls, hshape⟩ := processOSParams_trace env client d d.os_image_uuid
        d.configuration_uuid (tr ++ [Call.listOSImages d.location_uuid d.configuration_uuid])
      have hlist : ∀ c ∈ [Call.listOSImages d.location_uuid d.configuration_uuid] ++ calls,
          c.isMutating = false := by
        intro c hc
        rcases List.mem_append.mp hc with h | h
        · rw [List.mem_singleton.mp h]
          rfl
        · rcases hshape with rfl | rfl | rfl
          · simp at h
          · rw [List.mem_singleton.mp h]
            rfl
          · simp only [List.mem_cons, List.mem_singleton, List.not_mem_nil, or_false] at h
            rcases h with rfl | rfl <;> rfl
      rw [hcalls]
      cases h9 : (processOSParams env client d d.os_image_uuid d.configuration_uuid []).1 with
      | error e9 =>
        refine ⟨some e9, d, [Call.listOSImages d.location_uuid d.configuration_uuid] ++ calls,
          by simp, ?_, ?_, ?_⟩
        · constructor
          · rintro ⟨c, hc, hm⟩
            rw [hlist c hc] at hm
            simp at hm
          · rintro ⟨_, _, osParams, h⟩
            simp at h
        · intro osParams _ _ h
          simp at h
        · intro h
          rw [h] at hch
          simp at hch
      | ok osParams =>
        simp only [API.UpdateDedicatedServer]
        have hmem : ∀ reads : Trace, ∃ c ∈ ([Call.listOSImages d.location_uuid
            d.configuration_uuid] ++ calls) ++ [Call.updateServer d.id
              { OSImageUUID := d.os_image_uuid, OsParams := osParams }] ++ reads,
            c.isMutating = true := fun reads =>
          ⟨Call.updateServer d.id { OSImageUUID := d.os_image_uuid, OsParams := osParams },
            by simp, rfl⟩
        cases hu : client.update d.id { OSImageUUID := d.os_image_uuid, OsParams := osParams }
          with
        | error eu =>
          refine ⟨some ("OS reinstall failed: " ++ eu), d,
            ([Call.listOSImages d.location_uuid d.configuration_uuid] ++ calls)
            ++ [Call.updateServer d.id { OSImageUUID := d.os_image_uuid, OsParams := osParams }]
            ++ [], by simp, ⟨fun _ => ⟨hch, trivial, osParams, rfl⟩, fun _ => hmem []⟩, ?_, ?_⟩
          · intro osParams2 _ _ h
            simp only [Except.ok.injEq] at h
            subst h
            refine ⟨_, [], rfl, hlist, by simp, ?_, ?_⟩
            · intro e he
              rw [hu] at he
              simp only [Except.error.injEq] at he
              subst he
              exact ⟨rfl, rfl⟩
            · intro s hs
              rw [hu] at hs
              simp at hs
          · intro h
            rw [h] at hch
            simp at hch
        | ok s =>
          simp only []
          obtain ⟨v, n, hw⟩ := WaitForServerStatus_returns fuel
            (pollReads client d.id
              (tr ++ [Call.listOSImages d.location_uuid d.configuration_uuid] ++ calls ++
                [Call.updateServer d.id
                  { OSImageUUID := d.os_image_uuid, OsParams := osParams }]))
            env.ctx env.pick d.id StatusActive d.timeoutUpdate hfuel htimeout
          rw [hw]
          cases v with
          | error err =>
            refine ⟨some ("OS reinstall timeout: " ++ err), d,
              ([Call.listOSImages d.location_uuid d.configuration_uuid] ++ calls)
              ++ [Call.updateServer d.id
                { OSImageUUID := d.os_image_uuid, OsParams := osParams }]
              ++ List.replicate n (Call.getServer d.id), by simp [afterReads],
              ⟨fun _ => ⟨hch, trivial, osParams, rfl⟩, fun _ => hmem _⟩, ?_, ?_⟩
            · intro osParams2 _ _ h
              simp only [Except.ok.injEq] at h
              subst h
              refine ⟨_, _, rfl, hlist, fun c hc => List.eq_of_mem_replicate hc, ?_, ?_⟩
              · intro e he
                rw [hu] at he
                simp at he
              · intro s2 _
                refine ⟨.error err, n, by simpa using hw, ?_, ?_⟩
                · intro err2 h2
                  simp only [Except.error.injEq] at h2
                  subst h2
                  exact ⟨rfl, rfl⟩
                · intro h2
                  simp at h2
            · intro h
              rw [h] at hch
              simp at hch
          | ok u =>
            simp only []
            have htrace := resourceDedicatedServerV1Read_trace config d
              (afterReads d.id n
                (tr ++ [Call.listOSImages d.location_uuid d.configuration_uuid] ++ calls ++
                  [Call.updateServer d.id
                    { OSImageUUID := d.os_image_uuid, OsParams := osParams }]))
              client hclient
            rcases hR : resourceDedicatedServerV1Read config d
              (afterReads d.id n
                (tr ++ [Call.listOSImages d.location_uuid d.configuration_uuid] ++ calls ++
                  [Call.updateServer d.id
                    { OSImageUUID := d.os_image_uuid, OsParams := osParams }]))
              with ⟨dg, d2, t2⟩
            rw [hR] at htrace
            simp only [] at htrace
            subst htrace
            refine ⟨dg, d2, ([Call.listOSImages d.location_uuid d.configuration_uuid] ++ calls)
              ++ [Call.updateServer d.id
                { OSImageUUID := d.os_image_uuid, OsParams := osParams }]
              ++ (List.replicate n (Call.getServer d.id) ++ [Call.getServer d.id]),
              by simp [afterReads], ⟨fun _ => ⟨hch, trivial, osParams, rfl⟩, fun _ => hmem _⟩, ?_, ?_⟩
            · intro osParams2 _ _ h
              simp only [Except.ok.injEq] at h
              subst h
              refine ⟨_, _, rfl, hlist, ?_, ?_, ?_⟩
              · intro c hc
                rcases List.mem_append.mp hc with h | h
                · exact List.eq_of_mem_replicate h
                · exact List.mem_singleton.mp h
              · intro e he
                rw [hu] at he
                simp at he
              · intro s2 _
                refine ⟨.ok u, n, by simpa using hw, ?_, ?_⟩
                · intro err2 h2
                  simp at h2
                · intro _
                  rfl
            · intro h
              rw [h] at hch
              simp at hch

/-- C23 on the sample remote, for the server `srv-1` with a changed image and a login
supplied: the hook returns after listings, one update call carrying `img-1` and the bag
with the login and the default layout of `cfg-1`, and reads of `srv-1`. -/
theorem update_reinstalls_iff_image_changed_witness :
    ∃ diags d1 new listings reads,
      resourceDedicatedServerV1Update 361 sampleEnv sampleConfig
          { sampleRequest with id := "srv-1", os_image_uuid_changed := true,
                               os_params := [[("login", "root")]] } []
        = some (diags, d1, [] ++ new) ∧
      (∃ c ∈ new, c.isMutating = true) ∧
      new = listings ++ [Call.updateServer "srv-1"
        { OSImageUUID := "img-1", OsParams := [("partitions", "/=100%"), ("login", "root")] }]
        ++ reads ∧
      (∀ c ∈ listings, c.isMutating = false) ∧
      (∀ c ∈ reads, c = Call.getServer "srv-1") := by
  obtain ⟨diags, d1, new, h1, h2, h3, _⟩ :=
    update_reinstalls_iff_image_changed 361 sampleEnv sampleConfig
      { sampleRequest with id := "srv-1", os_image_uuid_changed := true,
                           os_params := [[("login", "root")]] } [] sampleRemote rfl
      (by decide) (by decide)
  obtain ⟨listings, reads, h4, h5, h6, _⟩ :=
    h3 [("partitions", "/=100%"), ("login", "root")] rfl rfl rfl
  exact ⟨diags, d1, new, listings, reads, h1, h2.mpr ⟨rfl, rfl, _, rfl⟩, h4, h5, h6⟩

/-! ## Query parameters -/

/-- In a list without repeated keys, a lookup finds exactly the pairs of the list. -/
theorem lookup_eq_some_iff_mem {β : Type} (l : List (String × β))
    (h : (l.map Prod.fst).Nodup) (k : String) (v : β) :
    l.lookup k = some v ↔ (k, v) ∈ l := by
  induction l with
  | nil => simp
  | cons a l ih =>
    obtain ⟨a1, a2⟩ := a
    simp only [List.map_cons, List.nodup_cons, List.mem_map, Prod.exists, exists_and_right,
      exists_eq_right, not_exists] at h
    rw [List.lookup_cons]
    by_cases hk : k = a1
    · subst hk
      simp only [beq_self_eq_true, Option.some.injEq, List.mem_cons, Prod.mk.injEq, true_and]
      constructor
      · intro h1
        exact Or.inl h1.symm
      · rintro (h1 | h1)
        · exact h1.symm
        · exact absurd h1 (h.1 v)
    · have hb : (k == a1) = false := by simpa using hk
      simp only [hb, List.mem_cons, Prod.mk.injEq, hk, false_and, false_or]
      exact ih h.2

/-- Two lists without repeated keys that hold the same pairs answer lookups alike. -/
theorem lookup_perm {β : Type} (l₁ l₂ : List (String × β)) (hp : l₁.Perm l₂)
    (h : (l₁.map Prod.fst).Nodup) (k : String) : l₁.lookup k = l₂.lookup k := by
  have h2 : (l₂.map Prod.fst).Nodup := (hp.map Prod.fst).nodup_iff.mp h
  apply Option.ext
  intro v
  simp only [Option.mem_def]
  rw [lookup_eq_some_iff_mem l₁ h, lookup_eq_some_iff_mem l₂ h2]
  exact hp.mem_iff

/-- The encoding does not depend on the order in which the values were stored. -/
theorem Encode_perm (QueryEscape : String → String) (v₁ v₂ : Bag) (hp : v₁.Perm v₂)
    (h : (v₁.map Prod.fst).Nodup) : Encode QueryEscape v₁ = Encode QueryEscape v₂ := by
  haveI : IsAntisymm String (fun a b => a.data ≤ b.data) :=
    ⟨fun a b h1 h2 => String.ext (le_antisymm h1 h2)⟩
  haveI : IsTotal String (fun a b => a.data ≤ b.data) :=
    ⟨fun a b => le_total a.data b.data⟩
  haveI : IsTrans String (fun a b => a.data ≤ b.data) :=
    ⟨fun a b c h1 h2 => le_trans h1 h2⟩
  have hkeys : (v₁.map Prod.fst).insertionSort (fun a b => a.data ≤ b.data)
      = (v₂.map Prod.fst).insertionSort (fun a b => a.data ≤ b.data) :=
    List.eq_of_perm_of_sorted
      (((List.perm_insertionSort _ _).trans (hp.map Prod.fst)).trans
        (List.perm_insertionSort _ _).symm)
      (List.sorted_insertionSort _ _) (List.sorted_insertionSort _ _)
  have hget : ∀ key, v₁.get key = v₂.get key := fun key => lookup_perm v₁ v₂ hp h key
  simp only [Encode, hkeys, hget]

/-- The loop over a map without repeated keys whose values are all kept: every entry is
stored, the latest first. -/
theorem queryValues_foldl (m : List (String × JSONValue)) (acc : Bag)
    (hkeep : ∀ kv ∈ m, kv.2 ≠ JSONValue.null ∧ kv.2 ≠ JSONValue.str "")
    (hnodup : (m.map Prod.fst).Nodup)
    (hacc : ∀ kv ∈ m, ∀ a ∈ acc, a.1 ≠ kv.1) :
    m.foldl
        (fun v kv =>
          if kv.2 ≠ JSONValue.null ∧ kv.2 ≠ JSONValue.str "" then v.set kv.1 kv.2.sprint
          else v) acc
      = (m.map (fun kv => (kv.1, kv.2.sprint))).reverse ++ acc := by
  induction m generalizing acc with
  | nil => simp
  | cons x xs ih =>
    simp only [List.map_cons, List.nodup_cons, List.mem_map, not_exists, not_and] at hnodup
    have hx := hkeep x (List.mem_cons_self _ _)
    have hset : acc.set x.1 x.2.sprint = (x.1, x.2.sprint) :: acc := by
      simp only [Bag.set, List.cons.injEq, true_and]
      rw [List.filter_eq_self]
      intro a ha
      simpa using hacc x (List.mem_cons_self _ _) a ha
    simp only [List.foldl_cons, if_pos hx, hset]
    rw [ih ((x.1, x.2.sprint) :: acc)
      (fun kv hkv => hkeep kv (List.mem_cons_of_mem _ hkv)) hnodup.2
      (by
        intro kv hkv a ha
        rcases List.mem_cons.mp ha with h | h
        · subst h
          exact fun heq => hnodup.1 kv hkv heq.symm
        · exact hacc kv (List.mem_cons_of_mem _ hkv) a h)]
    simp

/-- The values stored for a decoded map that holds the pairs of `fields`, in any order,
when `fields` has no repeated key and only values that are kept. -/
theorem queryValues_perm (QueryEscape : String → String)
    (m fields : List (String × JSONValue)) (hp : m.Perm fields)
    (hkeep : ∀ kv ∈ fields, kv.2 ≠ JSONValue.null ∧ kv.2 ≠ JSONValue.str "")
    (hnodup : (fields.map Prod.fst).Nodup) :
    Encode QueryEscape (queryValues m)
        = Encode QueryEscape (fields.map (fun kv => (kv.1, kv.2.sprint))) ∧
      (queryValues m).length = fields.length := by
  have hnodup1 : (m.map Prod.fst).Nodup := (hp.map Prod.fst).nodup_iff.mpr hnodup
  have hq : queryValues m = (m.map (fun kv => (kv.1, kv.2.sprint))).reverse := by
    have := queryValues_foldl m [] (fun kv hkv => hkeep kv (hp.mem_iff.mp hkv)) hnodup1
      (by simp)
    simpa [queryValues] using this
  have hperm : (queryValues m).Perm (fields.map (fun kv => (kv.1, kv.2.sprint))) := by
    rw [hq]
    exact (List.reverse_perm _).trans (hp.map _)
  constructor
  · apply Encode_perm QueryEscape _ _ hperm
    have hk : (queryValues m).map Prod.fst = (m.map Prod.fst).reverse := by
      rw [hq, List.map_reverse, List.map_map]
      rfl
    rw [hk]
    exact List.nodup_reverse.mpr hnodup1
  · rw [hperm.length_eq, List.length_map]

/-- The loop over any decoded map: a value stored under a key was printed from an entry
of the map with that key which is neither `nil` nor the empty string, and every such
entry leaves a value under its key. -/
theorem queryValues_get (m : List (String × JSONValue)) (acc : Bag) (k : String) :
    (∀ x, Bag.get (m.foldl
        (fun v kv =>
          if kv.2 ≠ JSONValue.null ∧ kv.2 ≠ JSONValue.str "" then v.set kv.1 kv.2.sprint
          else v) acc) k = some x →
      acc.get k = some x ∨
      ∃ value, (k, value) ∈ m ∧ value ≠ JSONValue.null ∧ value ≠ JSONValue.str "" ∧
        x = value.sprint) ∧
    ((acc.get k ≠ none ∨
        ∃ value, (k, value) ∈ m ∧ value ≠ JSONValue.null ∧ value ≠ JSONValue.str "") →
      Bag.get (m.foldl
        (fun v kv =>
          if kv.2 ≠ JSONValue.null ∧ kv.2 ≠ JSONValue.str "" then v.set kv.1 kv.2.sprint
          else v) acc) k ≠ none) := by
  induction m generalizing acc with
  | nil =>
    constructor
    · intro x h
      exact Or.inl h
    · rintro (h | ⟨value, h, _⟩)
      · exact h
      · simp at h
  | cons kv m ih =>
    obtain ⟨key, value⟩ := kv
    simp only [List.foldl_cons]
    by_cases hkeep : value ≠ JSONValue.null ∧ value ≠ JSONValue.str ""
    · simp only [if_pos hkeep]
      obtain ⟨ih1, ih2⟩ := ih (acc.set key value.sprint)
      constructor
      · intro x h
        rcases ih1 x h with h1 | ⟨value2, h1, h2, h3, h4⟩
        · rw [Bag.get_set] at h1
          by_cases hk : k = key
          · rw [if_pos hk] at h1
            simp only [Option.some.injEq] at h1
            exact Or.inr ⟨value, by simp [hk], hkeep.1, hkeep.2, h1.symm⟩
          · rw [if_neg hk] at h1
            exact Or.inl h1
        · exact Or.inr ⟨value2, List.mem_cons_of_mem _ h1, h2, h3, h4⟩
      · intro h
        apply ih2
        rcases h with h | ⟨value2, h1, h2, h3⟩
        · left
          rw [Bag.get_set]
          by_cases hk : k = key
          · simp [hk]
          · simpa [hk] using h
        · rcases List.mem_cons.mp h1 with h4 | h4
          · left
            simp only [Prod.mk.injEq] at h4
            rw [Bag.get_set, if_pos h4.1]
            simp
          · exact Or.inr ⟨value2, h4, h2, h3⟩
    · simp only [if_neg hkeep]
      obtain ⟨ih1, ih2⟩ := ih acc
      constructor
      · intro x h
        rcases ih1 x h with h1 | ⟨value2, h1, h2, h3, h4⟩
        · exact Or.inl h1
        · exact Or.inr ⟨value2, List.mem_cons_of_mem _ h1, h2, h3, h4⟩
      · intro h
        apply ih2
        rcases h with h | ⟨value2, h1, h2, h3⟩
        · exact Or.inl h
        · rcases List.mem_cons.mp h1 with h4 | h4
          · simp only [Prod.mk.injEq] at h4
            rw [h4.2] at h2 h3
            exact absurd ⟨h2, h3⟩ hkeep
          · exact Or.inr ⟨value2, h4, h2, h3⟩

/-- The JSON object of a filter has no repeated key, and the loop keeps all its values. -/
theorem jsonFields_wellformed (q : DedicatedServerQueryParams) :
    (q.jsonFields.map Prod.fst).Nodup ∧
    ∀ kv ∈ q.jsonFields, kv.2 ≠ JSONValue.null ∧ kv.2 ≠ JSONValue.str "" := by
  by_cases h1 : q.UUID = "" <;> by_cases h2 : q.ProjectID = "" <;>
    by_cases h3 : q.Name = "" <;> by_cases h4 : q.Status = "" <;>
    simp [DedicatedServerQueryParams.jsonFields, h1, h2, h3, h4]

/-- C21: for a filter object whose JSON text decodes to the map of its tagged fields, in
whatever order the map is ranged over, `setQueryParams` returns the URI followed by `?`
and by one `key=value` pair for each of `name`, `project_id`, `status` and `uuid` whose
field is not empty, in this order, the value being the escaped value of the field, the
pairs joined by `&`; no pair is emitted for an empty field, and when all four fields are
empty the URI is returned as it is.  For any decoded map, the loop stores a value under a
key exactly when the map has an entry for the key that is neither `nil` nor the empty
string, and the value is the printed value of such an entry. -/
theorem setQueryParams_emits_non_empty_fields
    (unmarshal : String → Except String (List (String × JSONValue)))
    (QueryEscape : String → String) (uri jsonParams : String)
    (q : DedicatedServerQueryParams) (m : List (String × JSONValue))
    (hdecode : unmarshal jsonParams = .ok m) (hfields : m.Perm q.jsonFields) :
    setQueryParams unmarshal QueryEscape uri (.ok jsonParams) =
      .ok (match (if q.Name ≠ "" then [("name", q.Name)] else []) ++
            (if q.ProjectID ≠ "" then [("project_id", q.ProjectID)] else []) ++
            (if q.Status ≠ "" then [("status", q.Status)] else []) ++
            (if q.UUID ≠ "" then [("uuid", q.UUID)] else []) with
        | [] => uri
        | pair :: pairs =>
          uri ++ "?" ++ "&".intercalate
            ((pair :: pairs).map (fun kv => QueryEscape kv.1 ++ "=" ++ QueryEscape kv.2))) ∧
    (q.UUID = "" → q.ProjectID = "" → q.Name = "" → q.Status = "" →
      setQueryParams unmarshal QueryEscape uri (.ok jsonParams) = .ok uri) ∧
    (∀ (queryParams : List (String × JSONValue)) (key : String),
      (∀ x, (queryValues queryParams).get key = some x →
        ∃ value, (key, value) ∈ queryParams ∧ value ≠ JSONValue.null ∧
          value ≠ JSONValue.str "" ∧ x = value.sprint) ∧
      ((∃ value, (key, value) ∈ queryParams ∧ value ≠ JSONValue.null ∧
          value ≠ JSONValue.str "") →
        (queryValues queryParams).get key ≠ none)) := by
  obtain ⟨hnd, hkeep⟩ := jsonFields_wellformed q
  obtain ⟨hE, hlen⟩ := queryValues_perm QueryEscape m q.jsonFields hfields hkeep hnd
  have hmain : setQueryParams unmarshal QueryEscape uri (.ok jsonParams) =
      if q.jsonFields.length > 0 then
        .ok (uri ++ "?" ++ Encode QueryEscape
          (q.jsonFields.map (fun kv => (kv.1, kv.2.sprint))))
      else .ok uri := by
    simp only [setQueryParams, hdecode, hE, hlen]
  rw [hmain]
  refine ⟨?_, ?_, ?_⟩
  · by_cases h1 : q.UUID = "" <;> by_cases h2 : q.ProjectID = "" <;>
      by_cases h3 : q.Name = "" <;> by_cases h4 : q.Status = "" <;>
      simp only [DedicatedServerQueryParams.jsonFields, h1, h2, h3, h4, ne_eq,
        not_true_eq_false, not_false_eq_true, if_true, if_false, List.append_nil,
        List.nil_append, List.cons_append, List.map_cons, List.map_nil, List.length_cons,
        List.length_nil, JSONValue.sprint] <;>
      rfl
  · intro h1 h2 h3 h4
    simp [DedicatedServerQueryParams.jsonFields, h1, h2, h3, h4]
  · intro queryParams key
    obtain ⟨h1, h2⟩ := queryValues_get queryParams [] key
    constructor
    · intro x hx
      rcases h1 x hx with h | h
      · simp [Bag.get_nil] at h
      · exact h
    · intro h
      exact h2 (Or.inr h)

/-- C21 on the filter for the project `project-1` and the name `web-01`, with a decoder
that lists the name before the project and an escaping that leaves plain text as it is:
the two parameters come out in the order of the keys, and neither `uuid` nor `status`
appears. -/
theorem setQueryParams_emits_non_empty_fields_witness :
    setQueryParams sampleUnmarshal id "/servers/v2/resource"
        (.ok "\x7b\"project_id\":\"project-1\",\"name\":\"web-01\"\x7d")
      = .ok "/servers/v2/resource?name=web-01&project_id=project-1" :=
  (setQueryParams_emits_non_empty_fields sampleUnmarshal id "/servers/v2/resource"
    "\x7b\"project_id\":\"project-1\",\"name\":\"web-01\"\x7d"
    { ProjectID := "project-1", Name := "web-01" }
    [("name", JSONValue.str "web-01"), ("project_id", JSONValue.str "project-1")]
    rfl (List.Perm.swap _ _ _)).1

end Selectel
